import Mathlib

/-!
# mqttinfo: packet codec and broker probing

A shallow embedding of `pkg/mqttinfolib/mqttinfolib.go`.

* Byte strings (`[]byte`, and Go `string`s, which are byte sequences) are lists of
  natural numbers, each standing for one byte value.
* `int` values are `Int`; `uint16` arithmetic is `Nat` arithmetic reduced `% 65536`;
  `byte(x)` is reduction `% 256`.
* The network is a state machine `Net σ` threaded explicitly through every routine.
-/

namespace Mqttinfo

/-- Byte strings: the contents of a Go `[]byte` or `string`. -/
abbrev Bytes := List Nat

/-! ## Packet codec -/

/-- The body of the `for` loop of `encodeLength`, run at most `fuel` times.
`length % 128` and `length / 128` are Go's truncated remainder and quotient on `int`. -/
def encodeLengthLoop : Nat → Int → Bytes → Bytes
  | 0, _, encLength => encLength
  | fuel + 1, length, encLength =>
    let digit := (Int.tmod length 128 % 256).toNat
    let length := Int.tdiv length 128
    let digit := if length > 0 then digit ||| 0x80 else digit
    let encLength := encLength ++ [digit]
    if length = 0 then encLength else encodeLengthLoop fuel length encLength

/-- Model of `encodeLength`. The loop divides `length` by 128 each round, so
`length.natAbs + 1` rounds always reach the `break`. -/
def encodeLength (length : Int) : Bytes :=
  encodeLengthLoop (length.natAbs + 1) length []

/-- The MQTT variable-length-integer decoder, as the protocol states it: add up
`(byte mod 128) * multiplier`, the multiplier growing by 128 per byte, and stop at
the first byte whose high bit is clear. Returns the value and the unread bytes,
or `none` when the input ends before a final byte. -/
def decodeLengthAux : Nat → Nat → Bytes → Option (Nat × Bytes)
  | _, _, [] => none
  | multiplier, value, byte :: rest =>
    let value := value + (byte % 128) * multiplier
    if byte / 128 % 2 = 0 then some (value, rest)
    else decodeLengthAux (multiplier * 128) value rest

/-- The decoder started at multiplier 1 and value 0. -/
def decodeLength (bs : Bytes) : Option (Nat × Bytes) :=
  decodeLengthAux 1 0 bs

/-- `binary.BigEndian.PutUint16` into a fresh two-byte slice. -/
def putUint16 (v : Nat) : Bytes :=
  [v / 256 % 256, v % 256]

/-! ### The literal packet catalogue (the `const` block) -/

def connectV4 : Bytes :=
  [0x10, 0x14, 0x00, 0x04, 0x4d, 0x51, 0x54, 0x54, 0x04, 0x02, 0x00, 0x3c, 0x00, 0x08,
   0x6d, 0x71, 0x74, 0x74, 0x69, 0x6e, 0x66, 0x6f]

def connectV5 : Bytes :=
  [0x10, 0x15, 0x00, 0x04, 0x4d, 0x51, 0x54, 0x54, 0x05, 0x02, 0x00, 0x3c, 0x00, 0x00,
   0x08, 0x6d, 0x71, 0x74, 0x74, 0x69, 0x6e, 0x66, 0x6f]

def pingreq : Bytes :=
  [0xc0, 0x00]

def pingresp : Bytes :=
  [0xd0, 0x00]

def publishV4Q0 : Bytes :=
  [0x32, 0x04, 0x00, 0x01, 0x41, 0x42]

def publishV4Q1 : Bytes :=
  [0x32, 0x06, 0x00, 0x01, 0x41, 0x00, 0x01, 0x42]

def publishV4Q2 : Bytes :=
  [0x34, 0x06, 0x00, 0x01, 0x41, 0x00, 0x01, 0x42]

def publishV4Q3 : Bytes :=
  [0x36, 0x06, 0x00, 0x01, 0x41, 0x00, 0x01, 0x42]

def publishV5Q1 : Bytes :=
  [0x32, 0x07, 0x00, 0x01, 0x41, 0x00, 0x01, 0x00, 0x42]

def publishV5Q2 : Bytes :=
  [0x34, 0x07, 0x00, 0x01, 0x41, 0x00, 0x01, 0x00, 0x42]

def publishV5Q3 : Bytes :=
  [0x36, 0x07, 0x00, 0x01, 0x41, 0x00, 0x01, 0x00, 0x42]

def pubackV4Q1 : Bytes :=
  [0x40, 0x02, 0x00, 0x01]

def pubackV5Q1a : Bytes :=
  [0x40, 0x02, 0x00, 0x01]

def pubackV5Q1b : Bytes :=
  [0x40, 0x03, 0x00, 0x01, 0x10]

def pubrecV4Q2 : Bytes :=
  [0x50, 0x02, 0x00, 0x01]

def pubrecV5Q2a : Bytes :=
  [0x50, 0x02, 0x00, 0x01]

def pubrecV5Q2b : Bytes :=
  [0x50, 0x03, 0x00, 0x01, 0x10]

def pubrelV4Q2 : Bytes :=
  [0x62, 0x02, 0x00, 0x01]

def pubrelV5Q2 : Bytes :=
  [0x62, 0x03, 0x00, 0x01, 0x00]

def pubcompV4Q2 : Bytes :=
  [0x70, 0x02, 0x00, 0x01]

def pubcompV5Q2 : Bytes :=
  [0x70, 0x02, 0x00, 0x01]

def subAllV4Q0 : Bytes :=
  [0x82, 0x06, 0x00, 0x01, 0x00, 0x01, 0x23, 0x00]

def subAllV5Q0 : Bytes :=
  [0x82, 0x07, 0x00, 0x01, 0x00, 0x00, 0x01, 0x23, 0x00]

def subackV4Q0 : Bytes :=
  [0x90, 0x03, 0x00, 0x01, 0x00]

def subackV5Q0 : Bytes :=
  [0x90, 0x04, 0x00, 0x01, 0x00, 0x00]

def subackV4Q1 : Bytes :=
  [0x90, 0x03, 0x00, 0x01, 0x01]

def subackV5Q1 : Bytes :=
  [0x90, 0x04, 0x00, 0x01, 0x00, 0x01]

def subInvalidV4Q0 : Bytes :=
  [0x82, 0x07, 0x00, 0x01, 0x00, 0x02, 0x41, 0x2b, 0x00]

def subInvalidV5Q0 : Bytes :=
  [0x82, 0x08, 0x00, 0x01, 0x00, 0x00, 0x02, 0x41, 0x2b, 0x00]

def subInvalidUTF8V4Q0 : Bytes :=
  [0x82, 0x07, 0x00, 0x01, 0x00, 0x02, 0xc3, 0x28, 0x00]

def subInvalidUTF8V5Q0 : Bytes :=
  [0x82, 0x08, 0x00, 0x01, 0x00, 0x00, 0x02, 0xc3, 0x28, 0x00]

def pubSysV4Q1 : Bytes :=
  [0x33, 0x12, 0x00, 0x0d, 0x24, 0x53, 0x59, 0x53, 0x2f, 0x6d, 0x71, 0x74, 0x74, 0x69,
   0x6e, 0x66, 0x6f, 0x00, 0x01, 0x41]

def pubSysV5Q1 : Bytes :=
  [0x33, 0x13, 0x00, 0x0d, 0x24, 0x53, 0x59, 0x53, 0x2f, 0x6d, 0x71, 0x74, 0x74, 0x69,
   0x6e, 0x66, 0x6f, 0x00, 0x01, 0x00, 0x41]

def subSysAV4Q0 : Bytes :=
  [0x82, 0x12, 0x00, 0x01, 0x00, 0x0d, 0x24, 0x53, 0x59, 0x53, 0x2f, 0x6d, 0x71, 0x74,
   0x74, 0x69, 0x6e, 0x66, 0x6f, 0x01]

def subSysAV5Q0 : Bytes :=
  [0x82, 0x13, 0x00, 0x01, 0x00, 0x00, 0x0d, 0x24, 0x53, 0x59, 0x53, 0x2f, 0x6d, 0x71,
   0x74, 0x74, 0x69, 0x6e, 0x66, 0x6f, 0x01]

def subSysAllV4Q0 : Bytes :=
  [0x82, 0x0b, 0x00, 0x01, 0x00, 0x06, 0x24, 0x53, 0x59, 0x53, 0x2f, 0x23, 0x00]

def subSysAllV5Q0 : Bytes :=
  [0x82, 0x0c, 0x00, 0x01, 0x00, 0x00, 0x06, 0x24, 0x53, 0x59, 0x53, 0x2f, 0x23, 0x00]

def subSysVerneV4Q0 : Bytes :=
  [0x82, 0x20, 0x00, 0x01, 0x00, 0x1b, 0x24, 0x53, 0x59, 0x53, 0x2f, 0x2b, 0x2f, 0x72,
   0x6f, 0x75, 0x74, 0x65, 0x72, 0x2f, 0x73, 0x75, 0x62, 0x73, 0x63, 0x72, 0x69, 0x70,
   0x74, 0x69, 0x6f, 0x6e, 0x73, 0x00]

def subSysVerneV5Q0 : Bytes :=
  [0x82, 0x21, 0x00, 0x01, 0x00, 0x00, 0x1b, 0x24, 0x53, 0x59, 0x53, 0x2f, 0x2b, 0x2f,
   0x72, 0x6f, 0x75, 0x74, 0x65, 0x72, 0x2f, 0x73, 0x75, 0x62, 0x73, 0x63, 0x72, 0x69,
   0x70, 0x74, 0x69, 0x6f, 0x6e, 0x73, 0x00]

def subSysMosqV4Q0 : Bytes :=
  [0x82, 0x20, 0x00, 0x01, 0x00, 0x1b, 0x24, 0x53, 0x59, 0x53, 0x2f, 0x2b, 0x2f, 0x6c,
   0x6f, 0x61, 0x64, 0x2f, 0x6d, 0x65, 0x73, 0x73, 0x61, 0x67, 0x65, 0x73, 0x2f, 0x73,
   0x65, 0x6e, 0x74, 0x2f, 0x2b, 0x00]

def subSysMosqV5Q0 : Bytes :=
  [0x82, 0x21, 0x00, 0x01, 0x00, 0x00, 0x1b, 0x24, 0x53, 0x59, 0x53, 0x2f, 0x2b, 0x2f,
   0x6c, 0x6f, 0x61, 0x64, 0x2f, 0x6d, 0x65, 0x73, 0x73, 0x61, 0x67, 0x65, 0x73, 0x2f,
   0x73, 0x65, 0x6e, 0x74, 0x2f, 0x2b, 0x00]

/-- The fixed part that `getConnectV4` appends after the remaining length:
`"\x00\x04MQTT\x04\xc2\x00\x3c\x00\x08mqttinfo"`. -/
def connectHeadV4 : Bytes :=
  [0x00, 0x04, 0x4d, 0x51, 0x54, 0x54, 0x04, 0xc2, 0x00, 0x3c, 0x00, 0x08,
   0x6d, 0x71, 0x74, 0x74, 0x69, 0x6e, 0x66, 0x6f]

/-- The fixed part that `getConnectV5` appends after the remaining length:
`"\x00\x04MQTT\x05\xc2\x00\x3c\x00\x08mqttinfo"`. -/
def connectHeadV5 : Bytes :=
  [0x00, 0x04, 0x4d, 0x51, 0x54, 0x54, 0x05, 0xc2, 0x00, 0x3c, 0x00, 0x08,
   0x6d, 0x71, 0x74, 0x74, 0x69, 0x6e, 0x66, 0x6f]

/-! ### The result record -/

/-- The `BrokerInfo` struct. `Username` and `Password` are kept as byte strings, since
the code only takes their byte length and copies their bytes. -/
structure BrokerInfo where
  Host : String
  Port : Int
  Username : Bytes
  Password : Bytes
  V4 : Bool
  V5 : Bool
  V4Anonymous : Bool
  V4PublishSYS : Bool
  V4FilterSYS : Bool
  V4SubscribeAll : Bool
  V4InvalidTopics : Bool
  V4InvalidUTF8Topic : Bool
  V4QoS1 : Bool
  V4QoS2 : Bool
  V4QoS3Response : Bool
  V5Anonymous : Bool
  V5PublishSYS : Bool
  V5FilterSYS : Bool
  V5SubscribeAll : Bool
  V5InvalidTopics : Bool
  V5InvalidUTF8Topic : Bool
  V5QoS1 : Bool
  V5QoS2 : Bool
  V5QoS3Response : Bool
  TypeGuessed : String
  Failed : Bool
  Error : String
  deriving DecidableEq, Repr

/-- Model of `NewBrokerInfo`. -/
def NewBrokerInfo (hostname : String) (port : Int) (username password : Bytes) : BrokerInfo :=
  { Host := hostname
    Port := port
    Username := username
    Password := password
    V4 := false
    V5 := false
    V4Anonymous := false
    V4PublishSYS := false
    V4FilterSYS := true
    V4SubscribeAll := false
    V4InvalidTopics := false
    V4InvalidUTF8Topic := false
    V4QoS1 := false
    V4QoS2 := false
    V4QoS3Response := false
    V5Anonymous := false
    V5PublishSYS := false
    V5FilterSYS := true
    V5SubscribeAll := false
    V5InvalidTopics := false
    V5InvalidUTF8Topic := false
    V5QoS1 := false
    V5QoS2 := false
    V5QoS3Response := false
    TypeGuessed := "unknown"
    Failed := false
    Error := "" }

/-- Model of `getConnectV4`. `usernameLen` and `pwdLen` are `uint16`, and so is their
sum, which is only then widened to `int`. -/
def BrokerInfo.getConnectV4 (b : BrokerInfo) : Bytes :=
  if b.Username = [] then Mqttinfo.connectV4
  else
    let usernameLen := b.Username.length % 65536
    let pwdLen := b.Password.length % 65536
    let remainingLen : Int := 24 + (((usernameLen + pwdLen) % 65536 : Nat) : Int)
    let remainingLenBytes := encodeLength remainingLen
    let packet : Bytes := [0x10]
    let usernameLenBytes := putUint16 usernameLen
    let pwdLenBytes := putUint16 pwdLen
    let packet := packet ++ remainingLenBytes
    let packet := packet ++ connectHeadV4
    let packet := packet ++ usernameLenBytes
    let packet := packet ++ b.Username
    let packet := packet ++ pwdLenBytes
    let packet := packet ++ b.Password
    packet

/-- Model of `getConnectV5`. -/
def BrokerInfo.getConnectV5 (b : BrokerInfo) : Bytes :=
  if b.Username = [] then Mqttinfo.connectV5
  else
    let usernameLen := b.Username.length % 65536
    let pwdLen := b.Password.length % 65536
    let remainingLen : Int := 25 + (((usernameLen + pwdLen) % 65536 : Nat) : Int)
    let remainingLenBytes := encodeLength remainingLen
    let packet : Bytes := [0x10]
    let usernameLenBytes := putUint16 usernameLen
    let pwdLenBytes := putUint16 pwdLen
    let packet := packet ++ remainingLenBytes
    let packet := packet ++ connectHeadV5
    let packet := packet ++ usernameLenBytes
    let packet := packet ++ b.Username
    let packet := packet ++ pwdLenBytes
    let packet := packet ++ b.Password
    packet

/-- Model of `getServer`: `fmt.Sprintf("%v:%v", b.Host, b.Port)`. -/
def BrokerInfo.getServer (b : BrokerInfo) : String :=
  b.Host ++ ":" ++ toString b.Port

/-! ### Reading a CONNECT packet back

The decoding side of the round-trip properties, written from the MQTT packet layout:
fixed header `0x10`, remaining length, then exactly that many bytes holding protocol
name, level, connect flags, keep-alive, client id and, as the flags say, user name and
password. -/

/-- A packet is framed when it is `0x10`, the variable-length encoding of some `n`, and
then exactly `n` further bytes. -/
def Framed (packet : Bytes) : Prop :=
  ∃ (n : Nat) (body : Bytes), packet = 0x10 :: (encodeLength (n : Int) ++ body) ∧ body.length = n

/-- Read a big-endian 16-bit number. -/
def readUint16 : Bytes → Option (Nat × Bytes)
  | hi :: lo :: rest => some (hi * 256 + lo, rest)
  | _ => none

/-- Read a field with a 16-bit length prefix. -/
def readField (bs : Bytes) : Option (Bytes × Bytes) :=
  match readUint16 bs with
  | some (len, rest) => if len ≤ rest.length then some (rest.take len, rest.drop len) else none
  | none => none

/-- What a CONNECT packet carries. -/
structure ConnectFields where
  level : Nat
  flags : Nat
  keepAlive : Nat
  clientId : Bytes
  username : Option Bytes
  password : Option Bytes
  deriving DecidableEq, Repr

/-- Read an optional field: present exactly when `present` holds. -/
def readOptField ( present : Bool) (bs : Bytes) : Option (Option Bytes × Bytes) :=
  if present then
    match readField bs with
    | some (field, rest) => some (some field, rest)
    | none => none
  else some (none, bs)

/-- Parse the variable header and payload of a v3.1.1 CONNECT; every byte must be used. -/
def parseConnectBodyV4 (body : Bytes) : Option ConnectFields :=
  match readField body with
  | some (name, level :: flags :: rest) =>
    if name ≠ [0x4d, 0x51, 0x54, 0x54] ∨ level ≠ 0x04 then none
    else
      match readUint16 rest with
      | some (keepAlive, rest) =>
        match readField rest with
        | some (clientId, rest) =>
          match readOptField (flags / 128 % 2 = 1) rest with
          | some (username, rest) =>
            match readOptField (flags / 64 % 2 = 1) rest with
            | some (password, []) =>
              some { level := level, flags := flags, keepAlive := keepAlive,
                     clientId := clientId, username := username, password := password }
            | _ => none
          | none => none
        | none => none
      | none => none
  | _ => none

/-- Parse a whole v3.1.1 CONNECT packet: type byte, remaining length, and a body of
exactly that length. -/
def parseConnectV4 (packet : Bytes) : Option ConnectFields :=
  match packet with
  | 0x10 :: afterType =>
    match decodeLength afterType with
    | some (n, body) => if body.length = n then parseConnectBodyV4 body else none
    | none => none
  | _ => none

/-- The bytes that follow the remaining-length field of a CONNECT packet. -/
def connectBody (packet : Bytes) : Bytes :=
  match decodeLength packet.tail with
  | some (_, body) => body
  | none => []

/-- The v5.0 body that corresponds to a v3.1.1 body: level byte (offset 6) set to `0x05`
and one `0x00` properties-length byte put after the keep-alive (offset 10). -/
def toV5Body (bodyV4 : Bytes) : Bytes :=
  bodyV4.take 6 ++ [0x05] ++ (bodyV4.drop 7).take 3 ++ [0x00] ++ bodyV4.drop 10

/-! ## The network

Every routine talks to the broker through `net.DialTimeout`, `SetReadDeadline`,
`Write`, `Read` and `Close`. The broker and the transport are a state machine over an
arbitrary state `σ`; each call takes the current state and hands back the next one, so
any deterministic broker (one that reacts to what was written, one that follows a
script, one that fails at some point) is an instance. -/

/-- A connection handle (`net.Conn`). -/
abbrev Conn := Nat

/-- What one `Read` call hands back: the bytes it delivered and whether `err != nil`.
A failing read may still have delivered bytes. -/
structure ReadResult where
  data : Bytes
  err : Bool
  deriving DecidableEq, Repr

/-- The calls the code makes on the network. -/
structure Net (σ : Type) where
  /-- `net.DialTimeout("tcp", server, 10s)`: a connection, or `none` on error. -/
  dial : String → σ → Option Conn × σ
  /-- `conn.SetReadDeadline(...)`: `true` when the error is `nil`. -/
  setReadDeadline : Conn → σ → Bool × σ
  /-- `conn.Write(packet)`; the code never looks at what it returns. -/
  write : Conn → Bytes → σ → σ
  /-- `conn.Read(buf)` for a buffer of the given length. -/
  read : Conn → Nat → σ → ReadResult × σ
  /-- `conn.Close()`. -/
  close : Conn → σ → σ
  /-- `time.Sleep(1s)`: the broker may act meanwhile. -/
  sleep : σ → σ

/-- `make([]byte, n)`: a zeroed buffer. -/
def make (n : Nat) : Bytes :=
  List.replicate n 0

/-- The outcome of `bytes, err := conn.Read(buf)`: the buffer afterwards, the count
and the error flag. -/
structure ReadOut (σ : Type) where
  buf : Bytes
  bytes : Nat
  err : Bool
  w : σ

/-- The bytes held by `buf` after a read that delivered `data` into it: at most
`len(buf)` bytes are copied over the start of `buf`, the rest of `buf` keeps what it
held. -/
def readInto (buf data : Bytes) : Bytes :=
  data.take buf.length ++ buf.drop (data.take buf.length).length

/-- Model of `bytes, err := conn.Read(buf)`. -/
def connRead {σ : Type} (n : Net σ) (conn : Conn) (buf : Bytes) (w : σ) : ReadOut σ :=
  let (r, w) := n.read conn buf.length w
  { buf := readInto buf r.data, bytes := (r.data.take buf.length).length, err := r.err, w := w }

/-- `strings.HasPrefix(string(buf), pattern)`. -/
def startsWith (buf pattern : Bytes) : Bool :=
  pattern.isPrefixOf buf

/-- The errors the routines return (the Go code builds them with `fmt.Errorf`). -/
inductive Err where
  /-- "TCP connection failed: ..." -/
  | tcpConnectionFailed
  /-- the error of `SetReadDeadline` -/
  | setReadDeadlineFailed
  /-- "CONNACK read failed: ..." -/
  | connackReadFailed
  /-- "Connection request rejected (code ...)" -/
  | connectionRejected (code : Nat)
  /-- "Broker does not respond to PINGREQ" -/
  | noPingResponse
  /-- "Dial to ... failed" -/
  | dialFailed (server : String)
  /-- "CONNACK too short (... bytes)" -/
  | connackTooShort (bytes : Nat)
  /-- "CONNACK: ..." with the given reason text -/
  | connack (reason : String)
  deriving DecidableEq, Repr

/-! ## Connection manager -/

/-- Model of `connectV4`. The count returned by `Read` is discarded (`_, err = ...`). -/
def BrokerInfo.connectV4 {σ : Type} (b : BrokerInfo) (n : Net σ) (w : σ) :
    Except Err Conn × σ :=
  match n.dial b.getServer w with
  | (none, w) => (.error .tcpConnectionFailed, w)
  | (some conn, w) =>
    match n.setReadDeadline conn w with
    | (false, w) => (.error .setReadDeadlineFailed, w)
    | (true, w) =>
      let w := n.write conn b.getConnectV4 w
      let r := connRead n conn (make 100) w
      if r.err then (.error .connackReadFailed, r.w)
      else if r.buf.getD 3 0 ≠ 0x00 then (.error (.connectionRejected (r.buf.getD 3 0)), r.w)
      else (.ok conn, r.w)

/-- Model of `connectV5`. -/
def BrokerInfo.connectV5 {σ : Type} (b : BrokerInfo) (n : Net σ) (w : σ) :
    Except Err Conn × σ :=
  match n.dial b.getServer w with
  | (none, w) => (.error .tcpConnectionFailed, w)
  | (some conn, w) =>
    match n.setReadDeadline conn w with
    | (false, w) => (.error .setReadDeadlineFailed, w)
    | (true, w) =>
      let w := n.write conn b.getConnectV5 w
      let r := connRead n conn (make 100) w
      if r.err then (.error .connackReadFailed, r.w)
      else if r.buf.getD 3 0 ≠ 0x00 then (.error (.connectionRejected (r.buf.getD 3 0)), r.w)
      else (.ok conn, r.w)

/-- Model of `pingsBack`. -/
def pingsBack {σ : Type} (n : Net σ) (conn : Conn) (w : σ) : Bool × σ :=
  let w := n.write conn pingreq w
  let r := connRead n conn (make 100) w
  if r.err then (false, r.w)
  else if r.buf.take r.bytes ≠ pingresp then (false, r.w)
  else (true, r.w)

/-- The `switch reasonCode` of `CheckConnectionV4`, after `b.V4 = true` and
`b.V4Anonymous = false`: the error returned, if any, and the record. -/
def switchReasonCodeV4 (reasonCode : Nat) (b : BrokerInfo) : Option Err × BrokerInfo :=
  if reasonCode = 0x00 then (none, { b with V4Anonymous := true })
  else if reasonCode = 0x01 then (some (.connack "Protocol version not supported"), b)
  else if reasonCode = 0x02 then (some (.connack "Identifier rejected"), b)
  else if reasonCode = 0x03 then (some (.connack "Server unavailable"), b)
  else if reasonCode = 0x04 then (none, b)
  else if reasonCode = 0x05 then (none, b)
  else (some (.connack "Unknown reason code"), { b with V4 := false })

/-- Model of `CheckConnectionV4`. The deferred `conn.Close()` runs at every return that
follows the dial. -/
def BrokerInfo.CheckConnectionV4 {σ : Type} (b : BrokerInfo) (n : Net σ) (w : σ) :
    Option Err × BrokerInfo × σ :=
  let server := b.Host ++ ":" ++ toString b.Port
  match n.dial server w with
  | (none, w) => (some (.dialFailed server), b, w)
  | (some conn, w) =>
    let w := n.write conn Mqttinfo.connectV4 w
    let r := connRead n conn (make 100) w
    if r.err then (some .connackReadFailed, b, n.close conn r.w)
    else if r.bytes < 4 then (some (.connackTooShort r.bytes), b, n.close conn r.w)
    else
      let reasonCode := r.buf.getD 3 0
      let b := { b with V4 := true, V4Anonymous := false }
      let (e, b) := switchReasonCodeV4 reasonCode b
      (e, b, n.close conn r.w)

/-- The `switch reasonCode` of `CheckConnectionV5`, after `b.V5 = true` and
`b.V5Anonymous = false`. -/
def switchReasonCodeV5 (reasonCode : Nat) (b : BrokerInfo) : Option Err × BrokerInfo :=
  if reasonCode = 0x00 then (none, { b with V5Anonymous := true })
  else if reasonCode = 0x01 then (none, { b with V5 := false })
  else if reasonCode = 0x05 then (none, { b with V5 := false })
  else if reasonCode = 0x80 then (some (.connack "Unspecified error"), b)
  else if reasonCode = 0x81 then (some (.connack "Malformed packet"), b)
  else if reasonCode = 0x82 then (some (.connack "Protocol error"), b)
  else if reasonCode = 0x83 then (some (.connack "Implementation specific error"), b)
  else if reasonCode = 0x84 then (none, { b with V5 := false })
  else if reasonCode = 0x85 then (some (.connack "Client identifier not valid"), b)
  else if reasonCode = 0x86 then (none, b)
  else if reasonCode = 0x87 then (none, b)
  else if reasonCode = 0x88 then (some (.connack "Server unavailable"), b)
  else if reasonCode = 0x89 then (some (.connack "Server busy"), b)
  else if reasonCode = 0x8a then (some (.connack "Banned"), b)
  else if reasonCode = 0x8c then (none, b)
  else if reasonCode = 0x90 then (some (.connack "Topic name invalid"), b)
  else if reasonCode = 0x95 then (some (.connack "Packet too large"), b)
  else if reasonCode = 0x97 then (some (.connack "Quota exceeded"), b)
  else if reasonCode = 0x9a then (some (.connack "Retain not supported"), b)
  else if reasonCode = 0x9b then (some (.connack "QoS not supported"), b)
  else if reasonCode = 0x9c then (some (.connack "Use another server"), b)
  else if reasonCode = 0x9d then (some (.connack "Server moved"), b)
  else if reasonCode = 0x9f then (some (.connack "Connection rate exceeded"), b)
  else (none, { b with V5 := false })

/-- Model of `CheckConnectionV5`. -/
def BrokerInfo.CheckConnectionV5 {σ : Type} (b : BrokerInfo) (n : Net σ) (w : σ) :
    Option Err × BrokerInfo × σ :=
  let server := b.Host ++ ":" ++ toString b.Port
  match n.dial server w with
  | (none, w) => (some (.dialFailed server), b, w)
  | (some conn, w) =>
    let w := n.write conn Mqttinfo.connectV5 w
    let r := connRead n conn (make 100) w
    if r.err then (some .connackReadFailed, b, n.close conn r.w)
    else if r.bytes < 4 then (some (.connackTooShort r.bytes), b, n.close conn r.w)
    else
      let reasonCode := r.buf.getD 3 0
      let b := { b with V5 := true, V5Anonymous := false }
      let (e, b) := switchReasonCodeV5 reasonCode b
      (e, b, n.close conn r.w)

/-! ## Probe sequencer

`AnalyzeV4` and `AnalyzeV5` are straight-line code with early returns. Their local
variables are gathered in `Probe`; each block of the source (one probe, or one
"reconnect if needed") is a function on `Probe`, and the routine runs its blocks in
source order, stopping at the first `return err`. -/

/-- The local state of an `Analyze` routine: the record `b`, the current connection,
the two buffers that the routine reuses, and the network. `pubrec`, `pubcomp` and the
`suback` of the subscribe probes are allocated afresh where they are used. -/
structure Probe (σ : Type) where
  b : BrokerInfo
  conn : Conn
  puback : Bytes
  suback : Bytes
  w : σ

/-- A block either falls through to the next one or returns an error. -/
abbrev Step (σ : Type) := Except (Err × Probe σ) (Probe σ)

/-- Run blocks in order, stopping at the first one that returns. -/
def runSteps {σ : Type} : List (Probe σ → Step σ) → Probe σ → Step σ
  | [], p => .ok p
  | step :: rest, p =>
    match step p with
    | .ok p => runSteps rest p
    | .error e => .error e

/-- Block `if !pingsBack(conn) { return fmt.Errorf(...) }`. -/
def firstPing {σ : Type} (n : Net σ) (p : Probe σ) : Step σ :=
  match pingsBack n p.conn p.w with
  | (false, w) => .error (.noPingResponse, { p with w := w })
  | (true, w) => .ok { p with w := w }

/-- Block `if !pingsBack(conn) { conn, err = b.connectV4(); if err != nil { return err } }`. -/
def reconnectIfDeadV4 {σ : Type} (n : Net σ) (p : Probe σ) : Step σ :=
  match pingsBack n p.conn p.w with
  | (false, w) =>
    match p.b.connectV4 n w with
    | (.error e, w) => .error (e, { p with w := w })
    | (.ok conn, w) => .ok { p with conn := conn, w := w }
  | (true, w) => .ok { p with w := w }

/-- Block `conn.Close(); conn, err = b.connectV4(); if err != nil { return err }`. -/
def forcedReconnectV4 {σ : Type} (n : Net σ) (p : Probe σ) : Step σ :=
  let w := n.close p.conn p.w
  match p.b.connectV4 n w with
  | (.error e, w) => .error (e, { p with w := w })
  | (.ok conn, w) => .ok { p with conn := conn, w := w }

/-- QoS 1 probe of `AnalyzeV4`; allocates `puback`. -/
def qos1V4 {σ : Type} (n : Net σ) (p : Probe σ) : Step σ :=
  let w := n.write p.conn publishV4Q1 p.w
  let r := connRead n p.conn (make 100) w
  let b := if !r.err && startsWith r.buf pubackV4Q1 then { p.b with V4QoS1 := true } else p.b
  .ok { p with b := b, puback := r.buf, w := r.w }

/-- QoS 2 probe of `AnalyzeV4`: PUBLISH, PUBREC, then PUBREL and PUBCOMP. -/
def qos2V4 {σ : Type} (n : Net σ) (p : Probe σ) : Step σ :=
  let w := n.write p.conn publishV4Q2 p.w
  let r := connRead n p.conn (make 100) w
  if !r.err && startsWith r.buf pubrecV4Q2 then
    let w := n.write p.conn pubrelV4Q2 r.w
    let r := connRead n p.conn (make 100) w
    let b := if !r.err && startsWith r.buf pubcompV4Q2 then { p.b with V4QoS2 := true } else p.b
    .ok { p with b := b, w := r.w }
  else .ok { p with w := r.w }

/-- Malformed-QoS probe of `AnalyzeV4`; reads into the `puback` buffer of the QoS 1
probe. -/
def qos3V4 {σ : Type} (n : Net σ) (p : Probe σ) : Step σ :=
  let w := n.write p.conn publishV4Q3 p.w
  let r := connRead n p.conn p.puback w
  let b := if !r.err then { p.b with V4QoS3Response := true } else p.b
  .ok { p with b := b, puback := r.buf, w := r.w }

/-- Wildcard subscription probe of `AnalyzeV4`; allocates `suback`. -/
def subAllV4 {σ : Type} (n : Net σ) (p : Probe σ) : Step σ :=
  let w := n.write p.conn subAllV4Q0 p.w
  let r := connRead n p.conn (make 100) w
  let b := if !r.err && startsWith r.buf subackV4Q0 then { p.b with V4SubscribeAll := true }
    else p.b
  .ok { p with b := b, suback := r.buf, w := r.w }

/-- Invalid topic filter probe of `AnalyzeV4`; `suback` is allocated anew. -/
def subInvalidV4 {σ : Type} (n : Net σ) (p : Probe σ) : Step σ :=
  let w := n.write p.conn subInvalidV4Q0 p.w
  let r := connRead n p.conn (make 100) w
  let b := if !r.err && startsWith r.buf subackV4Q0 then { p.b with V4InvalidTopics := true }
    else p.b
  .ok { p with b := b, suback := r.buf, w := r.w }

/-- Invalid UTF-8 topic probe of `AnalyzeV4`; `suback` is allocated anew. -/
def subInvalidUTF8V4 {σ : Type} (n : Net σ) (p : Probe σ) : Step σ :=
  let w := n.write p.conn subInvalidUTF8V4Q0 p.w
  let r := connRead n p.conn (make 100) w
  let b := if !r.err && startsWith r.buf subackV4Q0 then
      { p.b with V4InvalidUTF8Topic := true }
    else p.b
  .ok { p with b := b, suback := r.buf, w := r.w }

/-- Publication to `$SYS` probe of `AnalyzeV4`; reads into the reused `puback`. -/
def pubSysV4 {σ : Type} (n : Net σ) (p : Probe σ) : Step σ :=
  let w := n.write p.conn pubSysV4Q1 p.w
  let r := connRead n p.conn p.puback w
  let b := if !r.err && startsWith r.buf pubackV4Q1 then { p.b with V4PublishSYS := true }
    else p.b
  .ok { p with b := b, puback := r.buf, w := r.w }

/-- Filtering of `$SYS` probe of `AnalyzeV4`; reads into the reused `suback`. -/
def filterSysV4 {σ : Type} (n : Net σ) (p : Probe σ) : Step σ :=
  if p.b.V4PublishSYS then
    let w := n.write p.conn subSysAV4Q0 p.w
    let w := n.sleep w
    let r := connRead n p.conn p.suback w
    let b := if !r.err && startsWith r.buf (subackV4Q1 ++ pubSysV4Q1) then
        { p.b with V4FilterSYS := false }
      else p.b
    .ok { p with b := b, suback := r.buf, w := r.w }
  else .ok p

/-- The blocks of `AnalyzeV4` that follow the connect, in source order. -/
def stepsV4 {σ : Type} (n : Net σ) : List (Probe σ → Step σ) :=
  [ firstPing n,
    qos1V4 n,
    reconnectIfDeadV4 n,
    qos2V4 n,
    reconnectIfDeadV4 n,
    qos3V4 n,
    reconnectIfDeadV4 n,
    subAllV4 n,
    forcedReconnectV4 n,
    subInvalidV4 n,
    reconnectIfDeadV4 n,
    subInvalidUTF8V4 n,
    reconnectIfDeadV4 n,
    pubSysV4 n,
    forcedReconnectV4 n,
    filterSysV4 n ]

/-- What an `Analyze` routine hands back once connected: the error (`none` for `nil`),
the record, and the network after the deferred `conn.Close()` on the first connection. -/
def finish {σ : Type} (n : Net σ) (conn : Conn) : Step σ → Option Err × BrokerInfo × σ
  | .ok p => (none, p.b, n.close conn p.w)
  | .error (e, p) => (some e, p.b, n.close conn p.w)

/-- Model of `AnalyzeV4`. -/
def BrokerInfo.AnalyzeV4 {σ : Type} (b : BrokerInfo) (n : Net σ) (w : σ) :
    Option Err × BrokerInfo × σ :=
  match b.connectV4 n w with
  | (.error e, w) => (some e, b, w)
  | (.ok conn, w) =>
    finish n conn (runSteps (stepsV4 n) { b := b, conn := conn, puback := [], suback := [], w := w })

/-- Block `if !pingsBack(conn) { conn, err = b.connectV5(); if err != nil { return err } }`. -/
def reconnectIfDeadV5 {σ : Type} (n : Net σ) (p : Probe σ) : Step σ :=
  match pingsBack n p.conn p.w with
  | (false, w) =>
    match p.b.connectV5 n w with
    | (.error e, w) => .error (e, { p with w := w })
    | (.ok conn, w) => .ok { p with conn := conn, w := w }
  | (true, w) => .ok { p with w := w }

/-- Block `conn.Close(); conn, err = b.connectV5(); if err != nil { return err }`. -/
def forcedReconnectV5 {σ : Type} (n : Net σ) (p : Probe σ) : Step σ :=
  let w := n.close p.conn p.w
  match p.b.connectV5 n w with
  | (.error e, w) => .error (e, { p with w := w })
  | (.ok conn, w) => .ok { p with conn := conn, w := w }

/-- QoS 1 probe of `AnalyzeV5`; allocates `puback`. -/
def qos1V5 {σ : Type} (n : Net σ) (p : Probe σ) : Step σ :=
  let w := n.write p.conn publishV5Q1 p.w
  let r := connRead n p.conn (make 100) w
  let b := if !r.err && (startsWith r.buf pubackV5Q1a || startsWith r.buf pubackV5Q1b) then
      { p.b with V5QoS1 := true }
    else p.b
  .ok { p with b := b, puback := r.buf, w := r.w }

/-- QoS 2 probe of `AnalyzeV5`. -/
def qos2V5 {σ : Type} (n : Net σ) (p : Probe σ) : Step σ :=
  let w := n.write p.conn publishV5Q2 p.w
  let r := connRead n p.conn (make 100) w
  if !r.err && (startsWith r.buf pubrecV5Q2a || startsWith r.buf pubrecV5Q2b) then
    let w := n.write p.conn pubrelV5Q2 r.w
    let r := connRead n p.conn (make 100) w
    let b := if !r.err && startsWith r.buf pubcompV5Q2 then { p.b with V5QoS2 := true } else p.b
    .ok { p with b := b, w := r.w }
  else .ok { p with w := r.w }

/-- Malformed-QoS probe of `AnalyzeV5`; reads into the `puback` buffer of the QoS 1
probe and looks for a PUBACK or PUBREC. -/
def qos3V5 {σ : Type} (n : Net σ) (p : Probe σ) : Step σ :=
  let w := n.write p.conn publishV5Q3 p.w
  let r := connRead n p.conn p.puback w
  let b := if !r.err && (startsWith r.buf pubackV5Q1a || startsWith r.buf pubackV5Q1b ||
        startsWith r.buf pubrecV5Q2a || startsWith r.buf pubrecV5Q2b) then
      { p.b with V5QoS3Response := true }
    else p.b
  .ok { p with b := b, puback := r.buf, w := r.w }

/-- Wildcard subscription probe of `AnalyzeV5`; allocates `suback`. -/
def subAllV5 {σ : Type} (n : Net σ) (p : Probe σ) : Step σ :=
  let w := n.write p.conn subAllV5Q0 p.w
  let r := connRead n p.conn (make 100) w
  let b := if !r.err && startsWith r.buf subackV5Q0 then { p.b with V5SubscribeAll := true }
    else p.b
  .ok { p with b := b, suback := r.buf, w := r.w }

/-- Invalid topic filter probe of `AnalyzeV5`; `suback` is allocated anew. -/
def subInvalidV5 {σ : Type} (n : Net σ) (p : Probe σ) : Step σ :=
  let w := n.write p.conn subInvalidV5Q0 p.w
  let r := connRead n p.conn (make 100) w
  let b := if !r.err && startsWith r.buf subackV5Q0 then { p.b with V5InvalidTopics := true }
    else p.b
  .ok { p with b := b, suback := r.buf, w := r.w }

/-- Invalid UTF-8 topic probe of `AnalyzeV5`; `suback` is allocated anew. -/
def subInvalidUTF8V5 {σ : Type} (n : Net σ) (p : Probe σ) : Step σ :=
  let w := n.write p.conn subInvalidUTF8V5Q0 p.w
  let r := connRead n p.conn (make 100) w
  let b := if !r.err && startsWith r.buf subackV5Q0 then
      { p.b with V5InvalidUTF8Topic := true }
    else p.b
  .ok { p with b := b, suback := r.buf, w := r.w }

/-- Publication to `$SYS` probe of `AnalyzeV5`; reads into the reused `puback`. -/
def pubSysV5 {σ : Type} (n : Net σ) (p : Probe σ) : Step σ :=
  let w := n.write p.conn pubSysV5Q1 p.w
  let r := connRead n p.conn p.puback w
  let b := if !r.err && (startsWith r.buf pubackV5Q1a || startsWith r.buf pubackV5Q1b) then
      { p.b with V5PublishSYS := true }
    else p.b
  .ok { p with b := b, puback := r.buf, w := r.w }

/-- Filtering of `$SYS` probe of `AnalyzeV5`; reads into the reused `suback`. -/
def filterSysV5 {σ : Type} (n : Net σ) (p : Probe σ) : Step σ :=
  if p.b.V5PublishSYS then
    let w := n.write p.conn subSysAV5Q0 p.w
    let w := n.sleep w
    let r := connRead n p.conn p.suback w
    let b := if !r.err && startsWith r.buf (subackV5Q1 ++ pubSysV5Q1) then
        { p.b with V5FilterSYS := false }
      else p.b
    .ok { p with b := b, suback := r.buf, w := r.w }
  else .ok p

/-- The blocks of `AnalyzeV5` that follow the connect, in source order. -/
def stepsV5 {σ : Type} (n : Net σ) : List (Probe σ → Step σ) :=
  [ firstPing n,
    qos1V5 n,
    reconnectIfDeadV5 n,
    qos2V5 n,
    reconnectIfDeadV5 n,
    qos3V5 n,
    reconnectIfDeadV5 n,
    subAllV5 n,
    forcedReconnectV5 n,
    subInvalidV5 n,
    reconnectIfDeadV5 n,
    subInvalidUTF8V5 n,
    reconnectIfDeadV5 n,
    pubSysV5 n,
    forcedReconnectV5 n,
    filterSysV5 n ]

/-- Model of `AnalyzeV5`. -/
def BrokerInfo.AnalyzeV5 {σ : Type} (b : BrokerInfo) (n : Net σ) (w : σ) :
    Option Err × BrokerInfo × σ :=
  match b.connectV5 n w with
  | (.error e, w) => (some e, b, w)
  | (.ok conn, w) =>
    finish n conn (runSteps (stepsV5 n) { b := b, conn := conn, puback := [], suback := [], w := w })

/-! ## Fingerprint classifier -/

/-- What one probe of `GuessBroker` observes. `ack`: the read into `suback` returned no
error and at least `len(subackV4Q0)` bytes, and `suback[:len(subackV4Q0)]` is
`subackV4Q0`. `msg`: the read into `messages` that follows an `ack` returned a count
other than 0. -/
structure Seen (σ : Type) where
  ack : Bool
  msg : Bool
  suback : Bytes
  w : σ

/-- The part the three probes of `GuessBroker` share: write the SUBSCRIBE, read into
`suback` and, under the three nested `if`s, read into a fresh `messages`. -/
def sysProbe {σ : Type} (n : Net σ) (conn : Conn) (packet suback : Bytes) (w : σ) : Seen σ :=
  let w := n.write conn packet w
  let r := connRead n conn suback w
  if !r.err && decide (r.bytes ≥ subackV4Q0.length) &&
      decide (r.buf.take subackV4Q0.length = subackV4Q0) then
    let m := connRead n conn (make 100) r.w
    { ack := true, msg := decide (m.bytes ≠ 0), suback := r.buf, w := m.w }
  else { ack := false, msg := false, suback := r.buf, w := r.w }

/-- Model of `GuessBroker`. The first probe allocates `suback`, the next two read into
the same buffer; no connection is closed on the returning paths. -/
def BrokerInfo.GuessBroker {σ : Type} (b : BrokerInfo) (n : Net σ) (w : σ) :
    Option Err × BrokerInfo × σ :=
  match b.connectV4 n w with
  | (.error e, w) => (some e, b, w)
  | (.ok conn, w) =>
    let s1 := sysProbe n conn subSysAllV4Q0 (make 100) w
    if s1.ack && !s1.msg then (none, { b with TypeGuessed := "HiveMQ" }, s1.w)
    else
      let w := n.close conn s1.w
      match b.connectV4 n w with
      | (.error e, w) => (some e, b, w)
      | (.ok conn, w) =>
        let s2 := sysProbe n conn subSysVerneV4Q0 s1.suback w
        if s2.ack && s2.msg then (none, { b with TypeGuessed := "VerneMQ" }, s2.w)
        else
          let w := n.close conn s2.w
          match b.connectV4 n w with
          | (.error e, w) => (some e, b, w)
          | (.ok conn, w) =>
            let s3 := sysProbe n conn subSysMosqV4Q0 s2.suback w
            if s3.ack && s3.msg then
              (none, if b.V4PublishSYS then { b with TypeGuessed := "mosquitto" } else b, s3.w)
            else
              (none, if !b.V4PublishSYS then { b with TypeGuessed := "HiveMQ" } else b, s3.w)

/-! ## A broker for concrete runs -/

/-- The state of `replyNet`: the packet written last and the number of reads made
since it was written. -/
structure Pending where
  last : Bytes
  reads : Nat
  deriving DecidableEq, Repr

/-- A broker that accepts every dial and answers each read from the packet written last
and the number of reads already made since: `reply packet k` is the outcome of read
number `k`. -/
def replyNet (reply : Bytes → Nat → ReadResult) : Net Pending where
  dial _ w := (some 0, w)
  setReadDeadline _ w := (true, w)
  write _ packet _ := { last := packet, reads := 0 }
  read _ _ w := (reply w.last w.reads, { w with reads := w.reads + 1 })
  close _ w := w
  sleep w := w

/-- No answer: the read fails (timeout) and delivers nothing. -/
def noAnswer : ReadResult :=
  { data := [], err := true }

/-- An answer delivered by a successful read. -/
def answer (data : Bytes) : ReadResult :=
  { data := data, err := false }

/-- The starting state of `replyNet`. -/
def idle : Pending :=
  { last := [], reads := 0 }

/-- A CONNACK with the given reason code at offset 3. -/
def connackWith (reasonCode : Nat) : Bytes :=
  [0x20, 0x02, 0x00, reasonCode]

/-- Whether a packet is a CONNECT (first byte `0x10`). -/
def isConnect (packet : Bytes) : Bool :=
  packet.head? = some 0x10

deriving instance DecidableEq for Except

/-- The reply rule of a test broker: it accepts every CONNECT with reason code 0,
answers PINGREQ with PINGRESP and the QoS 1 PUBLISH with the bytes `40 02 00 01`, gives
`q3` as the outcome of the read after the malformed-QoS PUBLISH, and gives no answer to
anything else. -/
def testReply (q3 : ReadResult) (packet : Bytes) (_reads : Nat) : ReadResult :=
  if isConnect packet then answer (connackWith 0x00)
  else if packet = pingreq then answer pingresp
  else if packet = publishV4Q1 ∨ packet = publishV5Q1 then answer [0x40, 0x02, 0x00, 0x01]
  else if packet = publishV4Q3 ∨ packet = publishV5Q3 then q3
  else noAnswer

/-- A broker that answers every read with the given bytes. -/
def connackBroker (connack : Bytes) : Net Pending :=
  replyNet fun _ _ => answer connack

/-- A broker that accepts every CONNECT and answers nothing else. -/
def silentReply (packet : Bytes) (_reads : Nat) : ReadResult :=
  if isConnect packet then answer (connackWith 0x00) else noAnswer

/-- The reply rule of a test broker for `GuessBroker`: it accepts every CONNECT; to the
SUBSCRIBE of probe `i` it answers the SUBACK `90 03 00 01 00` when `ack i` holds, and a
following read delivers the one byte `30` when `msg i` holds; everything else gets no
answer. -/
def sysReply (ack1 msg1 ack2 msg2 ack3 msg3 : Bool) (packet : Bytes) (reads : Nat) :
    ReadResult :=
  if isConnect packet then answer (connackWith 0x00)
  else if packet = subSysAllV4Q0 then
    (if reads = 0 then (if ack1 then answer subackV4Q0 else noAnswer)
     else if msg1 then answer [0x30] else noAnswer)
  else if packet = subSysVerneV4Q0 then
    (if reads = 0 then (if ack2 then answer subackV4Q0 else noAnswer)
     else if msg2 then answer [0x30] else noAnswer)
  else if packet = subSysMosqV4Q0 then
    (if reads = 0 then (if ack3 then answer subackV4Q0 else noAnswer)
     else if msg3 then answer [0x30] else noAnswer)
  else noAnswer

/-- The state of `dialLimitNet`: what `replyNet` keeps, and the number of dials made. -/
structure Line where
  last : Bytes
  reads : Nat
  dials : Nat
  deriving DecidableEq, Repr

/-- A broker like `replyNet` that accepts only the first `limit` dials. -/
def dialLimitNet (limit : Nat) (reply : Bytes → Nat → ReadResult) : Net Line where
  dial _ w := if w.dials < limit then (some w.dials, { w with dials := w.dials + 1 })
    else (none, w)
  setReadDeadline _ w := (true, w)
  write _ packet w := { w with last := packet, reads := 0 }
  read _ _ w := (reply w.last w.reads, { w with reads := w.reads + 1 })
  close _ w := w
  sleep w := w

/-- The starting state of `dialLimitNet`. -/
def offline : Line :=
  { last := [], reads := 0, dials := 0 }

/-- The state of `deadlineNet`: what `replyNet` keeps, the number of dials made, and the
connections that are dead. -/
structure Wire where
  last : Bytes
  reads : Nat
  dials : Nat
  dead : List Conn
  deriving DecidableEq, Repr

/-- A broker like `replyNet` behind connections that die. Each dial opens a new
connection. `connectV4` and `connectV5` set one absolute read deadline per connection,
so a read that times out leaves the connection past its deadline: here a failed read,
like a close, leaves the connection dead, and every later read on it fails. -/
def deadlineNet (reply : Bytes → Nat → ReadResult) : Net Wire where
  dial _ w := (some w.dials,
    { w with dials := w.dials + 1, dead := w.dead.filter fun c => c ≠ w.dials })
  setReadDeadline _ w := (true, w)
  write _ packet w := { w with last := packet, reads := 0 }
  read conn _ w :=
    if conn ∈ w.dead then (noAnswer, { w with reads := w.reads + 1 })
    else (reply w.last w.reads,
      { w with reads := w.reads + 1,
               dead := if (reply w.last w.reads).err then conn :: w.dead else w.dead })
  close conn w := { w with dead := conn :: w.dead }
  sleep w := w

/-- The starting state of `deadlineNet`. -/
def newWire : Wire :=
  { last := [], reads := 0, dials := 0, dead := [] }

/-- The reply rule of a test broker whose answers are short: it accepts every CONNECT,
answers PINGREQ with PINGRESP and the QoS 1 PUBLISH with `40 02 00 01`, answers the
SUBSCRIBE to `#` with the first four bytes of a SUBACK only, answers the PUBLISH to
`$SYS` with the one byte `40`, and gives no answer to anything else. -/
def shortReply (packet : Bytes) (_reads : Nat) : ReadResult :=
  if isConnect packet then answer (connackWith 0x00)
  else if packet = pingreq then answer pingresp
  else if packet = publishV4Q1 ∨ packet = publishV5Q1 then answer [0x40, 0x02, 0x00, 0x01]
  else if packet = subAllV4Q0 then answer [0x90, 0x03, 0x00, 0x01]
  else if packet = subAllV5Q0 then answer [0x90, 0x04, 0x00, 0x01]
  else if packet = pubSysV4Q1 ∨ packet = pubSysV5Q1 then answer [0x40]
  else noAnswer

/-! ## Records used at concrete inputs -/

/-- No credentials. -/
def anonymous : BrokerInfo :=
  NewBrokerInfo "localhost" 1883 [] []

/-- User name `u`, password `p`. -/
def shortCredentials : BrokerInfo :=
  NewBrokerInfo "localhost" 1883 [0x75] [0x70]

/-- A password `p` and no user name. -/
def passwordOnly : BrokerInfo :=
  NewBrokerInfo "localhost" 1883 [] [0x70]

/-- A user name of 65535 bytes and a password of one byte: each is shorter than 65536
bytes, together they are not. -/
def longCredentials : BrokerInfo :=
  NewBrokerInfo "localhost" 1883 (List.replicate 65535 0x61) [0x62]

/-- No credentials, on a record whose `V4PublishSYS` is already true. -/
def sysPublisher : BrokerInfo :=
  { anonymous with V4PublishSYS := true }

/-! ## Properties stated as definitions -/

/-- The client id `"mqttinfo"`. -/
def clientId : Bytes :=
  [0x6d, 0x71, 0x74, 0x74, 0x69, 0x6e, 0x66, 0x6f]

/-- The round trip of the CONNECT packet of `getConnectV4` as a reader of the packet
sees it: the packet parses, with keep-alive 60, client id `"mqttinfo"`, the given user
name and the given password (an absent field reads as the empty string), and flags
`0x02` without credentials and `0xC2` with them. -/
def recoversV4 (b : BrokerInfo) : Bool :=
  match parseConnectV4 b.getConnectV4 with
  | some f =>
    f.keepAlive == 60 && f.clientId == clientId &&
      f.username.getD [] == b.Username && f.password.getD [] == b.Password &&
      f.flags == (if b.Username = [] ∧ b.Password = [] then 0x02 else 0xc2)
  | none => false

/-- Whether a buffer starts with one of the four literals that the malformed-QoS probe
of `AnalyzeV5` looks for. -/
def matchesV5 (buf : Bytes) : Bool :=
  startsWith buf pubackV5Q1a || startsWith buf pubackV5Q1b ||
    startsWith buf pubrecV5Q2a || startsWith buf pubrecV5Q2b

/-- The record a block ends with, whether it falls through or returns. -/
def Step.info {σ : Type} : Step σ → BrokerInfo
  | .ok p => p.b
  | .error (_, p) => p.b

/-- A block keeps `P` when the record it ends with satisfies `P` whenever the record it
starts from does. -/
def Keeps {σ : Type} (P : BrokerInfo → Prop) (s : Probe σ → Step σ) : Prop :=
  ∀ p, P p.b → P (Step.info (s p))

/-- A block falls through when it never returns an error. -/
def FallsThrough {σ : Type} (s : Probe σ → Step σ) : Prop :=
  ∀ p, ∃ p', s p = .ok p'

/-- The rule list as the code applies it: the third rule stops the search as soon as
its probe is acknowledged and followed by a message, and names mosquitto only when
`publishSYS` holds; the fallback is reached only when the third probe does not match. -/
def guessRule (ack1 msg1 ack2 msg2 ack3 msg3 publishSYS : Bool) (old : String) : String :=
  if ack1 && !msg1 then "HiveMQ"
  else if ack2 && msg2 then "VerneMQ"
  else if ack3 && msg3 then (if publishSYS then "mosquitto" else old)
  else if !publishSYS then "HiveMQ"
  else old

/-- The rule list as first stated: the third rule fires only with `publishSYS`, and
every other case reaches the fallback. -/
def statedRule (ack1 msg1 ack2 msg2 ack3 msg3 publishSYS : Bool) (old : String) : String :=
  if ack1 && !msg1 then "HiveMQ"
  else if ack2 && msg2 then "VerneMQ"
  else if ack3 && msg3 && publishSYS then "mosquitto"
  else if !publishSYS then "HiveMQ"
  else old

/-- A probe of `GuessBroker` is acknowledged by the outcome `r` of the read that follows
its SUBSCRIBE: the read returned no error and at least five bytes, and the bytes it
returned start with the SUBACK literal `90 03 00 01 00`. -/
def acked (r : ReadResult) : Bool :=
  !r.err && decide (5 ≤ r.data.length) && startsWith r.data subackV4Q0

/-- The run of `AnalyzeV4` on `b` from `w` reaches block `k` (counted from 0 in `stepsV4`)
with local state `p`: the connect succeeds and the `k` blocks before it fall through. -/
def reachesV4 {σ : Type} (n : Net σ) (b : BrokerInfo) (w : σ) (k : Nat) (p : Probe σ) : Prop :=
  ∃ conn w0, b.connectV4 n w = (.ok conn, w0) ∧
    runSteps ((stepsV4 n).take k)
      { b := b, conn := conn, puback := [], suback := [], w := w0 } = .ok p

/-- The run of `AnalyzeV5` on `b` from `w` reaches block `k` (counted from 0 in `stepsV5`)
with local state `p`. -/
def reachesV5 {σ : Type} (n : Net σ) (b : BrokerInfo) (w : σ) (k : Nat) (p : Probe σ) : Prop :=
  ∃ conn w0, b.connectV5 n w = (.ok conn, w0) ∧
    runSteps ((stepsV5 n).take k)
      { b := b, conn := conn, puback := [], suback := [], w := w0 } = .ok p

/-! ## Supporting lemmas -/

theorem lor_128 (d : Nat) (h : d < 128) : d ||| 0x80 = d + 128 := by
  have h7 : d < 2 ^ 7 := by simpa using h
  have key := Nat.mul_add_lt_is_or h7 1
  rw [Nat.or_comm, Nat.add_comm]
  simpa using key.symm

theorem encodeLengthLoop_append (fuel : Nat) :
    ∀ (length : Int) (acc : Bytes),
      encodeLengthLoop fuel length acc = acc ++ encodeLengthLoop fuel length [] := by
  induction fuel with
  | zero => intro length acc; simp [encodeLengthLoop]
  | succ k ih =>
    intro length acc
    simp only [encodeLengthLoop]
    split
    · simp
    · rw [ih, ih (Int.tdiv length 128) ([] ++ _)]; simp

theorem encodeLengthLoop_nat (fuel m : Nat) :
    encodeLengthLoop (fuel + 1) (m : Int) [] =
      if m / 128 = 0 then [m % 128]
      else (m % 128 + 128) :: encodeLengthLoop fuel ((m / 128 : Nat) : Int) [] := by
  have hmod : (Int.tmod (m : Int) 128 % 256).toNat = m % 128 := by
    have : Int.tmod (m : Int) 128 = ((m % 128 : Nat) : Int) := rfl
    rw [this]
    have h2 : ((m % 128 : Nat) : Int) % 256 = ((m % 128 % 256 : Nat) : Int) := rfl
    rw [h2, Int.toNat_ofNat]
    omega
  have hdiv : Int.tdiv (m : Int) 128 = ((m / 128 : Nat) : Int) := rfl
  simp only [encodeLengthLoop, hmod, hdiv, List.nil_append]
  by_cases h : m / 128 = 0
  · simp [h]
  · have hpos : ((m / 128 : Nat) : Int) > 0 := by omega
    have hne : ((m / 128 : Nat) : Int) ≠ 0 := by omega
    rw [if_pos hpos, if_neg hne, if_neg h, encodeLengthLoop_append,
      lor_128 _ (Nat.mod_lt _ (by norm_num))]
    simp

theorem decode_encodeLengthLoop (fuel : Nat) :
    ∀ (m mult v : Nat) (rest : Bytes), m < fuel →
      decodeLengthAux mult v (encodeLengthLoop fuel (m : Int) [] ++ rest)
        = some (v + m * mult, rest) := by
  induction fuel with
  | zero => intro m mult v rest h; omega
  | succ k ih =>
    intro m mult v rest h
    rw [encodeLengthLoop_nat]
    by_cases h0 : m / 128 = 0
    · have hm : m % 128 = m := Nat.mod_eq_of_lt (by omega)
      have hb : m / 128 % 2 = 0 := by omega
      simp [h0, decodeLengthAux, hm, hb]
    · have hlt : m / 128 < k := by omega
      have hb : ¬ ((m % 128 + 128) / 128 % 2 = 0) := by omega
      have hmod : (m % 128 + 128) % 128 = m % 128 := by omega
      rw [if_neg h0]
      simp only [List.cons_append, decodeLengthAux, hmod]
      rw [if_neg hb]
      show decodeLengthAux (mult * 128) (v + m % 128 * mult)
        (encodeLengthLoop k ((m / 128 : Nat) : Int) [] ++ rest) = _
      rw [ih _ _ _ _ hlt]
      congr 2
      nlinarith [Nat.div_add_mod m 128]

theorem encodeLengthLoop_pos (fuel m : Nat) (h : 0 < fuel) :
    encodeLengthLoop fuel (m : Int) [] =
      if m / 128 = 0 then [m % 128]
      else (m % 128 + 128) :: encodeLengthLoop (fuel - 1) ((m / 128 : Nat) : Int) [] := by
  obtain ⟨k, rfl⟩ : ∃ k, fuel = k + 1 := ⟨fuel - 1, by omega⟩
  exact encodeLengthLoop_nat k m

theorem encodeLength_length_nat (m : Nat) (h : m ≤ 268435455) :
    (encodeLength (m : Int)).length =
      if m ≤ 127 then 1 else if m ≤ 16383 then 2 else if m ≤ 2097151 then 3 else 4 := by
  unfold encodeLength
  rw [Int.natAbs_ofNat, encodeLengthLoop_nat]
  by_cases h1 : m ≤ 127
  · rw [if_pos (by omega), if_pos h1]; rfl
  rw [if_neg (by omega), if_neg h1, encodeLengthLoop_pos _ _ (by omega)]
  by_cases h2 : m ≤ 16383
  · rw [if_pos (by omega), if_pos h2]; rfl
  rw [if_neg (by omega), if_neg h2, encodeLengthLoop_pos _ _ (by omega)]
  by_cases h3 : m ≤ 2097151
  · rw [if_pos (by omega), if_pos h3]; rfl
  rw [if_neg (by omega), if_neg h3, encodeLengthLoop_pos _ _ (by omega), if_pos (by omega)]
  rfl

theorem encodeLength_nat_unfold (m : Nat) :
    encodeLength (m : Int) =
      if m / 128 = 0 then [m % 128]
      else (m % 128 + 128) :: encodeLengthLoop m ((m / 128 : Nat) : Int) [] := by
  unfold encodeLength
  rw [Int.natAbs_ofNat, encodeLengthLoop_nat]

theorem decode_encodeLength_append (m : Nat) (rest : Bytes) :
    decodeLength (encodeLength (m : Int) ++ rest) = some (m, rest) := by
  have := decode_encodeLengthLoop (m + 1) m 1 0 rest (by omega)
  simpa [decodeLength, encodeLength] using this

theorem framed_short (d : Nat) (rest : Bytes) (hd : d < 128)
    (h : Framed (0x10 :: d :: rest)) : rest.length = d := by
  obtain ⟨n, body, hp, hlen⟩ := h
  rw [encodeLength_nat_unfold] at hp
  by_cases h0 : n / 128 = 0
  · rw [if_pos h0] at hp
    simp at hp
    obtain ⟨hd', hr⟩ := hp
    subst hr
    omega
  · rw [if_neg h0] at hp
    simp at hp
    omega

theorem getConnectV4_of_username (b : BrokerInfo) (h : b.Username ≠ []) :
    b.getConnectV4 =
      0x10 :: (encodeLength (((24 + (b.Username.length % 65536 + b.Password.length % 65536)
          % 65536 : Nat)) : Int) ++
        (connectHeadV4 ++ (putUint16 (b.Username.length % 65536) ++ (b.Username ++
          (putUint16 (b.Password.length % 65536) ++ b.Password))))) := by
  unfold BrokerInfo.getConnectV4
  rw [if_neg h]
  simp

theorem getConnectV4_wraps (host : String) (port : Int) (u p : Bytes)
    (hu : u.length = 65535) (hp : p.length = 1) :
    ¬ Framed (NewBrokerInfo host port u p).getConnectV4 ∧
    decodeLength (NewBrokerInfo host port u p).getConnectV4.tail =
      some (24, connectBody (NewBrokerInfo host port u p).getConnectV4) ∧
    (connectBody (NewBrokerInfo host port u p).getConnectV4).length = 65560 := by
  have hne : (NewBrokerInfo host port u p).Username ≠ [] := by
    intro h
    have : u = [] := h
    rw [this] at hu
    simp at hu
  have h24 : encodeLength (24 : Int) = [24] := by decide
  have hpkt : (NewBrokerInfo host port u p).getConnectV4 =
      0x10 :: 24 :: (connectHeadV4 ++ (putUint16 65535 ++ (u ++ (putUint16 1 ++ p)))) := by
    rw [getConnectV4_of_username _ hne]
    simp only [NewBrokerInfo, hu, hp]
    norm_num [h24]
  rw [hpkt]
  refine ⟨fun h => ?_, ?_, ?_⟩
  · have := framed_short _ _ (by norm_num) h
    simp [connectHeadV4, putUint16, hu, hp] at this
  · simp [connectBody, decodeLength, decodeLengthAux]
  · simp [connectBody, decodeLength, decodeLengthAux, connectHeadV4, putUint16, hu, hp]

theorem readField_putUint16 (v rest : Bytes) (h : v.length < 65536) :
    readField (putUint16 (v.length % 65536) ++ (v ++ rest)) = some (v, rest) := by
  have hmod : v.length % 65536 = v.length := Nat.mod_eq_of_lt h
  have hval : v.length / 256 % 256 * 256 + v.length % 256 = v.length := by omega
  simp [readField, readUint16, putUint16, hmod, hval]

theorem parseConnectBodyV4_head (rest : Bytes) :
    parseConnectBodyV4 (connectHeadV4 ++ rest) =
      match readOptField true rest with
      | some (username, rest) =>
        match readOptField true rest with
        | some (password, []) =>
          some { level := 4, flags := 0xc2, keepAlive := 60, clientId := clientId,
                 username := username, password := password }
        | _ => none
      | none => none := by
  simp [parseConnectBodyV4, connectHeadV4, readField, readUint16, clientId]

theorem getConnectV4_framed (b : BrokerInfo)
    (hsum : b.Username.length + b.Password.length < 65536) : Framed b.getConnectV4 := by
  by_cases hu : b.Username = []
  · unfold BrokerInfo.getConnectV4
    rw [if_pos hu]
    exact ⟨20, connectHeadV4.take 7 ++ 0x02 :: connectHeadV4.drop 8, by decide, by decide⟩
  · rw [getConnectV4_of_username b hu]
    refine ⟨_, _, rfl, ?_⟩
    simp [connectHeadV4, putUint16]
    omega

theorem connRead_of_read {σ : Type} (n : Net σ) (conn : Conn) (buf : Bytes) (w w1 : σ)
    (r : ReadResult) (h : n.read conn buf.length w = (r, w1)) :
    connRead n conn buf w =
      { buf := readInto buf r.data,
        bytes := (r.data.take buf.length).length, err := r.err, w := w1 } := by
  simp [connRead, h]

theorem connRead_buf_length {σ : Type} (n : Net σ) (conn : Conn) (buf : Bytes) (w : σ) :
    (connRead n conn buf w).buf.length = buf.length := by
  simp [connRead, readInto]

theorem take_eq_pingresp (data : Bytes) : data.take 100 = pingresp ↔ data = pingresp := by
  constructor
  · intro h
    have hl : (data.take 100).length = 2 := by rw [h]; rfl
    rw [List.length_take] at hl
    have : data.length ≤ 100 := by omega
    rwa [List.take_of_length_le this] at h
  · intro h
    rw [h]
    rfl

theorem readInto_make_take (data : Bytes) :
    (readInto (make 100) data).take (data.take 100).length = data.take 100 := by
  simp [readInto, make]

theorem pingsBack_eq {σ : Type} (n : Net σ) (conn : Conn) (w : σ) :
    pingsBack n conn w =
      (decide ((n.read conn 100 (n.write conn pingreq w)).1.err = false ∧
          (n.read conn 100 (n.write conn pingreq w)).1.data = pingresp),
        (n.read conn 100 (n.write conn pingreq w)).2) := by
  have hr := connRead_of_read n conn (make 100) (n.write conn pingreq w) _ _ rfl
  have hm : (make 100).length = 100 := by simp [make]
  rw [hm] at hr
  simp only [pingsBack, hr, readInto_make_take]
  by_cases he : (n.read conn 100 (n.write conn pingreq w)).1.err = true
  · simp [he]
  · by_cases hd : (n.read conn 100 (n.write conn pingreq w)).1.data = pingresp
    · have hd2 := (take_eq_pingresp _).2 hd
      rw [hd] at hd2
      simp [he, hd, hd2]
    · have hd2 : ¬ List.take 100 (n.read conn 100 (n.write conn pingreq w)).1.data = pingresp :=
        fun h => hd ((take_eq_pingresp _).1 h)
      simp [he, hd, hd2]

theorem runSteps_append {σ : Type} (l1 l2 : List (Probe σ → Step σ)) (p : Probe σ) :
    runSteps (l1 ++ l2) p =
      match runSteps l1 p with
      | .ok p' => runSteps l2 p'
      | .error e => .error e := by
  induction l1 generalizing p with
  | nil => rfl
  | cons s l ih =>
    simp only [List.cons_append, runSteps]
    cases s p with
    | ok p' => exact ih p'
    | error e => rfl

theorem keeps_nil {σ : Type} (P : BrokerInfo → Prop) : Keeps P (runSteps ([] : List (Probe σ → Step σ))) :=
  fun _ hp => hp

theorem keeps_cons {σ : Type} (P : BrokerInfo → Prop) (s : Probe σ → Step σ)
    (l : List (Probe σ → Step σ)) (hs : Keeps P s) (hl : Keeps P (runSteps l)) :
    Keeps P (runSteps (s :: l)) := by
  intro p hp
  have h1 := hs p hp
  simp only [runSteps]
  cases hsp : s p with
  | ok p' =>
    rw [hsp] at h1
    exact hl p' h1
  | error e =>
    rw [hsp] at h1
    exact h1

theorem total_nil {σ : Type} : FallsThrough (runSteps ([] : List (Probe σ → Step σ))) :=
  fun p => ⟨p, rfl⟩

theorem total_cons {σ : Type} (s : Probe σ → Step σ)
    (l : List (Probe σ → Step σ)) (hs : FallsThrough s) (hl : FallsThrough (runSteps l)) :
    FallsThrough (runSteps (s :: l)) := by
  intro p
  obtain ⟨p1, h1⟩ := hs p
  obtain ⟨p2, h2⟩ := hl p1
  exact ⟨p2, by simp only [runSteps, h1, h2]⟩

theorem firstPing_keeps {σ : Type} (n : Net σ) (P : BrokerInfo → Prop) : Keeps P (firstPing n) := by
  intro p hp
  unfold firstPing
  split <;> exact hp

theorem reconnectIfDeadV4_keeps {σ : Type} (n : Net σ) (P : BrokerInfo → Prop) :
    Keeps P (reconnectIfDeadV4 n) := by
  intro p hp
  unfold reconnectIfDeadV4
  repeat' split
  all_goals exact hp

theorem forcedReconnectV4_keeps {σ : Type} (n : Net σ) (P : BrokerInfo → Prop) :
    Keeps P (forcedReconnectV4 n) := by
  intro p hp
  unfold forcedReconnectV4
  dsimp only
  repeat' split
  all_goals exact hp

theorem qos1V4_keeps {σ : Type} (n : Net σ) (P : BrokerInfo → Prop)
    (hP : ∀ b, P b → P { b with V4QoS1 := true }) : Keeps P (qos1V4 n) := by
  intro p hp
  unfold qos1V4
  dsimp only
  split_ifs <;> first | exact hp | exact hP _ hp

theorem qos1V4_total {σ : Type} (n : Net σ) : FallsThrough (qos1V4 n) := by
  intro p
  unfold qos1V4
  dsimp only
  split_ifs <;> exact ⟨_, rfl⟩

theorem qos2V4_keeps {σ : Type} (n : Net σ) (P : BrokerInfo → Prop)
    (hP : ∀ b, P b → P { b with V4QoS2 := true }) : Keeps P (qos2V4 n) := by
  intro p hp
  unfold qos2V4
  dsimp only
  split_ifs <;> first | exact hp | exact hP _ hp

theorem qos2V4_total {σ : Type} (n : Net σ) : FallsThrough (qos2V4 n) := by
  intro p
  unfold qos2V4
  dsimp only
  split_ifs <;> exact ⟨_, rfl⟩

theorem qos3V4_keeps {σ : Type} (n : Net σ) (P : BrokerInfo → Prop)
    (hP : ∀ b, P b → P { b with V4QoS3Response := true }) : Keeps P (qos3V4 n) := by
  intro p hp
  unfold qos3V4
  dsimp only
  split_ifs <;> first | exact hp | exact hP _ hp

theorem qos3V4_total {σ : Type} (n : Net σ) : FallsThrough (qos3V4 n) := by
  intro p
  unfold qos3V4
  dsimp only
  split_ifs <;> exact ⟨_, rfl⟩

theorem subAllV4_keeps {σ : Type} (n : Net σ) (P : BrokerInfo → Prop)
    (hP : ∀ b, P b → P { b with V4SubscribeAll := true }) : Keeps P (subAllV4 n) := by
  intro p hp
  unfold subAllV4
  dsimp only
  split_ifs <;> first | exact hp | exact hP _ hp

theorem subAllV4_total {σ : Type} (n : Net σ) : FallsThrough (subAllV4 n) := by
  intro p
  unfold subAllV4
  dsimp only
  split_ifs <;> exact ⟨_, rfl⟩

theorem subInvalidV4_keeps {σ : Type} (n : Net σ) (P : BrokerInfo → Prop)
    (hP : ∀ b, P b → P { b with V4InvalidTopics := true }) : Keeps P (subInvalidV4 n) := by
  intro p hp
  unfold subInvalidV4
  dsimp only
  split_ifs <;> first | exact hp | exact hP _ hp

theorem subInvalidV4_total {σ : Type} (n : Net σ) : FallsThrough (subInvalidV4 n) := by
  intro p
  unfold subInvalidV4
  dsimp only
  split_ifs <;> exact ⟨_, rfl⟩

theorem subInvalidUTF8V4_keeps {σ : Type} (n : Net σ) (P : BrokerInfo → Prop)
    (hP : ∀ b, P b → P { b with V4InvalidUTF8Topic := true }) : Keeps P (subInvalidUTF8V4 n) := by
  intro p hp
  unfold subInvalidUTF8V4
  dsimp only
  split_ifs <;> first | exact hp | exact hP _ hp

theorem subInvalidUTF8V4_total {σ : Type} (n : Net σ) : FallsThrough (subInvalidUTF8V4 n) := by
  intro p
  unfold subInvalidUTF8V4
  dsimp only
  split_ifs <;> exact ⟨_, rfl⟩

theorem pubSysV4_keeps {σ : Type} (n : Net σ) (P : BrokerInfo → Prop)
    (hP : ∀ b, P b → P { b with V4PublishSYS := true }) : Keeps P (pubSysV4 n) := by
  intro p hp
  unfold pubSysV4
  dsimp only
  split_ifs <;> first | exact hp | exact hP _ hp

theorem pubSysV4_total {σ : Type} (n : Net σ) : FallsThrough (pubSysV4 n) := by
  intro p
  unfold pubSysV4
  dsimp only
  split_ifs <;> exact ⟨_, rfl⟩

theorem filterSysV4_keeps {σ : Type} (n : Net σ) (P : BrokerInfo → Prop)
    (hP : ∀ b, P b → P { b with V4FilterSYS := false }) : Keeps P (filterSysV4 n) := by
  intro p hp
  unfold filterSysV4
  dsimp only
  split_ifs <;> first | exact hp | exact hP _ hp

theorem filterSysV4_total {σ : Type} (n : Net σ) : FallsThrough (filterSysV4 n) := by
  intro p
  unfold filterSysV4
  dsimp only
  split_ifs <;> exact ⟨_, rfl⟩

theorem reconnectIfDeadV4_total {σ : Type} (n : Net σ)
    (hconn : ∀ (b : BrokerInfo) (w : σ), ∃ conn w1, b.connectV4 n w = (.ok conn, w1)) :
    FallsThrough (reconnectIfDeadV4 n) := by
  intro p
  unfold reconnectIfDeadV4
  rcases pingsBack n p.conn p.w with ⟨ok, w⟩
  cases ok
  · obtain ⟨conn, w1, h⟩ := hconn p.b w
    simp only [h]
    exact ⟨_, rfl⟩
  · exact ⟨_, rfl⟩

theorem forcedReconnectV4_total {σ : Type} (n : Net σ)
    (hconn : ∀ (b : BrokerInfo) (w : σ), ∃ conn w1, b.connectV4 n w = (.ok conn, w1)) :
    FallsThrough (forcedReconnectV4 n) := by
  intro p
  unfold forcedReconnectV4
  obtain ⟨conn, w1, h⟩ := hconn p.b (n.close p.conn p.w)
  simp only [h]
  exact ⟨_, rfl⟩

theorem reconnectIfDeadV5_keeps {σ : Type} (n : Net σ) (P : BrokerInfo → Prop) :
    Keeps P (reconnectIfDeadV5 n) := by
  intro p hp
  unfold reconnectIfDeadV5
  repeat' split
  all_goals exact hp

theorem forcedReconnectV5_keeps {σ : Type} (n : Net σ) (P : BrokerInfo → Prop) :
    Keeps P (forcedReconnectV5 n) := by
  intro p hp
  unfold forcedReconnectV5
  dsimp only
  repeat' split
  all_goals exact hp

theorem qos1V5_keeps {σ : Type} (n : Net σ) (P : BrokerInfo → Prop)
    (hP : ∀ b, P b → P { b with V5QoS1 := true }) : Keeps P (qos1V5 n) := by
  intro p hp
  unfold qos1V5
  dsimp only
  split_ifs <;> first | exact hp | exact hP _ hp

theorem qos1V5_total {σ : Type} (n : Net σ) : FallsThrough (qos1V5 n) := by
  intro p
  unfold qos1V5
  dsimp only
  split_ifs <;> exact ⟨_, rfl⟩

theorem qos2V5_keeps {σ : Type} (n : Net σ) (P : BrokerInfo → Prop)
    (hP : ∀ b, P b → P { b with V5QoS2 := true }) : Keeps P (qos2V5 n) := by
  intro p hp
  unfold qos2V5
  dsimp only
  split_ifs <;> first | exact hp | exact hP _ hp

theorem qos2V5_total {σ : Type} (n : Net σ) : FallsThrough (qos2V5 n) := by
  intro p
  unfold qos2V5
  dsimp only
  split_ifs <;> exact ⟨_, rfl⟩

theorem qos3V5_keeps {σ : Type} (n : Net σ) (P : BrokerInfo → Prop)
    (hP : ∀ b, P b → P { b with V5QoS3Response := true }) : Keeps P (qos3V5 n) := by
  intro p hp
  unfold qos3V5
  dsimp only
  split_ifs <;> first | exact hp | exact hP _ hp

theorem qos3V5_total {σ : Type} (n : Net σ) : FallsThrough (qos3V5 n) := by
  intro p
  unfold qos3V5
  dsimp only
  split_ifs <;> exact ⟨_, rfl⟩

theorem subAllV5_keeps {σ : Type} (n : Net σ) (P : BrokerInfo → Prop)
    (hP : ∀ b, P b → P { b with V5SubscribeAll := true }) : Keeps P (subAllV5 n) := by
  intro p hp
  unfold subAllV5
  dsimp only
  split_ifs <;> first | exact hp | exact hP _ hp

theorem subAllV5_total {σ : Type} (n : Net σ) : FallsThrough (subAllV5 n) := by
  intro p
  unfold subAllV5
  dsimp only
  split_ifs <;> exact ⟨_, rfl⟩

theorem subInvalidV5_keeps {σ : Type} (n : Net σ) (P : BrokerInfo → Prop)
    (hP : ∀ b, P b → P { b with V5InvalidTopics := true }) : Keeps P (subInvalidV5 n) := by
  intro p hp
  unfold subInvalidV5
  dsimp only
  split_ifs <;> first | exact hp | exact hP _ hp

theorem subInvalidV5_total {σ : Type} (n : Net σ) : FallsThrough (subInvalidV5 n) := by
  intro p
  unfold subInvalidV5
  dsimp only
  split_ifs <;> exact ⟨_, rfl⟩

theorem subInvalidUTF8V5_keeps {σ : Type} (n : Net σ) (P : BrokerInfo → Prop)
    (hP : ∀ b, P b → P { b with V5InvalidUTF8Topic := true }) : Keeps P (subInvalidUTF8V5 n) := by
  intro p hp
  unfold subInvalidUTF8V5
  dsimp only
  split_ifs <;> first | exact hp | exact hP _ hp

theorem subInvalidUTF8V5_total {σ : Type} (n : Net σ) : FallsThrough (subInvalidUTF8V5 n) := by
  intro p
  unfold subInvalidUTF8V5
  dsimp only
  split_ifs <;> exact ⟨_, rfl⟩

theorem pubSysV5_keeps {σ : Type} (n : Net σ) (P : BrokerInfo → Prop)
    (hP : ∀ b, P b → P { b with V5PublishSYS := true }) : Keeps P (pubSysV5 n) := by
  intro p hp
  unfold pubSysV5
  dsimp only
  split_ifs <;> first | exact hp | exact hP _ hp

theorem pubSysV5_total {σ : Type} (n : Net σ) : FallsThrough (pubSysV5 n) := by
  intro p
  unfold pubSysV5
  dsimp only
  split_ifs <;> exact ⟨_, rfl⟩

theorem filterSysV5_keeps {σ : Type} (n : Net σ) (P : BrokerInfo → Prop)
    (hP : ∀ b, P b → P { b with V5FilterSYS := false }) : Keeps P (filterSysV5 n) := by
  intro p hp
  unfold filterSysV5
  dsimp only
  split_ifs <;> first | exact hp | exact hP _ hp

theorem filterSysV5_total {σ : Type} (n : Net σ) : FallsThrough (filterSysV5 n) := by
  intro p
  unfold filterSysV5
  dsimp only
  split_ifs <;> exact ⟨_, rfl⟩

theorem reconnectIfDeadV5_total {σ : Type} (n : Net σ)
    (hconn : ∀ (b : BrokerInfo) (w : σ), ∃ conn w1, b.connectV5 n w = (.ok conn, w1)) :
    FallsThrough (reconnectIfDeadV5 n) := by
  intro p
  unfold reconnectIfDeadV5
  rcases pingsBack n p.conn p.w with ⟨ok, w⟩
  cases ok
  · obtain ⟨conn, w1, h⟩ := hconn p.b w
    simp only [h]
    exact ⟨_, rfl⟩
  · exact ⟨_, rfl⟩

theorem forcedReconnectV5_total {σ : Type} (n : Net σ)
    (hconn : ∀ (b : BrokerInfo) (w : σ), ∃ conn w1, b.connectV5 n w = (.ok conn, w1)) :
    FallsThrough (forcedReconnectV5 n) := by
  intro p
  unfold forcedReconnectV5
  obtain ⟨conn, w1, h⟩ := hconn p.b (n.close p.conn p.w)
  simp only [h]
  exact ⟨_, rfl⟩

theorem pingsBack_of_answer {σ : Type} (n : Net σ) (conn : Conn) (w : σ)
    (h : (n.read conn 100 (n.write conn pingreq w)).1 = answer pingresp) :
    pingsBack n conn w = (true, (n.read conn 100 (n.write conn pingreq w)).2) := by
  rw [pingsBack_eq, h]
  simp [answer]

theorem runSteps_cons_ok {σ : Type} (s : Probe σ → Step σ) (l : List (Probe σ → Step σ))
    (p p' : Probe σ) (h : runSteps (s :: l) p = .ok p') :
    ∃ q, s p = .ok q ∧ runSteps l q = .ok p' := by
  simp only [runSteps] at h
  cases hs : s p with
  | ok q =>
    rw [hs] at h
    exact ⟨q, rfl, h⟩
  | error e =>
    rw [hs] at h
    cases h

theorem finish_info {σ : Type} (n : Net σ) (conn : Conn) (r : Step σ) :
    (finish n conn r).2.1 = Step.info r := by
  cases r with
  | ok p => rfl
  | error e => rfl

theorem connRead_make_length {σ : Type} (n : Net σ) (conn : Conn) (w : σ) :
    (connRead n conn (make 100) w).buf.length = 100 := by
  rw [connRead_buf_length]
  simp [make]

theorem reconnectIfDeadV4_puback {σ : Type} (n : Net σ) (p p' : Probe σ)
    (h : reconnectIfDeadV4 n p = .ok p') : p'.puback = p.puback := by
  unfold reconnectIfDeadV4 at h
  repeat' split at h
  all_goals cases h
  all_goals rfl

theorem qos2V4_puback {σ : Type} (n : Net σ) (p p' : Probe σ)
    (h : qos2V4 n p = .ok p') : p'.puback = p.puback := by
  unfold qos2V4 at h
  dsimp only at h
  split_ifs at h
  all_goals cases h
  all_goals rfl

theorem qos1V4_puback_length {σ : Type} (n : Net σ) (p p' : Probe σ)
    (h : qos1V4 n p = .ok p') : p'.puback.length = 100 := by
  unfold qos1V4 at h
  dsimp only at h
  cases h
  exact connRead_make_length _ _ _

theorem beforeQoS3V4_puback_length {σ : Type} (n : Net σ) (p0 p : Probe σ)
    (h : runSteps ((stepsV4 n).take 5) p0 = .ok p) : p.puback.length = 100 := by
  obtain ⟨p1, -, h⟩ := runSteps_cons_ok _ _ _ _ h
  obtain ⟨p2, h2, h⟩ := runSteps_cons_ok _ _ _ _ h
  obtain ⟨p3, h3, h⟩ := runSteps_cons_ok _ _ _ _ h
  obtain ⟨p4, h4, h⟩ := runSteps_cons_ok _ _ _ _ h
  obtain ⟨p5, h5, h⟩ := runSteps_cons_ok _ _ _ _ h
  cases h
  rw [reconnectIfDeadV4_puback n _ _ h5, qos2V4_puback n _ _ h4,
    reconnectIfDeadV4_puback n _ _ h3]
  exact qos1V4_puback_length n _ _ h2

theorem reconnectIfDeadV5_puback {σ : Type} (n : Net σ) (p p' : Probe σ)
    (h : reconnectIfDeadV5 n p = .ok p') : p'.puback = p.puback := by
  unfold reconnectIfDeadV5 at h
  repeat' split at h
  all_goals cases h
  all_goals rfl

theorem qos2V5_puback {σ : Type} (n : Net σ) (p p' : Probe σ)
    (h : qos2V5 n p = .ok p') : p'.puback = p.puback := by
  unfold qos2V5 at h
  dsimp only at h
  split_ifs at h
  all_goals cases h
  all_goals rfl

theorem qos1V5_puback_length {σ : Type} (n : Net σ) (p p' : Probe σ)
    (h : qos1V5 n p = .ok p') : p'.puback.length = 100 := by
  unfold qos1V5 at h
  dsimp only at h
  cases h
  exact connRead_make_length _ _ _

theorem beforeQoS3V5_puback_length {σ : Type} (n : Net σ) (p0 p : Probe σ)
    (h : runSteps ((stepsV5 n).take 5) p0 = .ok p) : p.puback.length = 100 := by
  obtain ⟨p1, -, h⟩ := runSteps_cons_ok _ _ _ _ h
  obtain ⟨p2, h2, h⟩ := runSteps_cons_ok _ _ _ _ h
  obtain ⟨p3, h3, h⟩ := runSteps_cons_ok _ _ _ _ h
  obtain ⟨p4, h4, h⟩ := runSteps_cons_ok _ _ _ _ h
  obtain ⟨p5, h5, h⟩ := runSteps_cons_ok _ _ _ _ h
  cases h
  rw [reconnectIfDeadV5_puback n _ _ h5, qos2V5_puback n _ _ h4,
    reconnectIfDeadV5_puback n _ _ h3]
  exact qos1V5_puback_length n _ _ h2

theorem keeps_runSteps {σ : Type} (P : BrokerInfo → Prop) (l : List (Probe σ → Step σ))
    (h : ∀ s ∈ l, Keeps P s) : Keeps P (runSteps l) := by
  induction l with
  | nil => exact keeps_nil P
  | cons s l ih =>
    exact keeps_cons P s l (h s (List.mem_cons_self _ _))
      (ih fun t ht => h t (List.mem_cons_of_mem _ ht))

theorem total_runSteps {σ : Type} (l : List (Probe σ → Step σ))
    (h : ∀ s ∈ l, FallsThrough s) : FallsThrough (runSteps l) := by
  induction l with
  | nil => exact total_nil
  | cons s l ih =>
    exact total_cons s l (h s (List.mem_cons_self _ _))
      (ih fun t ht => h t (List.mem_cons_of_mem _ ht))

theorem runSteps_cons_of_ok {σ : Type} (s : Probe σ → Step σ) (l : List (Probe σ → Step σ))
    (p q : Probe σ) (h : s p = .ok q) : runSteps (s :: l) p = runSteps l q := by
  simp only [runSteps, h]

theorem stepsV4_split {σ : Type} (n : Net σ) :
    stepsV4 n = (stepsV4 n).take 5 ++ qos3V4 n :: (stepsV4 n).drop 6 := rfl

theorem stepsV5_split {σ : Type} (n : Net σ) :
    stepsV5 n = (stepsV5 n).take 5 ++ qos3V5 n :: (stepsV5 n).drop 6 := rfl

theorem beforeQoS3V4_keeps {σ : Type} (n : Net σ) (x : Bool) :
    Keeps (fun b => b.V4QoS3Response = x) (runSteps ((stepsV4 n).take 5)) := by
  apply keeps_runSteps
  have hl : (stepsV4 n).take 5 =
      [firstPing n, qos1V4 n, reconnectIfDeadV4 n, qos2V4 n, reconnectIfDeadV4 n] := rfl
  rw [hl]
  simp only [List.forall_mem_cons, List.not_mem_nil, false_implies, implies_true, and_true]
  repeat' apply And.intro
  all_goals first
    | exact firstPing_keeps n _
    | exact reconnectIfDeadV4_keeps n _
    | exact qos1V4_keeps n (fun b => b.V4QoS3Response = x) (fun _ h => h)
    | exact qos2V4_keeps n (fun b => b.V4QoS3Response = x) (fun _ h => h)

theorem afterQoS3V4_keeps {σ : Type} (n : Net σ) (x : Bool) :
    Keeps (fun b => b.V4QoS3Response = x) (runSteps ((stepsV4 n).drop 6)) := by
  apply keeps_runSteps
  have hl : (stepsV4 n).drop 6 =
      [reconnectIfDeadV4 n, subAllV4 n, forcedReconnectV4 n, subInvalidV4 n,
       reconnectIfDeadV4 n, subInvalidUTF8V4 n, reconnectIfDeadV4 n, pubSysV4 n,
       forcedReconnectV4 n, filterSysV4 n] := rfl
  rw [hl]
  simp only [List.forall_mem_cons, List.not_mem_nil, false_implies, implies_true, and_true]
  repeat' apply And.intro
  all_goals first
    | exact reconnectIfDeadV4_keeps n _
    | exact forcedReconnectV4_keeps n _
    | exact subAllV4_keeps n (fun b => b.V4QoS3Response = x) (fun _ h => h)
    | exact subInvalidV4_keeps n (fun b => b.V4QoS3Response = x) (fun _ h => h)
    | exact subInvalidUTF8V4_keeps n (fun b => b.V4QoS3Response = x) (fun _ h => h)
    | exact pubSysV4_keeps n (fun b => b.V4QoS3Response = x) (fun _ h => h)
    | exact filterSysV4_keeps n (fun b => b.V4QoS3Response = x) (fun _ h => h)

theorem beforeQoS3V5_keeps {σ : Type} (n : Net σ) (x : Bool) :
    Keeps (fun b => b.V5QoS3Response = x) (runSteps ((stepsV5 n).take 5)) := by
  apply keeps_runSteps
  have hl : (stepsV5 n).take 5 =
      [firstPing n, qos1V5 n, reconnectIfDeadV5 n, qos2V5 n, reconnectIfDeadV5 n] := rfl
  rw [hl]
  simp only [List.forall_mem_cons, List.not_mem_nil, false_implies, implies_true, and_true]
  repeat' apply And.intro
  all_goals first
    | exact firstPing_keeps n _
    | exact reconnectIfDeadV5_keeps n _
    | exact qos1V5_keeps n (fun b => b.V5QoS3Response = x) (fun _ h => h)
    | exact qos2V5_keeps n (fun b => b.V5QoS3Response = x) (fun _ h => h)

theorem afterQoS3V5_keeps {σ : Type} (n : Net σ) (x : Bool) :
    Keeps (fun b => b.V5QoS3Response = x) (runSteps ((stepsV5 n).drop 6)) := by
  apply keeps_runSteps
  have hl : (stepsV5 n).drop 6 =
      [reconnectIfDeadV5 n, subAllV5 n, forcedReconnectV5 n, subInvalidV5 n,
       reconnectIfDeadV5 n, subInvalidUTF8V5 n, reconnectIfDeadV5 n, pubSysV5 n,
       forcedReconnectV5 n, filterSysV5 n] := rfl
  rw [hl]
  simp only [List.forall_mem_cons, List.not_mem_nil, false_implies, implies_true, and_true]
  repeat' apply And.intro
  all_goals first
    | exact reconnectIfDeadV5_keeps n _
    | exact forcedReconnectV5_keeps n _
    | exact subAllV5_keeps n (fun b => b.V5QoS3Response = x) (fun _ h => h)
    | exact subInvalidV5_keeps n (fun b => b.V5QoS3Response = x) (fun _ h => h)
    | exact subInvalidUTF8V5_keeps n (fun b => b.V5QoS3Response = x) (fun _ h => h)
    | exact pubSysV5_keeps n (fun b => b.V5QoS3Response = x) (fun _ h => h)
    | exact filterSysV5_keeps n (fun b => b.V5QoS3Response = x) (fun _ h => h)

theorem qos3V4_of_read {σ : Type} (n : Net σ) (p : Probe σ) (r : ReadResult) (w1 : σ)
    (hlen : p.puback.length = 100)
    (hr : n.read p.conn 100 (n.write p.conn publishV4Q3 p.w) = (r, w1)) :
    ∃ p', qos3V4 n p = .ok p' ∧
      p'.b.V4QoS3Response = (if r.err then p.b.V4QoS3Response else true) := by
  rw [← hlen] at hr
  refine ⟨_, rfl, ?_⟩
  simp only [connRead_of_read n p.conn p.puback _ _ _ hr]
  cases r.err <;> simp

theorem analyzeV4_qos3 {σ : Type} (n : Net σ) (b : BrokerInfo) (w : σ)
    (conn : Conn) (w0 : σ) (p : Probe σ) (r : ReadResult) (w1 : σ)
    (hc : b.connectV4 n w = (.ok conn, w0))
    (hp : runSteps ((stepsV4 n).take 5)
      { b := b, conn := conn, puback := [], suback := [], w := w0 } = .ok p)
    (hr : n.read p.conn 100 (n.write p.conn publishV4Q3 p.w) = (r, w1)) :
    (b.AnalyzeV4 n w).2.1.V4QoS3Response = (if r.err then b.V4QoS3Response else true) := by
  have hlen := beforeQoS3V4_puback_length n _ _ hp
  have hb : p.b.V4QoS3Response = b.V4QoS3Response := by
    have := beforeQoS3V4_keeps n b.V4QoS3Response _ (rfl :
      ({ b := b, conn := conn, puback := [], suback := [], w := w0 } : Probe σ).b.V4QoS3Response
        = b.V4QoS3Response)
    rw [hp] at this
    exact this
  obtain ⟨p6, h6, hv⟩ := qos3V4_of_read n p r w1 hlen hr
  have hsuf := afterQoS3V4_keeps n p6.b.V4QoS3Response p6 rfl
  simp only [BrokerInfo.AnalyzeV4, hc, finish_info]
  rw [stepsV4_split, runSteps_append, hp]
  simp only []
  rw [runSteps_cons_of_ok _ _ _ _ h6, hsuf, hv, hb]

theorem qos3V5_of_read {σ : Type} (n : Net σ) (p : Probe σ) (r : ReadResult) (w1 : σ)
    (hlen : p.puback.length = 100)
    (hr : n.read p.conn 100 (n.write p.conn publishV5Q3 p.w) = (r, w1)) :
    ∃ p', qos3V5 n p = .ok p' ∧
      p'.b.V5QoS3Response =
        (p.b.V5QoS3Response || (!r.err && matchesV5 (readInto p.puback r.data))) := by
  rw [← hlen] at hr
  refine ⟨_, rfl, ?_⟩
  simp only [connRead_of_read n p.conn p.puback _ _ _ hr, matchesV5, readInto]
  split_ifs with h
  · simp only [h, Bool.or_true]
  · rw [Bool.not_eq_true] at h
    simp only [h, Bool.or_false]

theorem analyzeV5_qos3 {σ : Type} (n : Net σ) (b : BrokerInfo) (w : σ)
    (conn : Conn) (w0 : σ) (p : Probe σ) (r : ReadResult) (w1 : σ)
    (hc : b.connectV5 n w = (.ok conn, w0))
    (hp : runSteps ((stepsV5 n).take 5)
      { b := b, conn := conn, puback := [], suback := [], w := w0 } = .ok p)
    (hr : n.read p.conn 100 (n.write p.conn publishV5Q3 p.w) = (r, w1)) :
    (b.AnalyzeV5 n w).2.1.V5QoS3Response =
      (b.V5QoS3Response || (!r.err && matchesV5 (readInto p.puback r.data))) := by
  have hlen := beforeQoS3V5_puback_length n _ _ hp
  have hb : p.b.V5QoS3Response = b.V5QoS3Response := by
    have := beforeQoS3V5_keeps n b.V5QoS3Response _ (rfl :
      ({ b := b, conn := conn, puback := [], suback := [], w := w0 } : Probe σ).b.V5QoS3Response
        = b.V5QoS3Response)
    rw [hp] at this
    exact this
  obtain ⟨p6, h6, hv⟩ := qos3V5_of_read n p r w1 hlen hr
  have hsuf := afterQoS3V5_keeps n p6.b.V5QoS3Response p6 rfl
  simp only [BrokerInfo.AnalyzeV5, hc, finish_info]
  rw [stepsV5_split, runSteps_append, hp]
  simp only []
  rw [runSteps_cons_of_ok _ _ _ _ h6, hsuf, hv, hb]

theorem connRead_make_err {σ : Type} (n : Net σ) (conn : Conn) (w : σ) :
    (connRead n conn (make 100) w).err = (n.read conn 100 w).1.err := by
  simp [connRead, make]

theorem connRead_make_buf {σ : Type} (n : Net σ) (conn : Conn) (w : σ) :
    (connRead n conn (make 100) w).buf = readInto (make 100) (n.read conn 100 w).1.data := by
  simp [connRead, make]

theorem qos2V4_keeps_of_no_answer {σ : Type} (n : Net σ) (P : BrokerInfo → Prop)
    (hno : ∀ (conn : Conn) (w : σ),
      (n.read conn 100 (n.write conn publishV4Q2 w)).1.err = true) :
    Keeps P (qos2V4 n) := by
  intro p hp
  unfold qos2V4
  dsimp only
  rw [connRead_make_err, hno]
  exact hp

theorem qos1V4_of_answer {σ : Type} (n : Net σ) (p : Probe σ)
    (hq1 : (n.read p.conn 100 (n.write p.conn publishV4Q1 p.w)).1 =
      answer [0x40, 0x02, 0x00, 0x01]) :
    ∃ p', qos1V4 n p = .ok p' ∧ p'.b.V4QoS1 = true := by
  refine ⟨_, rfl, ?_⟩
  dsimp only
  rw [connRead_make_err, connRead_make_buf, hq1]
  rfl

theorem stepsV4_keeps_qos2 {σ : Type} (n : Net σ)
    (hno : ∀ (conn : Conn) (w : σ),
      (n.read conn 100 (n.write conn publishV4Q2 w)).1.err = true) :
    Keeps (fun b => b.V4QoS2 = false) (runSteps (stepsV4 n)) := by
  apply keeps_runSteps
  simp only [stepsV4, List.forall_mem_cons, List.not_mem_nil, false_implies, implies_true,
    and_true]
  repeat' apply And.intro
  all_goals first
    | exact firstPing_keeps n _
    | exact reconnectIfDeadV4_keeps n _
    | exact forcedReconnectV4_keeps n _
    | exact qos2V4_keeps_of_no_answer n _ hno
    | exact qos1V4_keeps n (fun b => b.V4QoS2 = false) (fun _ h => h)
    | exact qos3V4_keeps n (fun b => b.V4QoS2 = false) (fun _ h => h)
    | exact subAllV4_keeps n (fun b => b.V4QoS2 = false) (fun _ h => h)
    | exact subInvalidV4_keeps n (fun b => b.V4QoS2 = false) (fun _ h => h)
    | exact subInvalidUTF8V4_keeps n (fun b => b.V4QoS2 = false) (fun _ h => h)
    | exact pubSysV4_keeps n (fun b => b.V4QoS2 = false) (fun _ h => h)
    | exact filterSysV4_keeps n (fun b => b.V4QoS2 = false) (fun _ h => h)

theorem restV4_keeps_qos1 {σ : Type} (n : Net σ) :
    Keeps (fun b => b.V4QoS1 = true) (runSteps ((stepsV4 n).drop 2)) := by
  apply keeps_runSteps
  have hl : (stepsV4 n).drop 2 =
      [reconnectIfDeadV4 n, qos2V4 n, reconnectIfDeadV4 n, qos3V4 n,
       reconnectIfDeadV4 n, subAllV4 n, forcedReconnectV4 n, subInvalidV4 n,
       reconnectIfDeadV4 n, subInvalidUTF8V4 n, reconnectIfDeadV4 n, pubSysV4 n,
       forcedReconnectV4 n, filterSysV4 n] := rfl
  rw [hl]
  simp only [List.forall_mem_cons, List.not_mem_nil, false_implies, implies_true, and_true]
  repeat' apply And.intro
  all_goals first
    | exact reconnectIfDeadV4_keeps n _
    | exact forcedReconnectV4_keeps n _
    | exact qos2V4_keeps n (fun b => b.V4QoS1 = true) (fun _ h => h)
    | exact qos3V4_keeps n (fun b => b.V4QoS1 = true) (fun _ h => h)
    | exact subAllV4_keeps n (fun b => b.V4QoS1 = true) (fun _ h => h)
    | exact subInvalidV4_keeps n (fun b => b.V4QoS1 = true) (fun _ h => h)
    | exact subInvalidUTF8V4_keeps n (fun b => b.V4QoS1 = true) (fun _ h => h)
    | exact pubSysV4_keeps n (fun b => b.V4QoS1 = true) (fun _ h => h)
    | exact filterSysV4_keeps n (fun b => b.V4QoS1 = true) (fun _ h => h)

theorem qos2V5_keeps_of_no_answer {σ : Type} (n : Net σ) (P : BrokerInfo → Prop)
    (hno : ∀ (conn : Conn) (w : σ),
      (n.read conn 100 (n.write conn publishV5Q2 w)).1.err = true) :
    Keeps P (qos2V5 n) := by
  intro p hp
  unfold qos2V5
  dsimp only
  rw [connRead_make_err, hno]
  exact hp

theorem qos1V5_of_answer {σ : Type} (n : Net σ) (p : Probe σ)
    (hq1 : (n.read p.conn 100 (n.write p.conn publishV5Q1 p.w)).1 =
      answer [0x40, 0x02, 0x00, 0x01]) :
    ∃ p', qos1V5 n p = .ok p' ∧ p'.b.V5QoS1 = true := by
  refine ⟨_, rfl, ?_⟩
  dsimp only
  rw [connRead_make_err, connRead_make_buf, hq1]
  rfl

theorem stepsV5_keeps_qos2 {σ : Type} (n : Net σ)
    (hno : ∀ (conn : Conn) (w : σ),
      (n.read conn 100 (n.write conn publishV5Q2 w)).1.err = true) :
    Keeps (fun b => b.V5QoS2 = false) (runSteps (stepsV5 n)) := by
  apply keeps_runSteps
  simp only [stepsV5, List.forall_mem_cons, List.not_mem_nil, false_implies, implies_true,
    and_true]
  repeat' apply And.intro
  all_goals first
    | exact firstPing_keeps n _
    | exact reconnectIfDeadV5_keeps n _
    | exact forcedReconnectV5_keeps n _
    | exact qos2V5_keeps_of_no_answer n _ hno
    | exact qos1V5_keeps n (fun b => b.V5QoS2 = false) (fun _ h => h)
    | exact qos3V5_keeps n (fun b => b.V5QoS2 = false) (fun _ h => h)
    | exact subAllV5_keeps n (fun b => b.V5QoS2 = false) (fun _ h => h)
    | exact subInvalidV5_keeps n (fun b => b.V5QoS2 = false) (fun _ h => h)
    | exact subInvalidUTF8V5_keeps n (fun b => b.V5QoS2 = false) (fun _ h => h)
    | exact pubSysV5_keeps n (fun b => b.V5QoS2 = false) (fun _ h => h)
    | exact filterSysV5_keeps n (fun b => b.V5QoS2 = false) (fun _ h => h)

theorem restV5_keeps_qos1 {σ : Type} (n : Net σ) :
    Keeps (fun b => b.V5QoS1 = true) (runSteps ((stepsV5 n).drop 2)) := by
  apply keeps_runSteps
  have hl : (stepsV5 n).drop 2 =
      [reconnectIfDeadV5 n, qos2V5 n, reconnectIfDeadV5 n, qos3V5 n,
       reconnectIfDeadV5 n, subAllV5 n, forcedReconnectV5 n, subInvalidV5 n,
       reconnectIfDeadV5 n, subInvalidUTF8V5 n, reconnectIfDeadV5 n, pubSysV5 n,
       forcedReconnectV5 n, filterSysV5 n] := rfl
  rw [hl]
  simp only [List.forall_mem_cons, List.not_mem_nil, false_implies, implies_true, and_true]
  repeat' apply And.intro
  all_goals first
    | exact reconnectIfDeadV5_keeps n _
    | exact forcedReconnectV5_keeps n _
    | exact qos2V5_keeps n (fun b => b.V5QoS1 = true) (fun _ h => h)
    | exact qos3V5_keeps n (fun b => b.V5QoS1 = true) (fun _ h => h)
    | exact subAllV5_keeps n (fun b => b.V5QoS1 = true) (fun _ h => h)
    | exact subInvalidV5_keeps n (fun b => b.V5QoS1 = true) (fun _ h => h)
    | exact subInvalidUTF8V5_keeps n (fun b => b.V5QoS1 = true) (fun _ h => h)
    | exact pubSysV5_keeps n (fun b => b.V5QoS1 = true) (fun _ h => h)
    | exact filterSysV5_keeps n (fun b => b.V5QoS1 = true) (fun _ h => h)

theorem isConnect_getConnectV4 (b : BrokerInfo) : isConnect b.getConnectV4 = true := by
  unfold BrokerInfo.getConnectV4
  split_ifs <;> rfl

theorem isConnect_getConnectV5 (b : BrokerInfo) : isConnect b.getConnectV5 = true := by
  unfold BrokerInfo.getConnectV5
  split_ifs <;> rfl

theorem startsWith_readInto (buf data pattern : Bytes) (hlen : pattern.length ≤ buf.length)
    (h : startsWith data pattern = true) : startsWith (readInto buf data) pattern = true := by
  unfold startsWith at h ⊢
  rw [List.isPrefixOf_iff_prefix] at h ⊢
  obtain ⟨t, rfl⟩ := h
  unfold readInto
  rw [List.take_append_eq_append_take, List.take_of_length_le hlen, List.append_assoc]
  exact List.prefix_append _ _

theorem matchesV5_readInto (buf data : Bytes) (hlen : buf.length = 100)
    (h : matchesV5 data = true) : matchesV5 (readInto buf data) = true := by
  unfold matchesV5 at h ⊢
  simp only [Bool.or_eq_true] at h ⊢
  rcases h with ((h | h) | h) | h
  · exact Or.inl (Or.inl (Or.inl (startsWith_readInto _ _ _ (by rw [hlen]; decide) h)))
  · exact Or.inl (Or.inl (Or.inr (startsWith_readInto _ _ _ (by rw [hlen]; decide) h)))
  · exact Or.inl (Or.inr (startsWith_readInto _ _ _ (by rw [hlen]; decide) h))
  · exact Or.inr (startsWith_readInto _ _ _ (by rw [hlen]; decide) h)

/-! ## The claims -/

/-- C1: `encodeLength` round-trips. For every `n` with `0 ≤ n ≤ 268435455`, the MQTT
variable-length decoder reads `encodeLength n` back to exactly `n` and uses up the whole
output; the output has 1 byte for `0..127`, 2 for `128..16383`, 3 for `16384..2097151`
and 4 for `2097152..268435455`. -/
theorem encodeLength_roundtrip (n : Int) (h0 : 0 ≤ n) (h1 : n ≤ 268435455) :
    decodeLength (encodeLength n) = some (n.toNat, []) ∧
    (encodeLength n).length =
      (if n ≤ 127 then 1 else if n ≤ 16383 then 2 else if n ≤ 2097151 then 3 else 4) := by
  obtain ⟨m, rfl⟩ := Int.eq_ofNat_of_zero_le h0
  have hm : m ≤ 268435455 := by exact_mod_cast h1
  constructor
  · have := decode_encodeLength_append m []
    simpa using this
  · rw [encodeLength_length_nat m hm]
    simp only [Nat.cast_le_ofNat]

/-- C1 at `n = 300`: two bytes, read back as 300. -/
theorem encodeLength_roundtrip_witness :
    decodeLength (encodeLength 300) = some ((300 : Int).toNat, []) ∧
    (encodeLength 300).length =
      (if (300 : Int) ≤ 127 then 1 else if (300 : Int) ≤ 16383 then 2
        else if (300 : Int) ≤ 2097151 then 3 else 4) :=
  encodeLength_roundtrip 300 (by decide) (by decide)

/-- C2 fails on the code: for a user name of 65535 bytes and a password of one byte (each
shorter than 65536 bytes) the packet of `getConnectV4` is not framed. The `uint16` sum of
the two lengths wraps to 0, so the remaining-length field says 24 while 65560 bytes
follow it. -/
theorem getConnectV4_remaining_length_wraps :
    ¬ Framed longCredentials.getConnectV4 ∧
    decodeLength longCredentials.getConnectV4.tail =
      some (24, connectBody longCredentials.getConnectV4) ∧
    (connectBody longCredentials.getConnectV4).length = 65560 :=
  getConnectV4_wraps "localhost" 1883 (List.replicate 65535 0x61) [0x62]
    (List.length_replicate _ _) rfl

/-- C3 fails on the code: with credentials `u`/`p` the packet of `getConnectV5` has no
properties-length byte. Its remaining-length field says 27 while 26 bytes follow, and
the bytes after the field are not those of `getConnectV4` with level 5 and a `0x00`
inserted after the keep-alive. Without credentials the literal `connectV5` does carry
that byte. -/
theorem getConnectV5_credentials_lack_properties_byte :
    shortCredentials.getConnectV5 =
      [0x10, 27, 0x00, 0x04, 0x4d, 0x51, 0x54, 0x54, 0x05, 0xc2, 0x00, 0x3c, 0x00, 0x08,
       0x6d, 0x71, 0x74, 0x74, 0x69, 0x6e, 0x66, 0x6f, 0x00, 0x01, 0x75, 0x00, 0x01, 0x70] ∧
    decodeLength shortCredentials.getConnectV5.tail =
      some (27, connectBody shortCredentials.getConnectV5) ∧
    (connectBody shortCredentials.getConnectV5).length = 26 ∧
    connectBody shortCredentials.getConnectV5 ≠
      toV5Body (connectBody shortCredentials.getConnectV4) ∧
    ¬ Framed shortCredentials.getConnectV5 ∧
    connectBody anonymous.getConnectV5 = toV5Body (connectBody anonymous.getConnectV4) := by
  refine ⟨by decide, by decide, by decide, by decide, fun h => ?_, by decide⟩
  have hp : shortCredentials.getConnectV5 =
      0x10 :: 27 :: [0x00, 0x04, 0x4d, 0x51, 0x54, 0x54, 0x05, 0xc2, 0x00, 0x3c, 0x00, 0x08,
       0x6d, 0x71, 0x74, 0x74, 0x69, 0x6e, 0x66, 0x6f, 0x00, 0x01, 0x75, 0x00, 0x01, 0x70] := by
    decide
  rw [hp] at h
  have := framed_short _ _ (by norm_num) h
  simp at this

/-- C4 fails as stated: given a password `p` and no user name, `getConnectV4` builds the
anonymous packet, so the password is not recovered (and the flags are `0x02`). -/
theorem getConnectV4_drops_password_without_username :
    recoversV4 passwordOnly = false ∧
    parseConnectV4 passwordOnly.getConnectV4 =
      some { level := 4, flags := 0x02, keepAlive := 60, clientId := clientId,
             username := none, password := none } := by
  decide

/-- C4 as amended: when the two lengths add up to less than 65536, the packet of
`getConnectV4` parses as a v3.1.1 CONNECT with keep-alive 60 and client id `"mqttinfo"`;
with a non-empty user name it has flags `0xC2` and carries exactly the given user name
and password; with an empty user name it has flags `0x02` and carries neither. -/
theorem getConnectV4_parse (b : BrokerInfo)
    (hsum : b.Username.length + b.Password.length < 65536) :
    parseConnectV4 b.getConnectV4 = some
      (if b.Username = [] then
        { level := 4, flags := 0x02, keepAlive := 60, clientId := clientId,
          username := none, password := none }
      else
        { level := 4, flags := 0xc2, keepAlive := 60, clientId := clientId,
          username := some b.Username, password := some b.Password }) := by
  by_cases hu : b.Username = []
  · rw [if_pos hu]
    unfold BrokerInfo.getConnectV4
    rw [if_pos hu]
    decide
  · rw [if_neg hu, getConnectV4_of_username b hu]
    have hul : b.Username.length < 65536 := by omega
    have hpl : b.Password.length < 65536 := by omega
    have hlen : (connectHeadV4 ++ (putUint16 (b.Username.length % 65536) ++ (b.Username ++
          (putUint16 (b.Password.length % 65536) ++ b.Password)))).length =
        24 + (b.Username.length % 65536 + b.Password.length % 65536) % 65536 := by
      simp [connectHeadV4, putUint16]
      omega
    have hpw := readField_putUint16 b.Password [] hpl
    rw [List.append_nil] at hpw
    have hus := readField_putUint16 b.Username
      (putUint16 (b.Password.length % 65536) ++ b.Password) hul
    simp only [parseConnectV4, decode_encodeLength_append, hlen, if_true]
    rw [parseConnectBodyV4_head]
    simp only [readOptField, if_true, hus, hpw]

/-- C4 as amended, at user name `u` and password `p`. -/
theorem getConnectV4_parse_witness :
    parseConnectV4 shortCredentials.getConnectV4 = some
      (if shortCredentials.Username = [] then
        { level := 4, flags := 0x02, keepAlive := 60, clientId := clientId,
          username := none, password := none }
      else
        { level := 4, flags := 0xc2, keepAlive := 60, clientId := clientId,
          username := some shortCredentials.Username,
          password := some shortCredentials.Password }) :=
  getConnectV4_parse shortCredentials (by decide)

/-- C5 fails on the code: a CONNACK `20 03 00 84 00` (reason code `0x84`, none of `0x00`
to `0x05`) makes `CheckConnectionV4` return the error "CONNACK: Unknown reason code",
with `V4 = false`; `CheckConnectionV5` returns no error in its own default case. -/
theorem CheckConnectionV4_unknown_code_returns_error :
    (anonymous.CheckConnectionV4 (connackBroker [0x20, 0x03, 0x00, 0x84, 0x00]) idle).1 =
      some (Err.connack "Unknown reason code") ∧
    (anonymous.CheckConnectionV4 (connackBroker [0x20, 0x03, 0x00, 0x84, 0x00]) idle).2.1.V4
      = false ∧
    (anonymous.CheckConnectionV5 (connackBroker [0x20, 0x03, 0x00, 0x06, 0x00]) idle).1 = none ∧
    (anonymous.CheckConnectionV5 (connackBroker [0x20, 0x03, 0x00, 0x06, 0x00]) idle).2.1.V5
      = false := by
  decide

/-- C6 fails on the code: a CONNACK `20 03 00 99 00` (reason code `0x99`, Payload format
invalid) makes `CheckConnectionV5` return no error, with `V5 = false`; the neighbouring
codes `0x97` and `0x9a` return an error. -/
theorem CheckConnectionV5_payload_format_invalid_not_error :
    (anonymous.CheckConnectionV5 (connackBroker [0x20, 0x03, 0x00, 0x99, 0x00]) idle).1 = none ∧
    (anonymous.CheckConnectionV5 (connackBroker [0x20, 0x03, 0x00, 0x99, 0x00]) idle).2.1.V5
      = false ∧
    (anonymous.CheckConnectionV5 (connackBroker [0x20, 0x03, 0x00, 0x97, 0x00]) idle).1 =
      some (Err.connack "Quota exceeded") ∧
    (anonymous.CheckConnectionV5 (connackBroker [0x20, 0x03, 0x00, 0x9a, 0x00]) idle).1 =
      some (Err.connack "Retain not supported") := by
  decide

/-- C7 fails on the code: when the CONNACK read succeeds with the two bytes `20 02`,
`connectV4` and `connectV5` return the connection and no error, while
`CheckConnectionV4` and `CheckConnectionV5` return "CONNACK too short" and leave the
record as it was. -/
theorem connect_accepts_truncated_connack :
    (anonymous.connectV4 (connackBroker [0x20, 0x02]) idle).1 = .ok 0 ∧
    (anonymous.connectV5 (connackBroker [0x20, 0x02]) idle).1 = .ok 0 ∧
    (anonymous.CheckConnectionV4 (connackBroker [0x20, 0x02]) idle).1 =
      some (Err.connackTooShort 2) ∧
    (anonymous.CheckConnectionV4 (connackBroker [0x20, 0x02]) idle).2.1 = anonymous ∧
    (anonymous.CheckConnectionV5 (connackBroker [0x20, 0x02]) idle).1 =
      some (Err.connackTooShort 2) ∧
    (anonymous.CheckConnectionV5 (connackBroker [0x20, 0x02]) idle).2.1 = anonymous := by
  decide

/-- C8: for `AnalyzeV4` and for `AnalyzeV5`, from every starting record and network state:
if the connect succeeds and the read that follows the first PINGREQ fails or returns
anything but the PINGRESP bytes, the routine returns the error "Broker does not respond
to PINGREQ" and the record is exactly the one it started from. -/
theorem analyze_first_ping_failure {σ : Type} (n : Net σ) (b : BrokerInfo) (w : σ) :
    (∀ conn w1, b.connectV4 n w = (.ok conn, w1) →
      ((n.read conn 100 (n.write conn pingreq w1)).1.err = true ∨
        (n.read conn 100 (n.write conn pingreq w1)).1.data ≠ pingresp) →
      (b.AnalyzeV4 n w).1 = some Err.noPingResponse ∧ (b.AnalyzeV4 n w).2.1 = b) ∧
    (∀ conn w1, b.connectV5 n w = (.ok conn, w1) →
      ((n.read conn 100 (n.write conn pingreq w1)).1.err = true ∨
        (n.read conn 100 (n.write conn pingreq w1)).1.data ≠ pingresp) →
      (b.AnalyzeV5 n w).1 = some Err.noPingResponse ∧ (b.AnalyzeV5 n w).2.1 = b) := by
  constructor
  · intro conn w1 hc hp
    have hping : (pingsBack n conn w1).1 = false := by
      rw [pingsBack_eq]
      rcases hp with hp | hp <;> simp [hp]
    simp only [BrokerInfo.AnalyzeV4, hc, stepsV4, runSteps, firstPing]
    rcases hpb : pingsBack n conn w1 with ⟨ok, w2⟩
    rw [hpb] at hping
    simp only at hping
    subst hping
    simp [finish]
  · intro conn w1 hc hp
    have hping : (pingsBack n conn w1).1 = false := by
      rw [pingsBack_eq]
      rcases hp with hp | hp <;> simp [hp]
    simp only [BrokerInfo.AnalyzeV5, hc, stepsV5, runSteps, firstPing]
    rcases hpb : pingsBack n conn w1 with ⟨ok, w2⟩
    rw [hpb] at hping
    simp only at hping
    subst hping
    simp [finish]

/-- C8 at a broker that accepts the CONNECT and then answers nothing, started from a
record with credentials. -/
theorem analyze_first_ping_failure_witness :
    ((shortCredentials.AnalyzeV4 (replyNet silentReply) idle).1 = some Err.noPingResponse ∧
      (shortCredentials.AnalyzeV4 (replyNet silentReply) idle).2.1 = shortCredentials) ∧
    ((shortCredentials.AnalyzeV5 (replyNet silentReply) idle).1 = some Err.noPingResponse ∧
      (shortCredentials.AnalyzeV5 (replyNet silentReply) idle).2.1 = shortCredentials) :=
  ⟨(analyze_first_ping_failure (replyNet silentReply) shortCredentials idle).1
      0 _ rfl (Or.inl rfl),
   (analyze_first_ping_failure (replyNet silentReply) shortCredentials idle).2
      0 _ rfl (Or.inl rfl)⟩

/-! ## Supporting lemmas for the later probes and the classifier -/

theorem connRead_err {σ : Type} (n : Net σ) (conn : Conn) (buf : Bytes) (w : σ) :
    (connRead n conn buf w).err = (n.read conn buf.length w).1.err := by
  simp [connRead]

theorem laterStepsV4_total {σ : Type} (n : Net σ)
    (hconn : ∀ (b : BrokerInfo) (w : σ), ∃ conn w1, b.connectV4 n w = (.ok conn, w1)) :
    FallsThrough (runSteps ((stepsV4 n).drop 1)) := by
  apply total_runSteps
  have hl : (stepsV4 n).drop 1 =
      [qos1V4 n, reconnectIfDeadV4 n, qos2V4 n, reconnectIfDeadV4 n, qos3V4 n,
       reconnectIfDeadV4 n, subAllV4 n, forcedReconnectV4 n, subInvalidV4 n,
       reconnectIfDeadV4 n, subInvalidUTF8V4 n, reconnectIfDeadV4 n, pubSysV4 n,
       forcedReconnectV4 n, filterSysV4 n] := rfl
  rw [hl]
  simp only [List.forall_mem_cons, List.not_mem_nil, false_implies, implies_true, and_true]
  repeat' apply And.intro
  all_goals first
    | exact reconnectIfDeadV4_total n hconn
    | exact forcedReconnectV4_total n hconn
    | exact qos1V4_total n
    | exact qos2V4_total n
    | exact qos3V4_total n
    | exact subAllV4_total n
    | exact subInvalidV4_total n
    | exact subInvalidUTF8V4_total n
    | exact pubSysV4_total n
    | exact filterSysV4_total n

theorem analyzeV4_no_error {σ : Type} (n : Net σ) (b : BrokerInfo) (w : σ)
    (hconn : ∀ (b : BrokerInfo) (w : σ), ∃ conn w1, b.connectV4 n w = (.ok conn, w1))
    (conn : Conn) (w0 : σ) (hc : b.connectV4 n w = (.ok conn, w0))
    (hping : (n.read conn 100 (n.write conn pingreq w0)).1 = answer pingresp) :
    (b.AnalyzeV4 n w).1 = none := by
  have h1 : firstPing n { b := b, conn := conn, puback := [], suback := [], w := w0 } =
      .ok { b := b, conn := conn, puback := [], suback := [],
            w := (n.read conn 100 (n.write conn pingreq w0)).2 } := by
    unfold firstPing
    rw [pingsBack_of_answer n conn w0 hping]
  obtain ⟨pf, hpf⟩ := laterStepsV4_total n hconn
    { b := b, conn := conn, puback := [], suback := [],
      w := (n.read conn 100 (n.write conn pingreq w0)).2 }
  have hsplit : stepsV4 n = firstPing n :: (stepsV4 n).drop 1 := rfl
  simp only [BrokerInfo.AnalyzeV4, hc]
  rw [hsplit, runSteps_cons_of_ok _ _ _ _ h1, hpf]
  rfl

theorem laterStepsV5_total {σ : Type} (n : Net σ)
    (hconn : ∀ (b : BrokerInfo) (w : σ), ∃ conn w1, b.connectV5 n w = (.ok conn, w1)) :
    FallsThrough (runSteps ((stepsV5 n).drop 1)) := by
  apply total_runSteps
  have hl : (stepsV5 n).drop 1 =
      [qos1V5 n, reconnectIfDeadV5 n, qos2V5 n, reconnectIfDeadV5 n, qos3V5 n,
       reconnectIfDeadV5 n, subAllV5 n, forcedReconnectV5 n, subInvalidV5 n,
       reconnectIfDeadV5 n, subInvalidUTF8V5 n, reconnectIfDeadV5 n, pubSysV5 n,
       forcedReconnectV5 n, filterSysV5 n] := rfl
  rw [hl]
  simp only [List.forall_mem_cons, List.not_mem_nil, false_implies, implies_true, and_true]
  repeat' apply And.intro
  all_goals first
    | exact reconnectIfDeadV5_total n hconn
    | exact forcedReconnectV5_total n hconn
    | exact qos1V5_total n
    | exact qos2V5_total n
    | exact qos3V5_total n
    | exact subAllV5_total n
    | exact subInvalidV5_total n
    | exact subInvalidUTF8V5_total n
    | exact pubSysV5_total n
    | exact filterSysV5_total n

theorem analyzeV5_no_error {σ : Type} (n : Net σ) (b : BrokerInfo) (w : σ)
    (hconn : ∀ (b : BrokerInfo) (w : σ), ∃ conn w1, b.connectV5 n w = (.ok conn, w1))
    (conn : Conn) (w0 : σ) (hc : b.connectV5 n w = (.ok conn, w0))
    (hping : (n.read conn 100 (n.write conn pingreq w0)).1 = answer pingresp) :
    (b.AnalyzeV5 n w).1 = none := by
  have h1 : firstPing n { b := b, conn := conn, puback := [], suback := [], w := w0 } =
      .ok { b := b, conn := conn, puback := [], suback := [],
            w := (n.read conn 100 (n.write conn pingreq w0)).2 } := by
    unfold firstPing
    rw [pingsBack_of_answer n conn w0 hping]
  obtain ⟨pf, hpf⟩ := laterStepsV5_total n hconn
    { b := b, conn := conn, puback := [], suback := [],
      w := (n.read conn 100 (n.write conn pingreq w0)).2 }
  have hsplit : stepsV5 n = firstPing n :: (stepsV5 n).drop 1 := rfl
  simp only [BrokerInfo.AnalyzeV5, hc]
  rw [hsplit, runSteps_cons_of_ok _ _ _ _ h1, hpf]
  rfl

theorem take_of_startsWith (buf pattern : Bytes) (h : startsWith buf pattern = true) :
    buf.take pattern.length = pattern := by
  unfold startsWith at h
  rw [List.isPrefixOf_iff_prefix] at h
  exact (List.prefix_iff_eq_take.1 h).symm

theorem length_le_of_startsWith (buf pattern : Bytes) (h : startsWith buf pattern = true) :
    pattern.length ≤ buf.length := by
  unfold startsWith at h
  rw [List.isPrefixOf_iff_prefix] at h
  exact h.length_le

theorem sysProbe_of_reads {σ : Type} (n : Net σ) (conn : Conn) (packet : Bytes) (w : σ)
    (r1 r2 : ReadResult) (w2 w3 : σ)
    (h1 : n.read conn 100 (n.write conn packet w) = (r1, w2)) (he : r1.err = false)
    (hp : startsWith r1.data subackV4Q0 = true)
    (h2 : n.read conn 100 w2 = (r2, w3)) :
    sysProbe n conn packet (make 100) w =
      { ack := true, msg := decide ((r2.data.take 100).length ≠ 0),
        suback := readInto (make 100) r1.data, w := w3 } := by
  have hm : (make 100).length = 100 := by simp [make]
  have hr1 := connRead_of_read n conn (make 100) (n.write conn packet w) w2 r1 (by rw [hm]; exact h1)
  have hr2 := connRead_of_read n conn (make 100) w2 w3 r2 (by rw [hm]; exact h2)
  have hbuf := take_of_startsWith _ _
    (startsWith_readInto (make 100) r1.data subackV4Q0 (by rw [hm]; decide) hp)
  have hlen : subackV4Q0.length ≤ (r1.data.take (make 100).length).length := by
    have := length_le_of_startsWith _ _ hp
    have h5 : subackV4Q0.length = 5 := rfl
    rw [List.length_take, hm]
    omega
  rw [hm] at hlen
  unfold sysProbe
  simp only [hr1, he, hbuf, hr2, hm, ge_iff_le, decide_eq_true hlen, decide_True,
    Bool.not_false, Bool.and_self, if_true]

/-- On the test broker of `sysReply`, for every choice of the six observations and of
`V4PublishSYS`, `GuessBroker` returns no error and ends with the guess of `guessRule`. -/
theorem guessBroker_sysReply :
    ∀ a1 m1 a2 m2 a3 m3 ps : Bool,
      ({ anonymous with V4PublishSYS := ps }.GuessBroker
          (replyNet (sysReply a1 m1 a2 m2 a3 m3)) idle).1 = none ∧
      ({ anonymous with V4PublishSYS := ps }.GuessBroker
          (replyNet (sysReply a1 m1 a2 m2 a3 m3)) idle).2.1.TypeGuessed =
        guessRule a1 m1 a2 m2 a3 m3 ps "unknown" := by
  decide

theorem runSteps_take_add_drop {σ : Type} (l : List (Probe σ → Step σ)) (k : Nat)
    (p0 p : Probe σ) (hp : runSteps (l.take k) p0 = .ok p) :
    runSteps l p0 = runSteps (l.drop k) p := by
  conv_lhs => rw [← List.take_append_drop k l]
  rw [runSteps_append, hp]

theorem drop_eq_cons_of_getElem? {α : Type} (l : List α) (k : Nat) (s : α)
    (h : l[k]? = some s) : l.drop k = s :: l.drop (k + 1) := by
  obtain ⟨hk, rfl⟩ := List.getElem?_eq_some.mp h
  exact List.drop_eq_getElem_cons hk

/-- A run whose block `k` returns an error from the state reached returns that error. -/
theorem runSteps_error_of_take {σ : Type} (l : List (Probe σ → Step σ)) (k : Nat)
    (p0 p : Probe σ) (s : Probe σ → Step σ) (e : Err × Probe σ)
    (hp : runSteps (l.take k) p0 = .ok p) (hs : l[k]? = some s) (he : s p = .error e) :
    runSteps l p0 = .error e := by
  rw [runSteps_take_add_drop l k p0 p hp, drop_eq_cons_of_getElem? l k s hs]
  simp only [runSteps, he]

/-- A run that returns an error does so at some block `k`, from the state reached. -/
theorem runSteps_error_at {σ : Type} (l : List (Probe σ → Step σ)) (p0 : Probe σ)
    (e : Err × Probe σ) (h : runSteps l p0 = .error e) :
    ∃ k p s, runSteps (l.take k) p0 = .ok p ∧ l[k]? = some s ∧ s p = .error e := by
  induction l generalizing p0 with
  | nil => cases h
  | cons s l ih =>
    simp only [runSteps] at h
    cases hs : s p0 with
    | error e' =>
      rw [hs] at h
      cases h
      exact ⟨0, p0, s, rfl, by simp, hs⟩
    | ok q =>
      rw [hs] at h
      obtain ⟨k, p, t, hp, ht, hte⟩ := ih q h
      refine ⟨k + 1, p, t, ?_, ?_, hte⟩
      · simp only [List.take_succ_cons, runSteps, hs]
        exact hp
      · simpa using ht

/-- A run that falls through reaches every block. -/
theorem runSteps_take_ok {σ : Type} (l : List (Probe σ → Step σ)) (k : Nat) (p0 pf : Probe σ)
    (h : runSteps l p0 = .ok pf) : ∃ p, runSteps (l.take k) p0 = .ok p := by
  cases hp : runSteps (l.take k) p0 with
  | ok p => exact ⟨p, rfl⟩
  | error e =>
    exfalso
    have := runSteps_append (l.take k) (l.drop k) p0
    rw [List.take_append_drop, hp, h] at this
    cases this

/-- The record at the end of a run satisfies `P` when every block but block `k` keeps
`P` and block `k` keeps it from the state the run reaches it with. -/
theorem keeps_run_except {σ : Type} (P : BrokerInfo → Prop) (l : List (Probe σ → Step σ))
    (k : Nat) (hl : ∀ s ∈ l.eraseIdx k, Keeps P s) (p0 p : Probe σ)
    (hp : runSteps (l.take k) p0 = .ok p)
    (hk : ∀ s, l[k]? = some s → P p.b → P (Step.info (s p))) (h0 : P p0.b) :
    P (Step.info (runSteps l p0)) := by
  have hpre : ∀ s ∈ l.take k, Keeps P s := fun s hs =>
    hl s (by rw [List.eraseIdx_eq_take_drop_succ]; exact List.mem_append_left _ hs)
  have hsuf : ∀ s ∈ l.drop (k + 1), Keeps P s := fun s hs =>
    hl s (by rw [List.eraseIdx_eq_take_drop_succ]; exact List.mem_append_right _ hs)
  have hpb : P p.b := by
    have := keeps_runSteps P _ hpre p0 h0
    rw [hp] at this
    exact this
  rw [runSteps_take_add_drop l k p0 p hp]
  cases hs : l[k]? with
  | none =>
    have hlen : l.length ≤ k := by
      by_contra hlt
      rw [List.getElem?_eq_getElem (by omega)] at hs
      cases hs
    rw [List.drop_of_length_le hlen]
    exact hpb
  | some s =>
    rw [drop_eq_cons_of_getElem? l k s hs]
    have h1 := hk s hs hpb
    simp only [runSteps]
    cases hsp : s p with
    | ok q =>
      rw [hsp] at h1
      exact keeps_runSteps P _ hsuf q h1
    | error e =>
      rw [hsp] at h1
      exact h1

/-- A property of the local state that every block of a list preserves holds at the end of
a run of the list that falls through. -/
theorem inv_runSteps {σ : Type} (Q : Probe σ → Prop) (l : List (Probe σ → Step σ))
    (h : ∀ s ∈ l, ∀ p p', Q p → s p = .ok p' → Q p') (p p' : Probe σ) (hq : Q p)
    (hr : runSteps l p = .ok p') : Q p' := by
  induction l generalizing p with
  | nil =>
    cases hr
    exact hq
  | cons s l ih =>
    obtain ⟨q, hs, hrest⟩ := runSteps_cons_ok s l p p' hr
    exact ih (fun t ht => h t (List.mem_cons_of_mem _ ht)) q
      (h s (List.mem_cons_self _ _) p q hq hs) hrest

theorem runSteps_append_ok {σ : Type} (l1 l2 : List (Probe σ → Step σ)) (p p' : Probe σ)
    (h : runSteps (l1 ++ l2) p = .ok p') :
    ∃ q, runSteps l1 p = .ok q ∧ runSteps l2 q = .ok p' := by
  rw [runSteps_append] at h
  cases h1 : runSteps l1 p with
  | ok q =>
    rw [h1] at h
    exact ⟨q, rfl, h⟩
  | error e =>
    rw [h1] at h
    cases h

theorem connRead_make_w {σ : Type} (n : Net σ) (conn : Conn) (w : σ) :
    (connRead n conn (make 100) w).w = (n.read conn 100 w).2 := by
  simp [connRead, make]

theorem laterV4_puback_length {σ : Type} (n : Net σ) :
    ∀ s ∈ (stepsV4 n).drop 2, ∀ p p' : Probe σ,
      p.puback.length = 100 → s p = .ok p' → p'.puback.length = 100 := by
  have hl : (stepsV4 n).drop 2 =
      [reconnectIfDeadV4 n, qos2V4 n, reconnectIfDeadV4 n, qos3V4 n,
       reconnectIfDeadV4 n, subAllV4 n, forcedReconnectV4 n, subInvalidV4 n,
       reconnectIfDeadV4 n, subInvalidUTF8V4 n, reconnectIfDeadV4 n, pubSysV4 n,
       forcedReconnectV4 n, filterSysV4 n] := rfl
  rw [hl]
  simp only [List.forall_mem_cons, List.not_mem_nil, false_implies, implies_true, and_true]
  repeat' apply And.intro
  all_goals
    intro p p' hq h
    simp only [reconnectIfDeadV4, forcedReconnectV4, qos2V4, qos3V4, subAllV4, subInvalidV4,
      subInvalidUTF8V4, pubSysV4, filterSysV4] at h
    repeat' split at h
    all_goals cases h
    all_goals first
      | exact hq
      | (simp only [connRead_buf_length]; exact hq)

theorem pubackV4_length {σ : Type} (n : Net σ) (k : Nat) (hk : 2 ≤ k) (p0 p : Probe σ)
    (h : runSteps ((stepsV4 n).take k) p0 = .ok p) : p.puback.length = 100 := by
  obtain ⟨j, rfl⟩ := Nat.exists_eq_add_of_le hk
  rw [List.take_add] at h
  obtain ⟨q, h2, hrest⟩ := runSteps_append_ok _ _ _ _ h
  obtain ⟨p1, -, h2⟩ := runSteps_cons_ok _ _ _ _ h2
  obtain ⟨p2, hq1, h2⟩ := runSteps_cons_ok _ _ _ _ h2
  cases h2
  exact inv_runSteps (fun p => p.puback.length = 100) _
    (fun s hs => laterV4_puback_length n s (List.mem_of_mem_take hs)) _ _
    (qos1V4_puback_length n _ _ hq1) hrest

theorem laterV4_suback_length {σ : Type} (n : Net σ) :
    ∀ s ∈ (stepsV4 n).drop 12, ∀ p p' : Probe σ,
      p.suback.length = 100 → s p = .ok p' → p'.suback.length = 100 := by
  have hl : (stepsV4 n).drop 12 =
      [reconnectIfDeadV4 n, pubSysV4 n, forcedReconnectV4 n, filterSysV4 n] := rfl
  rw [hl]
  simp only [List.forall_mem_cons, List.not_mem_nil, false_implies, implies_true, and_true]
  repeat' apply And.intro
  all_goals
    intro p p' hq h
    simp only [reconnectIfDeadV4, forcedReconnectV4, pubSysV4, filterSysV4] at h
    repeat' split at h
    all_goals cases h
    all_goals first
      | exact hq
      | (simp only [connRead_buf_length]; exact hq)

theorem subackV4_length {σ : Type} (n : Net σ) (k : Nat) (hk : 12 ≤ k) (p0 p : Probe σ)
    (h : runSteps ((stepsV4 n).take k) p0 = .ok p) : p.suback.length = 100 := by
  obtain ⟨j, rfl⟩ := Nat.exists_eq_add_of_le hk
  rw [List.take_add] at h
  obtain ⟨q, h12, hrest⟩ := runSteps_append_ok _ _ _ _ h
  have h11 : (stepsV4 n).take 12 = (stepsV4 n).take 11 ++ [subInvalidUTF8V4 n] := rfl
  rw [h11] at h12
  obtain ⟨q11, -, hlast⟩ := runSteps_append_ok _ _ _ _ h12
  obtain ⟨q12, hs, hlast⟩ := runSteps_cons_ok _ _ _ _ hlast
  cases hlast
  have hq : q.suback.length = 100 := by
    unfold subInvalidUTF8V4 at hs
    cases hs
    exact connRead_make_length _ _ _
  exact inv_runSteps (fun p => p.suback.length = 100) _
    (fun s hs => laterV4_suback_length n s (List.mem_of_mem_take hs)) _ _ hq hrest

theorem laterV5_puback_length {σ : Type} (n : Net σ) :
    ∀ s ∈ (stepsV5 n).drop 2, ∀ p p' : Probe σ,
      p.puback.length = 100 → s p = .ok p' → p'.puback.length = 100 := by
  have hl : (stepsV5 n).drop 2 =
      [reconnectIfDeadV5 n, qos2V5 n, reconnectIfDeadV5 n, qos3V5 n,
       reconnectIfDeadV5 n, subAllV5 n, forcedReconnectV5 n, subInvalidV5 n,
       reconnectIfDeadV5 n, subInvalidUTF8V5 n, reconnectIfDeadV5 n, pubSysV5 n,
       forcedReconnectV5 n, filterSysV5 n] := rfl
  rw [hl]
  simp only [List.forall_mem_cons, List.not_mem_nil, false_implies, implies_true, and_true]
  repeat' apply And.intro
  all_goals
    intro p p' hq h
    simp only [reconnectIfDeadV5, forcedReconnectV5, qos2V5, qos3V5, subAllV5, subInvalidV5,
      subInvalidUTF8V5, pubSysV5, filterSysV5] at h
    repeat' split at h
    all_goals cases h
    all_goals first
      | exact hq
      | (simp only [connRead_buf_length]; exact hq)

theorem pubackV5_length {σ : Type} (n : Net σ) (k : Nat) (hk : 2 ≤ k) (p0 p : Probe σ)
    (h : runSteps ((stepsV5 n).take k) p0 = .ok p) : p.puback.length = 100 := by
  obtain ⟨j, rfl⟩ := Nat.exists_eq_add_of_le hk
  rw [List.take_add] at h
  obtain ⟨q, h2, hrest⟩ := runSteps_append_ok _ _ _ _ h
  obtain ⟨p1, -, h2⟩ := runSteps_cons_ok _ _ _ _ h2
  obtain ⟨p2, hq1, h2⟩ := runSteps_cons_ok _ _ _ _ h2
  cases h2
  exact inv_runSteps (fun p => p.puback.length = 100) _
    (fun s hs => laterV5_puback_length n s (List.mem_of_mem_take hs)) _ _
    (qos1V5_puback_length n _ _ hq1) hrest

theorem laterV5_suback_length {σ : Type} (n : Net σ) :
    ∀ s ∈ (stepsV5 n).drop 12, ∀ p p' : Probe σ,
      p.suback.length = 100 → s p = .ok p' → p'.suback.length = 100 := by
  have hl : (stepsV5 n).drop 12 =
      [reconnectIfDeadV5 n, pubSysV5 n, forcedReconnectV5 n, filterSysV5 n] := rfl
  rw [hl]
  simp only [List.forall_mem_cons, List.not_mem_nil, false_implies, implies_true, and_true]
  repeat' apply And.intro
  all_goals
    intro p p' hq h
    simp only [reconnectIfDeadV5, forcedReconnectV5, pubSysV5, filterSysV5] at h
    repeat' split at h
    all_goals cases h
    all_goals first
      | exact hq
      | (simp only [connRead_buf_length]; exact hq)

theorem subackV5_length {σ : Type} (n : Net σ) (k : Nat) (hk : 12 ≤ k) (p0 p : Probe σ)
    (h : runSteps ((stepsV5 n).take k) p0 = .ok p) : p.suback.length = 100 := by
  obtain ⟨j, rfl⟩ := Nat.exists_eq_add_of_le hk
  rw [List.take_add] at h
  obtain ⟨q, h12, hrest⟩ := runSteps_append_ok _ _ _ _ h
  have h11 : (stepsV5 n).take 12 = (stepsV5 n).take 11 ++ [subInvalidUTF8V5 n] := rfl
  rw [h11] at h12
  obtain ⟨q11, -, hlast⟩ := runSteps_append_ok _ _ _ _ h12
  obtain ⟨q12, hs, hlast⟩ := runSteps_cons_ok _ _ _ _ hlast
  cases hlast
  have hq : q.suback.length = 100 := by
    unfold subInvalidUTF8V5 at hs
    cases hs
    exact connRead_make_length _ _ _
  exact inv_runSteps (fun p => p.suback.length = 100) _
    (fun s hs => laterV5_suback_length n s (List.mem_of_mem_take hs)) _ _ hq hrest

theorem analyzeV4_qos1_of_failure {σ : Type} (n : Net σ) (b : BrokerInfo) (w : σ)
    (conn : Conn) (w0 : σ) (p : Probe σ)
    (hc : b.connectV4 n w = (.ok conn, w0))
    (hp : runSteps ((stepsV4 n).take 1)
      { b := b, conn := conn, puback := [], suback := [], w := w0 } = .ok p)
    (h : (n.read p.conn 100 (n.write p.conn publishV4Q1 p.w)).1.err = true) :
    (b.AnalyzeV4 n w).2.1.V4QoS1 = b.V4QoS1 := by
  have hl : (stepsV4 n).eraseIdx 1 =
      [firstPing n, reconnectIfDeadV4 n, qos2V4 n, reconnectIfDeadV4 n, qos3V4 n,
       reconnectIfDeadV4 n, subAllV4 n, forcedReconnectV4 n, subInvalidV4 n,
       reconnectIfDeadV4 n, subInvalidUTF8V4 n, reconnectIfDeadV4 n, pubSysV4 n,
       forcedReconnectV4 n, filterSysV4 n] := rfl
  have hothers : ∀ s ∈ (stepsV4 n).eraseIdx 1,
      Keeps (fun b' => b'.V4QoS1 = b.V4QoS1) s := by
    rw [hl]
    simp only [List.forall_mem_cons, List.not_mem_nil, false_implies, implies_true, and_true]
    repeat' apply And.intro
    all_goals first
      | exact firstPing_keeps n _
      | exact reconnectIfDeadV4_keeps n _
      | exact forcedReconnectV4_keeps n _
      | exact qos2V4_keeps n
          (fun b' => b'.V4QoS1 = b.V4QoS1) (fun _ h => h)
      | exact qos3V4_keeps n
          (fun b' => b'.V4QoS1 = b.V4QoS1) (fun _ h => h)
      | exact subAllV4_keeps n
          (fun b' => b'.V4QoS1 = b.V4QoS1) (fun _ h => h)
      | exact subInvalidV4_keeps n
          (fun b' => b'.V4QoS1 = b.V4QoS1) (fun _ h => h)
      | exact subInvalidUTF8V4_keeps n
          (fun b' => b'.V4QoS1 = b.V4QoS1) (fun _ h => h)
      | exact pubSysV4_keeps n
          (fun b' => b'.V4QoS1 = b.V4QoS1) (fun _ h => h)
      | exact filterSysV4_keeps n
          (fun b' => b'.V4QoS1 = b.V4QoS1) (fun _ h => h)
  simp only [BrokerInfo.AnalyzeV4, hc, finish_info]
  refine keeps_run_except (fun b' => b'.V4QoS1 = b.V4QoS1) (stepsV4 n) 1
    hothers _ p hp ?_ rfl
  intro s hs hpb
  have hs' : qos1V4 n = s := Option.some.inj hs
  subst hs'
  unfold qos1V4
  dsimp only
  rw [connRead_make_err, h]
  exact hpb

theorem analyzeV4_qos2_of_failure {σ : Type} (n : Net σ) (b : BrokerInfo) (w : σ)
    (conn : Conn) (w0 : σ) (p : Probe σ)
    (hc : b.connectV4 n w = (.ok conn, w0))
    (hp : runSteps ((stepsV4 n).take 3)
      { b := b, conn := conn, puback := [], suback := [], w := w0 } = .ok p)
    (h : (n.read p.conn 100 (n.write p.conn publishV4Q2 p.w)).1.err = true ∨
      (n.read p.conn 100 (n.write p.conn pubrelV4Q2
        (n.read p.conn 100 (n.write p.conn publishV4Q2 p.w)).2)).1.err = true) :
    (b.AnalyzeV4 n w).2.1.V4QoS2 = b.V4QoS2 := by
  have hl : (stepsV4 n).eraseIdx 3 =
      [firstPing n, qos1V4 n, reconnectIfDeadV4 n, reconnectIfDeadV4 n, qos3V4 n,
       reconnectIfDeadV4 n, subAllV4 n, forcedReconnectV4 n, subInvalidV4 n,
       reconnectIfDeadV4 n, subInvalidUTF8V4 n, reconnectIfDeadV4 n, pubSysV4 n,
       forcedReconnectV4 n, filterSysV4 n] := rfl
  have hothers : ∀ s ∈ (stepsV4 n).eraseIdx 3,
      Keeps (fun b' => b'.V4QoS2 = b.V4QoS2) s := by
    rw [hl]
    simp only [List.forall_mem_cons, List.not_mem_nil, false_implies, implies_true, and_true]
    repeat' apply And.intro
    all_goals first
      | exact firstPing_keeps n _
      | exact reconnectIfDeadV4_keeps n _
      | exact forcedReconnectV4_keeps n _
      | exact qos1V4_keeps n
          (fun b' => b'.V4QoS2 = b.V4QoS2) (fun _ h => h)
      | exact qos3V4_keeps n
          (fun b' => b'.V4QoS2 = b.V4QoS2) (fun _ h => h)
      | exact subAllV4_keeps n
          (fun b' => b'.V4QoS2 = b.V4QoS2) (fun _ h => h)
      | exact subInvalidV4_keeps n
          (fun b' => b'.V4QoS2 = b.V4QoS2) (fun _ h => h)
      | exact subInvalidUTF8V4_keeps n
          (fun b' => b'.V4QoS2 = b.V4QoS2) (fun _ h => h)
      | exact pubSysV4_keeps n
          (fun b' => b'.V4QoS2 = b.V4QoS2) (fun _ h => h)
      | exact filterSysV4_keeps n
          (fun b' => b'.V4QoS2 = b.V4QoS2) (fun _ h => h)
  simp only [BrokerInfo.AnalyzeV4, hc, finish_info]
  refine keeps_run_except (fun b' => b'.V4QoS2 = b.V4QoS2) (stepsV4 n) 3
    hothers _ p hp ?_ rfl
  intro s hs hpb
  have hs' : qos2V4 n = s := Option.some.inj hs
  subst hs'
  unfold qos2V4
  dsimp only
  rcases h with h | h
  · rw [connRead_make_err, h]
    exact hpb
  · split
    · rw [connRead_make_err, connRead_make_w, h]
      exact hpb
    · exact hpb

theorem analyzeV4_qos3_of_failure {σ : Type} (n : Net σ) (b : BrokerInfo) (w : σ)
    (conn : Conn) (w0 : σ) (p : Probe σ)
    (hc : b.connectV4 n w = (.ok conn, w0))
    (hp : runSteps ((stepsV4 n).take 5)
      { b := b, conn := conn, puback := [], suback := [], w := w0 } = .ok p)
    (h : (n.read p.conn 100 (n.write p.conn publishV4Q3 p.w)).1.err = true) :
    (b.AnalyzeV4 n w).2.1.V4QoS3Response = b.V4QoS3Response := by
  have hl : (stepsV4 n).eraseIdx 5 =
      [firstPing n, qos1V4 n, reconnectIfDeadV4 n, qos2V4 n, reconnectIfDeadV4 n,
       reconnectIfDeadV4 n, subAllV4 n, forcedReconnectV4 n, subInvalidV4 n,
       reconnectIfDeadV4 n, subInvalidUTF8V4 n, reconnectIfDeadV4 n, pubSysV4 n,
       forcedReconnectV4 n, filterSysV4 n] := rfl
  have hothers : ∀ s ∈ (stepsV4 n).eraseIdx 5,
      Keeps (fun b' => b'.V4QoS3Response = b.V4QoS3Response) s := by
    rw [hl]
    simp only [List.forall_mem_cons, List.not_mem_nil, false_implies, implies_true, and_true]
    repeat' apply And.intro
    all_goals first
      | exact firstPing_keeps n _
      | exact reconnectIfDeadV4_keeps n _
      | exact forcedReconnectV4_keeps n _
      | exact qos1V4_keeps n
          (fun b' => b'.V4QoS3Response = b.V4QoS3Response) (fun _ h => h)
      | exact qos2V4_keeps n
          (fun b' => b'.V4QoS3Response = b.V4QoS3Response) (fun _ h => h)
      | exact subAllV4_keeps n
          (fun b' => b'.V4QoS3Response = b.V4QoS3Response) (fun _ h => h)
      | exact subInvalidV4_keeps n
          (fun b' => b'.V4QoS3Response = b.V4QoS3Response) (fun _ h => h)
      | exact subInvalidUTF8V4_keeps n
          (fun b' => b'.V4QoS3Response = b.V4QoS3Response) (fun _ h => h)
      | exact pubSysV4_keeps n
          (fun b' => b'.V4QoS3Response = b.V4QoS3Response) (fun _ h => h)
      | exact filterSysV4_keeps n
          (fun b' => b'.V4QoS3Response = b.V4QoS3Response) (fun _ h => h)
  have hlen := pubackV4_length n 5 (by decide) _ _ hp
  simp only [BrokerInfo.AnalyzeV4, hc, finish_info]
  refine keeps_run_except (fun b' => b'.V4QoS3Response = b.V4QoS3Response) (stepsV4 n) 5
    hothers _ p hp ?_ rfl
  intro s hs hpb
  have hs' : qos3V4 n = s := Option.some.inj hs
  subst hs'
  unfold qos3V4
  dsimp only
  rw [connRead_err, hlen, h]
  exact hpb

theorem analyzeV4_subAll_of_failure {σ : Type} (n : Net σ) (b : BrokerInfo) (w : σ)
    (conn : Conn) (w0 : σ) (p : Probe σ)
    (hc : b.connectV4 n w = (.ok conn, w0))
    (hp : runSteps ((stepsV4 n).take 7)
      { b := b, conn := conn, puback := [], suback := [], w := w0 } = .ok p)
    (h : (n.read p.conn 100 (n.write p.conn subAllV4Q0 p.w)).1.err = true) :
    (b.AnalyzeV4 n w).2.1.V4SubscribeAll = b.V4SubscribeAll := by
  have hl : (stepsV4 n).eraseIdx 7 =
      [firstPing n, qos1V4 n, reconnectIfDeadV4 n, qos2V4 n, reconnectIfDeadV4 n, qos3V4 n,
       reconnectIfDeadV4 n, forcedReconnectV4 n, subInvalidV4 n, reconnectIfDeadV4 n,
       subInvalidUTF8V4 n, reconnectIfDeadV4 n, pubSysV4 n, forcedReconnectV4 n, filterSysV4 n] := rfl
  have hothers : ∀ s ∈ (stepsV4 n).eraseIdx 7,
      Keeps (fun b' => b'.V4SubscribeAll = b.V4SubscribeAll) s := by
    rw [hl]
    simp only [List.forall_mem_cons, List.not_mem_nil, false_implies, implies_true, and_true]
    repeat' apply And.intro
    all_goals first
      | exact firstPing_keeps n _
      | exact reconnectIfDeadV4_keeps n _
      | exact forcedReconnectV4_keeps n _
      | exact qos1V4_keeps n
          (fun b' => b'.V4SubscribeAll = b.V4SubscribeAll) (fun _ h => h)
      | exact qos2V4_keeps n
          (fun b' => b'.V4SubscribeAll = b.V4SubscribeAll) (fun _ h => h)
      | exact qos3V4_keeps n
          (fun b' => b'.V4SubscribeAll = b.V4SubscribeAll) (fun _ h => h)
      | exact subInvalidV4_keeps n
          (fun b' => b'.V4SubscribeAll = b.V4SubscribeAll) (fun _ h => h)
      | exact subInvalidUTF8V4_keeps n
          (fun b' => b'.V4SubscribeAll = b.V4SubscribeAll) (fun _ h => h)
      | exact pubSysV4_keeps n
          (fun b' => b'.V4SubscribeAll = b.V4SubscribeAll) (fun _ h => h)
      | exact filterSysV4_keeps n
          (fun b' => b'.V4SubscribeAll = b.V4SubscribeAll) (fun _ h => h)
  simp only [BrokerInfo.AnalyzeV4, hc, finish_info]
  refine keeps_run_except (fun b' => b'.V4SubscribeAll = b.V4SubscribeAll) (stepsV4 n) 7
    hothers _ p hp ?_ rfl
  intro s hs hpb
  have hs' : subAllV4 n = s := Option.some.inj hs
  subst hs'
  unfold subAllV4
  dsimp only
  rw [connRead_make_err, h]
  exact hpb

theorem analyzeV4_subInvalid_of_failure {σ : Type} (n : Net σ) (b : BrokerInfo) (w : σ)
    (conn : Conn) (w0 : σ) (p : Probe σ)
    (hc : b.connectV4 n w = (.ok conn, w0))
    (hp : runSteps ((stepsV4 n).take 9)
      { b := b, conn := conn, puback := [], suback := [], w := w0 } = .ok p)
    (h : (n.read p.conn 100 (n.write p.conn subInvalidV4Q0 p.w)).1.err = true) :
    (b.AnalyzeV4 n w).2.1.V4InvalidTopics = b.V4InvalidTopics := by
  have hl : (stepsV4 n).eraseIdx 9 =
      [firstPing n, qos1V4 n, reconnectIfDeadV4 n, qos2V4 n, reconnectIfDeadV4 n, qos3V4 n,
       reconnectIfDeadV4 n, subAllV4 n, forcedReconnectV4 n, reconnectIfDeadV4 n,
       subInvalidUTF8V4 n, reconnectIfDeadV4 n, pubSysV4 n, forcedReconnectV4 n, filterSysV4 n] := rfl
  have hothers : ∀ s ∈ (stepsV4 n).eraseIdx 9,
      Keeps (fun b' => b'.V4InvalidTopics = b.V4InvalidTopics) s := by
    rw [hl]
    simp only [List.forall_mem_cons, List.not_mem_nil, false_implies, implies_true, and_true]
    repeat' apply And.intro
    all_goals first
      | exact firstPing_keeps n _
      | exact reconnectIfDeadV4_keeps n _
      | exact forcedReconnectV4_keeps n _
      | exact qos1V4_keeps n
          (fun b' => b'.V4InvalidTopics = b.V4InvalidTopics) (fun _ h => h)
      | exact qos2V4_keeps n
          (fun b' => b'.V4InvalidTopics = b.V4InvalidTopics) (fun _ h => h)
      | exact qos3V4_keeps n
          (fun b' => b'.V4InvalidTopics = b.V4InvalidTopics) (fun _ h => h)
      | exact subAllV4_keeps n
          (fun b' => b'.V4InvalidTopics = b.V4InvalidTopics) (fun _ h => h)
      | exact subInvalidUTF8V4_keeps n
          (fun b' => b'.V4InvalidTopics = b.V4InvalidTopics) (fun _ h => h)
      | exact pubSysV4_keeps n
          (fun b' => b'.V4InvalidTopics = b.V4InvalidTopics) (fun _ h => h)
      | exact filterSysV4_keeps n
          (fun b' => b'.V4InvalidTopics = b.V4InvalidTopics) (fun _ h => h)
  simp only [BrokerInfo.AnalyzeV4, hc, finish_info]
  refine keeps_run_except (fun b' => b'.V4InvalidTopics = b.V4InvalidTopics) (stepsV4 n) 9
    hothers _ p hp ?_ rfl
  intro s hs hpb
  have hs' : subInvalidV4 n = s := Option.some.inj hs
  subst hs'
  unfold subInvalidV4
  dsimp only
  rw [connRead_make_err, h]
  exact hpb

theorem analyzeV4_subInvalidUTF8_of_failure {σ : Type} (n : Net σ) (b : BrokerInfo) (w : σ)
    (conn : Conn) (w0 : σ) (p : Probe σ)
    (hc : b.connectV4 n w = (.ok conn, w0))
    (hp : runSteps ((stepsV4 n).take 11)
      { b := b, conn := conn, puback := [], suback := [], w := w0 } = .ok p)
    (h : (n.read p.conn 100 (n.write p.conn subInvalidUTF8V4Q0 p.w)).1.err = true) :
    (b.AnalyzeV4 n w).2.1.V4InvalidUTF8Topic = b.V4InvalidUTF8Topic := by
  have hl : (stepsV4 n).eraseIdx 11 =
      [firstPing n, qos1V4 n, reconnectIfDeadV4 n, qos2V4 n, reconnectIfDeadV4 n, qos3V4 n,
       reconnectIfDeadV4 n, subAllV4 n, forcedReconnectV4 n, subInvalidV4 n,
       reconnectIfDeadV4 n, reconnectIfDeadV4 n, pubSysV4 n, forcedReconnectV4 n, filterSysV4 n] := rfl
  have hothers : ∀ s ∈ (stepsV4 n).eraseIdx 11,
      Keeps (fun b' => b'.V4InvalidUTF8Topic = b.V4InvalidUTF8Topic) s := by
    rw [hl]
    simp only [List.forall_mem_cons, List.not_mem_nil, false_implies, implies_true, and_true]
    repeat' apply And.intro
    all_goals first
      | exact firstPing_keeps n _
      | exact reconnectIfDeadV4_keeps n _
      | exact forcedReconnectV4_keeps n _
      | exact qos1V4_keeps n
          (fun b' => b'.V4InvalidUTF8Topic = b.V4InvalidUTF8Topic) (fun _ h => h)
      | exact qos2V4_keeps n
          (fun b' => b'.V4InvalidUTF8Topic = b.V4InvalidUTF8Topic) (fun _ h => h)
      | exact qos3V4_keeps n
          (fun b' => b'.V4InvalidUTF8Topic = b.V4InvalidUTF8Topic) (fun _ h => h)
      | exact subAllV4_keeps n
          (fun b' => b'.V4InvalidUTF8Topic = b.V4InvalidUTF8Topic) (fun _ h => h)
      | exact subInvalidV4_keeps n
          (fun b' => b'.V4InvalidUTF8Topic = b.V4InvalidUTF8Topic) (fun _ h => h)
      | exact pubSysV4_keeps n
          (fun b' => b'.V4InvalidUTF8Topic = b.V4InvalidUTF8Topic) (fun _ h => h)
      | exact filterSysV4_keeps n
          (fun b' => b'.V4InvalidUTF8Topic = b.V4InvalidUTF8Topic) (fun _ h => h)
  simp only [BrokerInfo.AnalyzeV4, hc, finish_info]
  refine keeps_run_except (fun b' => b'.V4InvalidUTF8Topic = b.V4InvalidUTF8Topic) (stepsV4 n) 11
    hothers _ p hp ?_ rfl
  intro s hs hpb
  have hs' : subInvalidUTF8V4 n = s := Option.some.inj hs
  subst hs'
  unfold subInvalidUTF8V4
  dsimp only
  rw [connRead_make_err, h]
  exact hpb

theorem analyzeV4_pubSys_of_failure {σ : Type} (n : Net σ) (b : BrokerInfo) (w : σ)
    (conn : Conn) (w0 : σ) (p : Probe σ)
    (hc : b.connectV4 n w = (.ok conn, w0))
    (hp : runSteps ((stepsV4 n).take 13)
      { b := b, conn := conn, puback := [], suback := [], w := w0 } = .ok p)
    (h : (n.read p.conn 100 (n.write p.conn pubSysV4Q1 p.w)).1.err = true) :
    (b.AnalyzeV4 n w).2.1.V4PublishSYS = b.V4PublishSYS := by
  have hl : (stepsV4 n).eraseIdx 13 =
      [firstPing n, qos1V4 n, reconnectIfDeadV4 n, qos2V4 n, reconnectIfDeadV4 n, qos3V4 n,
       reconnectIfDeadV4 n, subAllV4 n, forcedReconnectV4 n, subInvalidV4 n,
       reconnectIfDeadV4 n, subInvalidUTF8V4 n, reconnectIfDeadV4 n, forcedReconnectV4 n,
       filterSysV4 n] := rfl
  have hothers : ∀ s ∈ (stepsV4 n).eraseIdx 13,
      Keeps (fun b' => b'.V4PublishSYS = b.V4PublishSYS) s := by
    rw [hl]
    simp only [List.forall_mem_cons, List.not_mem_nil, false_implies, implies_true, and_true]
    repeat' apply And.intro
    all_goals first
      | exact firstPing_keeps n _
      | exact reconnectIfDeadV4_keeps n _
      | exact forcedReconnectV4_keeps n _
      | exact qos1V4_keeps n
          (fun b' => b'.V4PublishSYS = b.V4PublishSYS) (fun _ h => h)
      | exact qos2V4_keeps n
          (fun b' => b'.V4PublishSYS = b.V4PublishSYS) (fun _ h => h)
      | exact qos3V4_keeps n
          (fun b' => b'.V4PublishSYS = b.V4PublishSYS) (fun _ h => h)
      | exact subAllV4_keeps n
          (fun b' => b'.V4PublishSYS = b.V4PublishSYS) (fun _ h => h)
      | exact subInvalidV4_keeps n
          (fun b' => b'.V4PublishSYS = b.V4PublishSYS) (fun _ h => h)
      | exact subInvalidUTF8V4_keeps n
          (fun b' => b'.V4PublishSYS = b.V4PublishSYS) (fun _ h => h)
      | exact filterSysV4_keeps n
          (fun b' => b'.V4PublishSYS = b.V4PublishSYS) (fun _ h => h)
  have hlen := pubackV4_length n 13 (by decide) _ _ hp
  simp only [BrokerInfo.AnalyzeV4, hc, finish_info]
  refine keeps_run_except (fun b' => b'.V4PublishSYS = b.V4PublishSYS) (stepsV4 n) 13
    hothers _ p hp ?_ rfl
  intro s hs hpb
  have hs' : pubSysV4 n = s := Option.some.inj hs
  subst hs'
  unfold pubSysV4
  dsimp only
  rw [connRead_err, hlen, h]
  exact hpb

theorem analyzeV4_filterSys_of_failure {σ : Type} (n : Net σ) (b : BrokerInfo) (w : σ)
    (conn : Conn) (w0 : σ) (p : Probe σ)
    (hc : b.connectV4 n w = (.ok conn, w0))
    (hp : runSteps ((stepsV4 n).take 15)
      { b := b, conn := conn, puback := [], suback := [], w := w0 } = .ok p)
    (h : (n.read p.conn 100 (n.sleep (n.write p.conn subSysAV4Q0 p.w))).1.err = true) :
    (b.AnalyzeV4 n w).2.1.V4FilterSYS = b.V4FilterSYS := by
  have hl : (stepsV4 n).eraseIdx 15 =
      [firstPing n, qos1V4 n, reconnectIfDeadV4 n, qos2V4 n, reconnectIfDeadV4 n, qos3V4 n,
       reconnectIfDeadV4 n, subAllV4 n, forcedReconnectV4 n, subInvalidV4 n,
       reconnectIfDeadV4 n, subInvalidUTF8V4 n, reconnectIfDeadV4 n, pubSysV4 n,
       forcedReconnectV4 n] := rfl
  have hothers : ∀ s ∈ (stepsV4 n).eraseIdx 15,
      Keeps (fun b' => b'.V4FilterSYS = b.V4FilterSYS) s := by
    rw [hl]
    simp only [List.forall_mem_cons, List.not_mem_nil, false_implies, implies_true, and_true]
    repeat' apply And.intro
    all_goals first
      | exact firstPing_keeps n _
      | exact reconnectIfDeadV4_keeps n _
      | exact forcedReconnectV4_keeps n _
      | exact qos1V4_keeps n
          (fun b' => b'.V4FilterSYS = b.V4FilterSYS) (fun _ h => h)
      | exact qos2V4_keeps n
          (fun b' => b'.V4FilterSYS = b.V4FilterSYS) (fun _ h => h)
      | exact qos3V4_keeps n
          (fun b' => b'.V4FilterSYS = b.V4FilterSYS) (fun _ h => h)
      | exact subAllV4_keeps n
          (fun b' => b'.V4FilterSYS = b.V4FilterSYS) (fun _ h => h)
      | exact subInvalidV4_keeps n
          (fun b' => b'.V4FilterSYS = b.V4FilterSYS) (fun _ h => h)
      | exact subInvalidUTF8V4_keeps n
          (fun b' => b'.V4FilterSYS = b.V4FilterSYS) (fun _ h => h)
      | exact pubSysV4_keeps n
          (fun b' => b'.V4FilterSYS = b.V4FilterSYS) (fun _ h => h)
  have hlen := subackV4_length n 15 (by decide) _ _ hp
  simp only [BrokerInfo.AnalyzeV4, hc, finish_info]
  refine keeps_run_except (fun b' => b'.V4FilterSYS = b.V4FilterSYS) (stepsV4 n) 15
    hothers _ p hp ?_ rfl
  intro s hs hpb
  have hs' : filterSysV4 n = s := Option.some.inj hs
  subst hs'
  unfold filterSysV4
  dsimp only
  split
  · rw [connRead_err, hlen, h]
    exact hpb
  · exact hpb

theorem analyzeV5_qos1_of_failure {σ : Type} (n : Net σ) (b : BrokerInfo) (w : σ)
    (conn : Conn) (w0 : σ) (p : Probe σ)
    (hc : b.connectV5 n w = (.ok conn, w0))
    (hp : runSteps ((stepsV5 n).take 1)
      { b := b, conn := conn, puback := [], suback := [], w := w0 } = .ok p)
    (h : (n.read p.conn 100 (n.write p.conn publishV5Q1 p.w)).1.err = true) :
    (b.AnalyzeV5 n w).2.1.V5QoS1 = b.V5QoS1 := by
  have hl : (stepsV5 n).eraseIdx 1 =
      [firstPing n, reconnectIfDeadV5 n, qos2V5 n, reconnectIfDeadV5 n, qos3V5 n,
       reconnectIfDeadV5 n, subAllV5 n, forcedReconnectV5 n, subInvalidV5 n,
       reconnectIfDeadV5 n, subInvalidUTF8V5 n, reconnectIfDeadV5 n, pubSysV5 n,
       forcedReconnectV5 n, filterSysV5 n] := rfl
  have hothers : ∀ s ∈ (stepsV5 n).eraseIdx 1,
      Keeps (fun b' => b'.V5QoS1 = b.V5QoS1) s := by
    rw [hl]
    simp only [List.forall_mem_cons, List.not_mem_nil, false_implies, implies_true, and_true]
    repeat' apply And.intro
    all_goals first
      | exact firstPing_keeps n _
      | exact reconnectIfDeadV5_keeps n _
      | exact forcedReconnectV5_keeps n _
      | exact qos2V5_keeps n
          (fun b' => b'.V5QoS1 = b.V5QoS1) (fun _ h => h)
      | exact qos3V5_keeps n
          (fun b' => b'.V5QoS1 = b.V5QoS1) (fun _ h => h)
      | exact subAllV5_keeps n
          (fun b' => b'.V5QoS1 = b.V5QoS1) (fun _ h => h)
      | exact subInvalidV5_keeps n
          (fun b' => b'.V5QoS1 = b.V5QoS1) (fun _ h => h)
      | exact subInvalidUTF8V5_keeps n
          (fun b' => b'.V5QoS1 = b.V5QoS1) (fun _ h => h)
      | exact pubSysV5_keeps n
          (fun b' => b'.V5QoS1 = b.V5QoS1) (fun _ h => h)
      | exact filterSysV5_keeps n
          (fun b' => b'.V5QoS1 = b.V5QoS1) (fun _ h => h)
  simp only [BrokerInfo.AnalyzeV5, hc, finish_info]
  refine keeps_run_except (fun b' => b'.V5QoS1 = b.V5QoS1) (stepsV5 n) 1
    hothers _ p hp ?_ rfl
  intro s hs hpb
  have hs' : qos1V5 n = s := Option.some.inj hs
  subst hs'
  unfold qos1V5
  dsimp only
  rw [connRead_make_err, h]
  exact hpb

theorem analyzeV5_qos2_of_failure {σ : Type} (n : Net σ) (b : BrokerInfo) (w : σ)
    (conn : Conn) (w0 : σ) (p : Probe σ)
    (hc : b.connectV5 n w = (.ok conn, w0))
    (hp : runSteps ((stepsV5 n).take 3)
      { b := b, conn := conn, puback := [], suback := [], w := w0 } = .ok p)
    (h : (n.read p.conn 100 (n.write p.conn publishV5Q2 p.w)).1.err = true ∨
      (n.read p.conn 100 (n.write p.conn pubrelV5Q2
        (n.read p.conn 100 (n.write p.conn publishV5Q2 p.w)).2)).1.err = true) :
    (b.AnalyzeV5 n w).2.1.V5QoS2 = b.V5QoS2 := by
  have hl : (stepsV5 n).eraseIdx 3 =
      [firstPing n, qos1V5 n, reconnectIfDeadV5 n, reconnectIfDeadV5 n, qos3V5 n,
       reconnectIfDeadV5 n, subAllV5 n, forcedReconnectV5 n, subInvalidV5 n,
       reconnectIfDeadV5 n, subInvalidUTF8V5 n, reconnectIfDeadV5 n, pubSysV5 n,
       forcedReconnectV5 n, filterSysV5 n] := rfl
  have hothers : ∀ s ∈ (stepsV5 n).eraseIdx 3,
      Keeps (fun b' => b'.V5QoS2 = b.V5QoS2) s := by
    rw [hl]
    simp only [List.forall_mem_cons, List.not_mem_nil, false_implies, implies_true, and_true]
    repeat' apply And.intro
    all_goals first
      | exact firstPing_keeps n _
      | exact reconnectIfDeadV5_keeps n _
      | exact forcedReconnectV5_keeps n _
      | exact qos1V5_keeps n
          (fun b' => b'.V5QoS2 = b.V5QoS2) (fun _ h => h)
      | exact qos3V5_keeps n
          (fun b' => b'.V5QoS2 = b.V5QoS2) (fun _ h => h)
      | exact subAllV5_keeps n
          (fun b' => b'.V5QoS2 = b.V5QoS2) (fun _ h => h)
      | exact subInvalidV5_keeps n
          (fun b' => b'.V5QoS2 = b.V5QoS2) (fun _ h => h)
      | exact subInvalidUTF8V5_keeps n
          (fun b' => b'.V5QoS2 = b.V5QoS2) (fun _ h => h)
      | exact pubSysV5_keeps n
          (fun b' => b'.V5QoS2 = b.V5QoS2) (fun _ h => h)
      | exact filterSysV5_keeps n
          (fun b' => b'.V5QoS2 = b.V5QoS2) (fun _ h => h)
  simp only [BrokerInfo.AnalyzeV5, hc, finish_info]
  refine keeps_run_except (fun b' => b'.V5QoS2 = b.V5QoS2) (stepsV5 n) 3
    hothers _ p hp ?_ rfl
  intro s hs hpb
  have hs' : qos2V5 n = s := Option.some.inj hs
  subst hs'
  unfold qos2V5
  dsimp only
  rcases h with h | h
  · rw [connRead_make_err, h]
    exact hpb
  · split
    · rw [connRead_make_err, connRead_make_w, h]
      exact hpb
    · exact hpb

theorem analyzeV5_qos3_of_failure {σ : Type} (n : Net σ) (b : BrokerInfo) (w : σ)
    (conn : Conn) (w0 : σ) (p : Probe σ)
    (hc : b.connectV5 n w = (.ok conn, w0))
    (hp : runSteps ((stepsV5 n).take 5)
      { b := b, conn := conn, puback := [], suback := [], w := w0 } = .ok p)
    (h : (n.read p.conn 100 (n.write p.conn publishV5Q3 p.w)).1.err = true) :
    (b.AnalyzeV5 n w).2.1.V5QoS3Response = b.V5QoS3Response := by
  have hl : (stepsV5 n).eraseIdx 5 =
      [firstPing n, qos1V5 n, reconnectIfDeadV5 n, qos2V5 n, reconnectIfDeadV5 n,
       reconnectIfDeadV5 n, subAllV5 n, forcedReconnectV5 n, subInvalidV5 n,
       reconnectIfDeadV5 n, subInvalidUTF8V5 n, reconnectIfDeadV5 n, pubSysV5 n,
       forcedReconnectV5 n, filterSysV5 n] := rfl
  have hothers : ∀ s ∈ (stepsV5 n).eraseIdx 5,
      Keeps (fun b' => b'.V5QoS3Response = b.V5QoS3Response) s := by
    rw [hl]
    simp only [List.forall_mem_cons, List.not_mem_nil, false_implies, implies_true, and_true]
    repeat' apply And.intro
    all_goals first
      | exact firstPing_keeps n _
      | exact reconnectIfDeadV5_keeps n _
      | exact forcedReconnectV5_keeps n _
      | exact qos1V5_keeps n
          (fun b' => b'.V5QoS3Response = b.V5QoS3Response) (fun _ h => h)
      | exact qos2V5_keeps n
          (fun b' => b'.V5QoS3Response = b.V5QoS3Response) (fun _ h => h)
      | exact subAllV5_keeps n
          (fun b' => b'.V5QoS3Response = b.V5QoS3Response) (fun _ h => h)
      | exact subInvalidV5_keeps n
          (fun b' => b'.V5QoS3Response = b.V5QoS3Response) (fun _ h => h)
      | exact subInvalidUTF8V5_keeps n
          (fun b' => b'.V5QoS3Response = b.V5QoS3Response) (fun _ h => h)
      | exact pubSysV5_keeps n
          (fun b' => b'.V5QoS3Response = b.V5QoS3Response) (fun _ h => h)
      | exact filterSysV5_keeps n
          (fun b' => b'.V5QoS3Response = b.V5QoS3Response) (fun _ h => h)
  have hlen := pubackV5_length n 5 (by decide) _ _ hp
  simp only [BrokerInfo.AnalyzeV5, hc, finish_info]
  refine keeps_run_except (fun b' => b'.V5QoS3Response = b.V5QoS3Response) (stepsV5 n) 5
    hothers _ p hp ?_ rfl
  intro s hs hpb
  have hs' : qos3V5 n = s := Option.some.inj hs
  subst hs'
  unfold qos3V5
  dsimp only
  rw [connRead_err, hlen, h]
  exact hpb

theorem analyzeV5_subAll_of_failure {σ : Type} (n : Net σ) (b : BrokerInfo) (w : σ)
    (conn : Conn) (w0 : σ) (p : Probe σ)
    (hc : b.connectV5 n w = (.ok conn, w0))
    (hp : runSteps ((stepsV5 n).take 7)
      { b := b, conn := conn, puback := [], suback := [], w := w0 } = .ok p)
    (h : (n.read p.conn 100 (n.write p.conn subAllV5Q0 p.w)).1.err = true) :
    (b.AnalyzeV5 n w).2.1.V5SubscribeAll = b.V5SubscribeAll := by
  have hl : (stepsV5 n).eraseIdx 7 =
      [firstPing n, qos1V5 n, reconnectIfDeadV5 n, qos2V5 n, reconnectIfDeadV5 n, qos3V5 n,
       reconnectIfDeadV5 n, forcedReconnectV5 n, subInvalidV5 n, reconnectIfDeadV5 n,
       subInvalidUTF8V5 n, reconnectIfDeadV5 n, pubSysV5 n, forcedReconnectV5 n, filterSysV5 n] := rfl
  have hothers : ∀ s ∈ (stepsV5 n).eraseIdx 7,
      Keeps (fun b' => b'.V5SubscribeAll = b.V5SubscribeAll) s := by
    rw [hl]
    simp only [List.forall_mem_cons, List.not_mem_nil, false_implies, implies_true, and_true]
    repeat' apply And.intro
    all_goals first
      | exact firstPing_keeps n _
      | exact reconnectIfDeadV5_keeps n _
      | exact forcedReconnectV5_keeps n _
      | exact qos1V5_keeps n
          (fun b' => b'.V5SubscribeAll = b.V5SubscribeAll) (fun _ h => h)
      | exact qos2V5_keeps n
          (fun b' => b'.V5SubscribeAll = b.V5SubscribeAll) (fun _ h => h)
      | exact qos3V5_keeps n
          (fun b' => b'.V5SubscribeAll = b.V5SubscribeAll) (fun _ h => h)
      | exact subInvalidV5_keeps n
          (fun b' => b'.V5SubscribeAll = b.V5SubscribeAll) (fun _ h => h)
      | exact subInvalidUTF8V5_keeps n
          (fun b' => b'.V5SubscribeAll = b.V5SubscribeAll) (fun _ h => h)
      | exact pubSysV5_keeps n
          (fun b' => b'.V5SubscribeAll = b.V5SubscribeAll) (fun _ h => h)
      | exact filterSysV5_keeps n
          (fun b' => b'.V5SubscribeAll = b.V5SubscribeAll) (fun _ h => h)
  simp only [BrokerInfo.AnalyzeV5, hc, finish_info]
  refine keeps_run_except (fun b' => b'.V5SubscribeAll = b.V5SubscribeAll) (stepsV5 n) 7
    hothers _ p hp ?_ rfl
  intro s hs hpb
  have hs' : subAllV5 n = s := Option.some.inj hs
  subst hs'
  unfold subAllV5
  dsimp only
  rw [connRead_make_err, h]
  exact hpb

theorem analyzeV5_subInvalid_of_failure {σ : Type} (n : Net σ) (b : BrokerInfo) (w : σ)
    (conn : Conn) (w0 : σ) (p : Probe σ)
    (hc : b.connectV5 n w = (.ok conn, w0))
    (hp : runSteps ((stepsV5 n).take 9)
      { b := b, conn := conn, puback := [], suback := [], w := w0 } = .ok p)
    (h : (n.read p.conn 100 (n.write p.conn subInvalidV5Q0 p.w)).1.err = true) :
    (b.AnalyzeV5 n w).2.1.V5InvalidTopics = b.V5InvalidTopics := by
  have hl : (stepsV5 n).eraseIdx 9 =
      [firstPing n, qos1V5 n, reconnectIfDeadV5 n, qos2V5 n, reconnectIfDeadV5 n, qos3V5 n,
       reconnectIfDeadV5 n, subAllV5 n, forcedReconnectV5 n, reconnectIfDeadV5 n,
       subInvalidUTF8V5 n, reconnectIfDeadV5 n, pubSysV5 n, forcedReconnectV5 n, filterSysV5 n] := rfl
  have hothers : ∀ s ∈ (stepsV5 n).eraseIdx 9,
      Keeps (fun b' => b'.V5InvalidTopics = b.V5InvalidTopics) s := by
    rw [hl]
    simp only [List.forall_mem_cons, List.not_mem_nil, false_implies, implies_true, and_true]
    repeat' apply And.intro
    all_goals first
      | exact firstPing_keeps n _
      | exact reconnectIfDeadV5_keeps n _
      | exact forcedReconnectV5_keeps n _
      | exact qos1V5_keeps n
          (fun b' => b'.V5InvalidTopics = b.V5InvalidTopics) (fun _ h => h)
      | exact qos2V5_keeps n
          (fun b' => b'.V5InvalidTopics = b.V5InvalidTopics) (fun _ h => h)
      | exact qos3V5_keeps n
          (fun b' => b'.V5InvalidTopics = b.V5InvalidTopics) (fun _ h => h)
      | exact subAllV5_keeps n
          (fun b' => b'.V5InvalidTopics = b.V5InvalidTopics) (fun _ h => h)
      | exact subInvalidUTF8V5_keeps n
          (fun b' => b'.V5InvalidTopics = b.V5InvalidTopics) (fun _ h => h)
      | exact pubSysV5_keeps n
          (fun b' => b'.V5InvalidTopics = b.V5InvalidTopics) (fun _ h => h)
      | exact filterSysV5_keeps n
          (fun b' => b'.V5InvalidTopics = b.V5InvalidTopics) (fun _ h => h)
  simp only [BrokerInfo.AnalyzeV5, hc, finish_info]
  refine keeps_run_except (fun b' => b'.V5InvalidTopics = b.V5InvalidTopics) (stepsV5 n) 9
    hothers _ p hp ?_ rfl
  intro s hs hpb
  have hs' : subInvalidV5 n = s := Option.some.inj hs
  subst hs'
  unfold subInvalidV5
  dsimp only
  rw [connRead_make_err, h]
  exact hpb

theorem analyzeV5_subInvalidUTF8_of_failure {σ : Type} (n : Net σ) (b : BrokerInfo) (w : σ)
    (conn : Conn) (w0 : σ) (p : Probe σ)
    (hc : b.connectV5 n w = (.ok conn, w0))
    (hp : runSteps ((stepsV5 n).take 11)
      { b := b, conn := conn, puback := [], suback := [], w := w0 } = .ok p)
    (h : (n.read p.conn 100 (n.write p.conn subInvalidUTF8V5Q0 p.w)).1.err = true) :
    (b.AnalyzeV5 n w).2.1.V5InvalidUTF8Topic = b.V5InvalidUTF8Topic := by
  have hl : (stepsV5 n).eraseIdx 11 =
      [firstPing n, qos1V5 n, reconnectIfDeadV5 n, qos2V5 n, reconnectIfDeadV5 n, qos3V5 n,
       reconnectIfDeadV5 n, subAllV5 n, forcedReconnectV5 n, subInvalidV5 n,
       reconnectIfDeadV5 n, reconnectIfDeadV5 n, pubSysV5 n, forcedReconnectV5 n, filterSysV5 n] := rfl
  have hothers : ∀ s ∈ (stepsV5 n).eraseIdx 11,
      Keeps (fun b' => b'.V5InvalidUTF8Topic = b.V5InvalidUTF8Topic) s := by
    rw [hl]
    simp only [List.forall_mem_cons, List.not_mem_nil, false_implies, implies_true, and_true]
    repeat' apply And.intro
    all_goals first
      | exact firstPing_keeps n _
      | exact reconnectIfDeadV5_keeps n _
      | exact forcedReconnectV5_keeps n _
      | exact qos1V5_keeps n
          (fun b' => b'.V5InvalidUTF8Topic = b.V5InvalidUTF8Topic) (fun _ h => h)
      | exact qos2V5_keeps n
          (fun b' => b'.V5InvalidUTF8Topic = b.V5InvalidUTF8Topic) (fun _ h => h)
      | exact qos3V5_keeps n
          (fun b' => b'.V5InvalidUTF8Topic = b.V5InvalidUTF8Topic) (fun _ h => h)
      | exact subAllV5_keeps n
          (fun b' => b'.V5InvalidUTF8Topic = b.V5InvalidUTF8Topic) (fun _ h => h)
      | exact subInvalidV5_keeps n
          (fun b' => b'.V5InvalidUTF8Topic = b.V5InvalidUTF8Topic) (fun _ h => h)
      | exact pubSysV5_keeps n
          (fun b' => b'.V5InvalidUTF8Topic = b.V5InvalidUTF8Topic) (fun _ h => h)
      | exact filterSysV5_keeps n
          (fun b' => b'.V5InvalidUTF8Topic = b.V5InvalidUTF8Topic) (fun _ h => h)
  simp only [BrokerInfo.AnalyzeV5, hc, finish_info]
  refine keeps_run_except (fun b' => b'.V5InvalidUTF8Topic = b.V5InvalidUTF8Topic) (stepsV5 n) 11
    hothers _ p hp ?_ rfl
  intro s hs hpb
  have hs' : subInvalidUTF8V5 n = s := Option.some.inj hs
  subst hs'
  unfold subInvalidUTF8V5
  dsimp only
  rw [connRead_make_err, h]
  exact hpb

theorem analyzeV5_pubSys_of_failure {σ : Type} (n : Net σ) (b : BrokerInfo) (w : σ)
    (conn : Conn) (w0 : σ) (p : Probe σ)
    (hc : b.connectV5 n w = (.ok conn, w0))
    (hp : runSteps ((stepsV5 n).take 13)
      { b := b, conn := conn, puback := [], suback := [], w := w0 } = .ok p)
    (h : (n.read p.conn 100 (n.write p.conn pubSysV5Q1 p.w)).1.err = true) :
    (b.AnalyzeV5 n w).2.1.V5PublishSYS = b.V5PublishSYS := by
  have hl : (stepsV5 n).eraseIdx 13 =
      [firstPing n, qos1V5 n, reconnectIfDeadV5 n, qos2V5 n, reconnectIfDeadV5 n, qos3V5 n,
       reconnectIfDeadV5 n, subAllV5 n, forcedReconnectV5 n, subInvalidV5 n,
       reconnectIfDeadV5 n, subInvalidUTF8V5 n, reconnectIfDeadV5 n, forcedReconnectV5 n,
       filterSysV5 n] := rfl
  have hothers : ∀ s ∈ (stepsV5 n).eraseIdx 13,
      Keeps (fun b' => b'.V5PublishSYS = b.V5PublishSYS) s := by
    rw [hl]
    simp only [List.forall_mem_cons, List.not_mem_nil, false_implies, implies_true, and_true]
    repeat' apply And.intro
    all_goals first
      | exact firstPing_keeps n _
      | exact reconnectIfDeadV5_keeps n _
      | exact forcedReconnectV5_keeps n _
      | exact qos1V5_keeps n
          (fun b' => b'.V5PublishSYS = b.V5PublishSYS) (fun _ h => h)
      | exact qos2V5_keeps n
          (fun b' => b'.V5PublishSYS = b.V5PublishSYS) (fun _ h => h)
      | exact qos3V5_keeps n
          (fun b' => b'.V5PublishSYS = b.V5PublishSYS) (fun _ h => h)
      | exact subAllV5_keeps n
          (fun b' => b'.V5PublishSYS = b.V5PublishSYS) (fun _ h => h)
      | exact subInvalidV5_keeps n
          (fun b' => b'.V5PublishSYS = b.V5PublishSYS) (fun _ h => h)
      | exact subInvalidUTF8V5_keeps n
          (fun b' => b'.V5PublishSYS = b.V5PublishSYS) (fun _ h => h)
      | exact filterSysV5_keeps n
          (fun b' => b'.V5PublishSYS = b.V5PublishSYS) (fun _ h => h)
  have hlen := pubackV5_length n 13 (by decide) _ _ hp
  simp only [BrokerInfo.AnalyzeV5, hc, finish_info]
  refine keeps_run_except (fun b' => b'.V5PublishSYS = b.V5PublishSYS) (stepsV5 n) 13
    hothers _ p hp ?_ rfl
  intro s hs hpb
  have hs' : pubSysV5 n = s := Option.some.inj hs
  subst hs'
  unfold pubSysV5
  dsimp only
  rw [connRead_err, hlen, h]
  exact hpb

theorem analyzeV5_filterSys_of_failure {σ : Type} (n : Net σ) (b : BrokerInfo) (w : σ)
    (conn : Conn) (w0 : σ) (p : Probe σ)
    (hc : b.connectV5 n w = (.ok conn, w0))
    (hp : runSteps ((stepsV5 n).take 15)
      { b := b, conn := conn, puback := [], suback := [], w := w0 } = .ok p)
    (h : (n.read p.conn 100 (n.sleep (n.write p.conn subSysAV5Q0 p.w))).1.err = true) :
    (b.AnalyzeV5 n w).2.1.V5FilterSYS = b.V5FilterSYS := by
  have hl : (stepsV5 n).eraseIdx 15 =
      [firstPing n, qos1V5 n, reconnectIfDeadV5 n, qos2V5 n, reconnectIfDeadV5 n, qos3V5 n,
       reconnectIfDeadV5 n, subAllV5 n, forcedReconnectV5 n, subInvalidV5 n,
       reconnectIfDeadV5 n, subInvalidUTF8V5 n, reconnectIfDeadV5 n, pubSysV5 n,
       forcedReconnectV5 n] := rfl
  have hothers : ∀ s ∈ (stepsV5 n).eraseIdx 15,
      Keeps (fun b' => b'.V5FilterSYS = b.V5FilterSYS) s := by
    rw [hl]
    simp only [List.forall_mem_cons, List.not_mem_nil, false_implies, implies_true, and_true]
    repeat' apply And.intro
    all_goals first
      | exact firstPing_keeps n _
      | exact reconnectIfDeadV5_keeps n _
      | exact forcedReconnectV5_keeps n _
      | exact qos1V5_keeps n
          (fun b' => b'.V5FilterSYS = b.V5FilterSYS) (fun _ h => h)
      | exact qos2V5_keeps n
          (fun b' => b'.V5FilterSYS = b.V5FilterSYS) (fun _ h => h)
      | exact qos3V5_keeps n
          (fun b' => b'.V5FilterSYS = b.V5FilterSYS) (fun _ h => h)
      | exact subAllV5_keeps n
          (fun b' => b'.V5FilterSYS = b.V5FilterSYS) (fun _ h => h)
      | exact subInvalidV5_keeps n
          (fun b' => b'.V5FilterSYS = b.V5FilterSYS) (fun _ h => h)
      | exact subInvalidUTF8V5_keeps n
          (fun b' => b'.V5FilterSYS = b.V5FilterSYS) (fun _ h => h)
      | exact pubSysV5_keeps n
          (fun b' => b'.V5FilterSYS = b.V5FilterSYS) (fun _ h => h)
  have hlen := subackV5_length n 15 (by decide) _ _ hp
  simp only [BrokerInfo.AnalyzeV5, hc, finish_info]
  refine keeps_run_except (fun b' => b'.V5FilterSYS = b.V5FilterSYS) (stepsV5 n) 15
    hothers _ p hp ?_ rfl
  intro s hs hpb
  have hs' : filterSysV5 n = s := Option.some.inj hs
  subst hs'
  unfold filterSysV5
  dsimp only
  split
  · rw [connRead_err, hlen, h]
    exact hpb
  · exact hpb

theorem reconnectIfDeadV4_error_iff {σ : Type} (n : Net σ) (p : Probe σ) (e : Err) :
    (∃ p', reconnectIfDeadV4 n p = .error (e, p')) ↔
      ((pingsBack n p.conn p.w).1 = false ∧
        (p.b.connectV4 n (pingsBack n p.conn p.w).2).1 = .error e) := by
  unfold reconnectIfDeadV4
  rcases hpb : pingsBack n p.conn p.w with ⟨ok, w1⟩
  cases ok with
  | true => simp
  | false =>
    rcases hc : p.b.connectV4 n w1 with ⟨r, w2⟩
    cases r with
    | ok conn => simp [hc]
    | error e' =>
      simp only [hc, true_and, Except.error.injEq, Prod.mk.injEq]
      constructor
      · rintro ⟨p', h, -⟩
        exact h
      · intro h
        exact ⟨_, h, rfl⟩

theorem forcedReconnectV4_error_iff {σ : Type} (n : Net σ) (p : Probe σ) (e : Err) :
    (∃ p', forcedReconnectV4 n p = .error (e, p')) ↔
      (p.b.connectV4 n (n.close p.conn p.w)).1 = .error e := by
  unfold forcedReconnectV4
  rcases hc : p.b.connectV4 n (n.close p.conn p.w) with ⟨r, w2⟩
  cases r with
  | ok conn => simp [hc]
  | error e' =>
    simp only [hc, Except.error.injEq, Prod.mk.injEq]
    constructor
    · rintro ⟨p', h, -⟩
      exact h
    · intro h
      exact ⟨_, h, rfl⟩

theorem finish_error_iff {σ : Type} (n : Net σ) (conn : Conn) (r : Step σ) (e : Err) :
    (finish n conn r).1 = some e ↔ ∃ p', r = .error (e, p') := by
  cases r with
  | ok p => simp [finish]
  | error x =>
    obtain ⟨e', p'⟩ := x
    simp [finish]

/-- Once the connect and the first ping have succeeded, `AnalyzeV4` returns the error `e`
exactly when a reconnection attempt it makes fails with `e`: one of the five attempts
that follow a failed ping, or one of the two that follow a `conn.Close()`. -/
theorem analyzeV4_error_iff {σ : Type} (n : Net σ) (b : BrokerInfo) (w : σ)
    (conn : Conn) (w0 : σ) (e : Err)
    (hc : b.connectV4 n w = (.ok conn, w0))
    (hping : (n.read conn 100 (n.write conn pingreq w0)).1 = answer pingresp) :
    (b.AnalyzeV4 n w).1 = some e ↔
      ((∃ k ∈ [2, 4, 6, 10, 12], ∃ p,
          runSteps ((stepsV4 n).take k)
            { b := b, conn := conn, puback := [], suback := [], w := w0 } = .ok p ∧
          (pingsBack n p.conn p.w).1 = false ∧
          (p.b.connectV4 n (pingsBack n p.conn p.w).2).1 = .error e) ∨
       (∃ k ∈ [8, 14], ∃ p,
          runSteps ((stepsV4 n).take k)
            { b := b, conn := conn, puback := [], suback := [], w := w0 } = .ok p ∧
          (p.b.connectV4 n (n.close p.conn p.w)).1 = .error e)) := by
  simp only [BrokerInfo.AnalyzeV4, hc, finish_error_iff]
  constructor
  · rintro ⟨p', h⟩
    obtain ⟨k, p, s, hp, hs, he⟩ := runSteps_error_at _ _ _ h
    have hk : k < 16 := (List.getElem?_eq_some.mp hs).1
    interval_cases k
    case «0» =>
      have hs' : firstPing n = s := Option.some.inj hs
      subst hs'
      exfalso
      cases hp
      unfold firstPing at he
      rw [pingsBack_of_answer n conn w0 hping] at he
      cases he
    case «1» =>
      have hs' : qos1V4 n = s := Option.some.inj hs
      subst hs'
      exfalso
      obtain ⟨q, hq⟩ := qos1V4_total n p
      rw [hq] at he
      cases he
    case «3» =>
      have hs' : qos2V4 n = s := Option.some.inj hs
      subst hs'
      exfalso
      obtain ⟨q, hq⟩ := qos2V4_total n p
      rw [hq] at he
      cases he
    case «5» =>
      have hs' : qos3V4 n = s := Option.some.inj hs
      subst hs'
      exfalso
      obtain ⟨q, hq⟩ := qos3V4_total n p
      rw [hq] at he
      cases he
    case «7» =>
      have hs' : subAllV4 n = s := Option.some.inj hs
      subst hs'
      exfalso
      obtain ⟨q, hq⟩ := subAllV4_total n p
      rw [hq] at he
      cases he
    case «9» =>
      have hs' : subInvalidV4 n = s := Option.some.inj hs
      subst hs'
      exfalso
      obtain ⟨q, hq⟩ := subInvalidV4_total n p
      rw [hq] at he
      cases he
    case «11» =>
      have hs' : subInvalidUTF8V4 n = s := Option.some.inj hs
      subst hs'
      exfalso
      obtain ⟨q, hq⟩ := subInvalidUTF8V4_total n p
      rw [hq] at he
      cases he
    case «13» =>
      have hs' : pubSysV4 n = s := Option.some.inj hs
      subst hs'
      exfalso
      obtain ⟨q, hq⟩ := pubSysV4_total n p
      rw [hq] at he
      cases he
    case «15» =>
      have hs' : filterSysV4 n = s := Option.some.inj hs
      subst hs'
      exfalso
      obtain ⟨q, hq⟩ := filterSysV4_total n p
      rw [hq] at he
      cases he
    case «2» =>
      have hs' : reconnectIfDeadV4 n = s := Option.some.inj hs
      subst hs'
      exact Or.inl ⟨2, by decide, p, hp, (reconnectIfDeadV4_error_iff n p e).mp ⟨p', he⟩⟩
    case «4» =>
      have hs' : reconnectIfDeadV4 n = s := Option.some.inj hs
      subst hs'
      exact Or.inl ⟨4, by decide, p, hp, (reconnectIfDeadV4_error_iff n p e).mp ⟨p', he⟩⟩
    case «6» =>
      have hs' : reconnectIfDeadV4 n = s := Option.some.inj hs
      subst hs'
      exact Or.inl ⟨6, by decide, p, hp, (reconnectIfDeadV4_error_iff n p e).mp ⟨p', he⟩⟩
    case «10» =>
      have hs' : reconnectIfDeadV4 n = s := Option.some.inj hs
      subst hs'
      exact Or.inl ⟨10, by decide, p, hp, (reconnectIfDeadV4_error_iff n p e).mp ⟨p', he⟩⟩
    case «12» =>
      have hs' : reconnectIfDeadV4 n = s := Option.some.inj hs
      subst hs'
      exact Or.inl ⟨12, by decide, p, hp, (reconnectIfDeadV4_error_iff n p e).mp ⟨p', he⟩⟩
    case «8» =>
      have hs' : forcedReconnectV4 n = s := Option.some.inj hs
      subst hs'
      exact Or.inr ⟨8, by decide, p, hp, (forcedReconnectV4_error_iff n p e).mp ⟨p', he⟩⟩
    case «14» =>
      have hs' : forcedReconnectV4 n = s := Option.some.inj hs
      subst hs'
      exact Or.inr ⟨14, by decide, p, hp, (forcedReconnectV4_error_iff n p e).mp ⟨p', he⟩⟩
  · rintro (⟨k, hk, p, hp, h⟩ | ⟨k, hk, p, hp, h⟩)
    · obtain ⟨p', he⟩ := (reconnectIfDeadV4_error_iff n p e).mpr h
      refine ⟨p', runSteps_error_of_take _ k _ p (reconnectIfDeadV4 n) _ hp ?_ he⟩
      simp only [List.mem_cons, List.mem_singleton, List.not_mem_nil, or_false] at hk
      rcases hk with rfl | rfl | rfl | rfl | rfl <;> rfl
    · obtain ⟨p', he⟩ := (forcedReconnectV4_error_iff n p e).mpr h
      refine ⟨p', runSteps_error_of_take _ k _ p (forcedReconnectV4 n) _ hp ?_ he⟩
      simp only [List.mem_cons, List.mem_singleton, List.not_mem_nil, or_false] at hk
      rcases hk with rfl | rfl <;> rfl

theorem reconnectIfDeadV5_error_iff {σ : Type} (n : Net σ) (p : Probe σ) (e : Err) :
    (∃ p', reconnectIfDeadV5 n p = .error (e, p')) ↔
      ((pingsBack n p.conn p.w).1 = false ∧
        (p.b.connectV5 n (pingsBack n p.conn p.w).2).1 = .error e) := by
  unfold reconnectIfDeadV5
  rcases hpb : pingsBack n p.conn p.w with ⟨ok, w1⟩
  cases ok with
  | true => simp
  | false =>
    rcases hc : p.b.connectV5 n w1 with ⟨r, w2⟩
    cases r with
    | ok conn => simp [hc]
    | error e' =>
      simp only [hc, true_and, Except.error.injEq, Prod.mk.injEq]
      constructor
      · rintro ⟨p', h, -⟩
        exact h
      · intro h
        exact ⟨_, h, rfl⟩

theorem forcedReconnectV5_error_iff {σ : Type} (n : Net σ) (p : Probe σ) (e : Err) :
    (∃ p', forcedReconnectV5 n p = .error (e, p')) ↔
      (p.b.connectV5 n (n.close p.conn p.w)).1 = .error e := by
  unfold forcedReconnectV5
  rcases hc : p.b.connectV5 n (n.close p.conn p.w) with ⟨r, w2⟩
  cases r with
  | ok conn => simp [hc]
  | error e' =>
    simp only [hc, Except.error.injEq, Prod.mk.injEq]
    constructor
    · rintro ⟨p', h, -⟩
      exact h
    · intro h
      exact ⟨_, h, rfl⟩

/-- Once the connect and the first ping have succeeded, `AnalyzeV5` returns the error `e`
exactly when a reconnection attempt it makes fails with `e`: one of the five attempts
that follow a failed ping, or one of the two that follow a `conn.Close()`. -/
theorem analyzeV5_error_iff {σ : Type} (n : Net σ) (b : BrokerInfo) (w : σ)
    (conn : Conn) (w0 : σ) (e : Err)
    (hc : b.connectV5 n w = (.ok conn, w0))
    (hping : (n.read conn 100 (n.write conn pingreq w0)).1 = answer pingresp) :
    (b.AnalyzeV5 n w).1 = some e ↔
      ((∃ k ∈ [2, 4, 6, 10, 12], ∃ p,
          runSteps ((stepsV5 n).take k)
            { b := b, conn := conn, puback := [], suback := [], w := w0 } = .ok p ∧
          (pingsBack n p.conn p.w).1 = false ∧
          (p.b.connectV5 n (pingsBack n p.conn p.w).2).1 = .error e) ∨
       (∃ k ∈ [8, 14], ∃ p,
          runSteps ((stepsV5 n).take k)
            { b := b, conn := conn, puback := [], suback := [], w := w0 } = .ok p ∧
          (p.b.connectV5 n (n.close p.conn p.w)).1 = .error e)) := by
  simp only [BrokerInfo.AnalyzeV5, hc, finish_error_iff]
  constructor
  · rintro ⟨p', h⟩
    obtain ⟨k, p, s, hp, hs, he⟩ := runSteps_error_at _ _ _ h
    have hk : k < 16 := (List.getElem?_eq_some.mp hs).1
    interval_cases k
    case «0» =>
      have hs' : firstPing n = s := Option.some.inj hs
      subst hs'
      exfalso
      cases hp
      unfold firstPing at he
      rw [pingsBack_of_answer n conn w0 hping] at he
      cases he
    case «1» =>
      have hs' : qos1V5 n = s := Option.some.inj hs
      subst hs'
      exfalso
      obtain ⟨q, hq⟩ := qos1V5_total n p
      rw [hq] at he
      cases he
    case «3» =>
      have hs' : qos2V5 n = s := Option.some.inj hs
      subst hs'
      exfalso
      obtain ⟨q, hq⟩ := qos2V5_total n p
      rw [hq] at he
      cases he
    case «5» =>
      have hs' : qos3V5 n = s := Option.some.inj hs
      subst hs'
      exfalso
      obtain ⟨q, hq⟩ := qos3V5_total n p
      rw [hq] at he
      cases he
    case «7» =>
      have hs' : subAllV5 n = s := Option.some.inj hs
      subst hs'
      exfalso
      obtain ⟨q, hq⟩ := subAllV5_total n p
      rw [hq] at he
      cases he
    case «9» =>
      have hs' : subInvalidV5 n = s := Option.some.inj hs
      subst hs'
      exfalso
      obtain ⟨q, hq⟩ := subInvalidV5_total n p
      rw [hq] at he
      cases he
    case «11» =>
      have hs' : subInvalidUTF8V5 n = s := Option.some.inj hs
      subst hs'
      exfalso
      obtain ⟨q, hq⟩ := subInvalidUTF8V5_total n p
      rw [hq] at he
      cases he
    case «13» =>
      have hs' : pubSysV5 n = s := Option.some.inj hs
      subst hs'
      exfalso
      obtain ⟨q, hq⟩ := pubSysV5_total n p
      rw [hq] at he
      cases he
    case «15» =>
      have hs' : filterSysV5 n = s := Option.some.inj hs
      subst hs'
      exfalso
      obtain ⟨q, hq⟩ := filterSysV5_total n p
      rw [hq] at he
      cases he
    case «2» =>
      have hs' : reconnectIfDeadV5 n = s := Option.some.inj hs
      subst hs'
      exact Or.inl ⟨2, by decide, p, hp, (reconnectIfDeadV5_error_iff n p e).mp ⟨p', he⟩⟩
    case «4» =>
      have hs' : reconnectIfDeadV5 n = s := Option.some.inj hs
      subst hs'
      exact Or.inl ⟨4, by decide, p, hp, (reconnectIfDeadV5_error_iff n p e).mp ⟨p', he⟩⟩
    case «6» =>
      have hs' : reconnectIfDeadV5 n = s := Option.some.inj hs
      subst hs'
      exact Or.inl ⟨6, by decide, p, hp, (reconnectIfDeadV5_error_iff n p e).mp ⟨p', he⟩⟩
    case «10» =>
      have hs' : reconnectIfDeadV5 n = s := Option.some.inj hs
      subst hs'
      exact Or.inl ⟨10, by decide, p, hp, (reconnectIfDeadV5_error_iff n p e).mp ⟨p', he⟩⟩
    case «12» =>
      have hs' : reconnectIfDeadV5 n = s := Option.some.inj hs
      subst hs'
      exact Or.inl ⟨12, by decide, p, hp, (reconnectIfDeadV5_error_iff n p e).mp ⟨p', he⟩⟩
    case «8» =>
      have hs' : forcedReconnectV5 n = s := Option.some.inj hs
      subst hs'
      exact Or.inr ⟨8, by decide, p, hp, (forcedReconnectV5_error_iff n p e).mp ⟨p', he⟩⟩
    case «14» =>
      have hs' : forcedReconnectV5 n = s := Option.some.inj hs
      subst hs'
      exact Or.inr ⟨14, by decide, p, hp, (forcedReconnectV5_error_iff n p e).mp ⟨p', he⟩⟩
  · rintro (⟨k, hk, p, hp, h⟩ | ⟨k, hk, p, hp, h⟩)
    · obtain ⟨p', he⟩ := (reconnectIfDeadV5_error_iff n p e).mpr h
      refine ⟨p', runSteps_error_of_take _ k _ p (reconnectIfDeadV5 n) _ hp ?_ he⟩
      simp only [List.mem_cons, List.mem_singleton, List.not_mem_nil, or_false] at hk
      rcases hk with rfl | rfl | rfl | rfl | rfl <;> rfl
    · obtain ⟨p', he⟩ := (forcedReconnectV5_error_iff n p e).mpr h
      refine ⟨p', runSteps_error_of_take _ k _ p (forcedReconnectV5 n) _ hp ?_ he⟩
      simp only [List.mem_cons, List.mem_singleton, List.not_mem_nil, or_false] at hk
      rcases hk with rfl | rfl <;> rfl

theorem deadline_connectV4 (q3 : ReadResult) (b : BrokerInfo) (w : Wire) :
    ∃ conn w1, b.connectV4 (deadlineNet (testReply q3)) w = (.ok conn, w1) := by
  refine ⟨w.dials,
    ⟨b.getConnectV4, 1, w.dials + 1, w.dead.filter fun c => c ≠ w.dials⟩, ?_⟩
  simp only [BrokerInfo.connectV4, deadlineNet, connRead, testReply, isConnect_getConnectV4,
    List.mem_filter, ne_eq, not_true_eq_false, decide_False, Bool.false_eq_true, and_false,
    if_false, if_true]
  rfl

theorem deadline_connectV5 (q3 : ReadResult) (b : BrokerInfo) (w : Wire) :
    ∃ conn w1, b.connectV5 (deadlineNet (testReply q3)) w = (.ok conn, w1) := by
  refine ⟨w.dials,
    ⟨b.getConnectV5, 1, w.dials + 1, w.dead.filter fun c => c ≠ w.dials⟩, ?_⟩
  simp only [BrokerInfo.connectV5, deadlineNet, connRead, testReply, isConnect_getConnectV5,
    List.mem_filter, ne_eq, not_true_eq_false, decide_False, Bool.false_eq_true, and_false,
    if_false, if_true]
  rfl

theorem deadline_no_answer (reply : Bytes → Nat → ReadResult) (packet : Bytes)
    (h : reply packet 0 = noAnswer) (conn : Conn) (w : Wire) :
    ((deadlineNet reply).read conn 100 ((deadlineNet reply).write conn packet w)).1.err
      = true := by
  simp only [deadlineNet]
  split
  · rfl
  · simp only [h]
    rfl

theorem finish_none {σ : Type} (n : Net σ) (conn : Conn) (r : Step σ)
    (h : (finish n conn r).1 = none) : ∃ p, r = .ok p := by
  cases r with
  | ok p => exact ⟨p, rfl⟩
  | error x =>
    obtain ⟨e, p⟩ := x
    simp [finish] at h

theorem analyzeV4_qos1_only {σ : Type} (n : Net σ) (b : BrokerInfo) (w : σ)
    (conn : Conn) (w0 w1 : σ)
    (hconn : ∀ (b : BrokerInfo) (w : σ), ∃ conn w1, b.connectV4 n w = (.ok conn, w1))
    (hc : b.connectV4 n w = (.ok conn, w0))
    (hping : n.read conn 100 (n.write conn pingreq w0) = (answer pingresp, w1))
    (hq1 : (n.read conn 100 (n.write conn publishV4Q1 w1)).1 = answer [0x40, 0x02, 0x00, 0x01])
    (hq2 : ∀ (conn : Conn) (w : σ),
      (n.read conn 100 (n.write conn publishV4Q2 w)).1.err = true)
    (hq3 : ∀ (conn : Conn) (w : σ),
      (n.read conn 100 (n.write conn publishV4Q3 w)).1.err = true)
    (h2 : b.V4QoS2 = false) (h3 : b.V4QoS3Response = false) :
    (b.AnalyzeV4 n w).1 = none ∧ (b.AnalyzeV4 n w).2.1.V4QoS1 = true ∧
      (b.AnalyzeV4 n w).2.1.V4QoS2 = false ∧ (b.AnalyzeV4 n w).2.1.V4QoS3Response = false := by
  have hping1 : (n.read conn 100 (n.write conn pingreq w0)).1 = answer pingresp := by
    rw [hping]
  have hno := analyzeV4_no_error n b w hconn conn w0 hc hping1
  refine ⟨hno, ?_, ?_, ?_⟩
  · have hp1 : firstPing n { b := b, conn := conn, puback := [], suback := [], w := w0 } =
        .ok { b := b, conn := conn, puback := [], suback := [], w := w1 } := by
      unfold firstPing
      rw [pingsBack_of_answer n conn w0 hping1, hping]
    obtain ⟨p2, hp2, hv⟩ := qos1V4_of_answer n
      { b := b, conn := conn, puback := [], suback := [], w := w1 } hq1
    have hk := restV4_keeps_qos1 n p2 hv
    have hsplit : stepsV4 n = firstPing n :: qos1V4 n :: (stepsV4 n).drop 2 := rfl
    simp only [BrokerInfo.AnalyzeV4, hc, finish_info]
    rw [hsplit, runSteps_cons_of_ok _ _ _ _ hp1, runSteps_cons_of_ok _ _ _ _ hp2]
    exact hk
  · have hk := stepsV4_keeps_qos2 n hq2
      { b := b, conn := conn, puback := [], suback := [], w := w0 } h2
    simp only [BrokerInfo.AnalyzeV4, hc, finish_info]
    exact hk
  · have hrun := hno
    simp only [BrokerInfo.AnalyzeV4, hc] at hrun
    obtain ⟨pf, hpf⟩ := finish_none n conn _ hrun
    obtain ⟨p5, hp5⟩ := runSteps_take_ok (stepsV4 n) 5 _ pf hpf
    rw [analyzeV4_qos3_of_failure n b w conn w0 p5 hc hp5 (hq3 _ _), h3]

theorem analyzeV5_qos1_only {σ : Type} (n : Net σ) (b : BrokerInfo) (w : σ)
    (conn : Conn) (w0 w1 : σ)
    (hconn : ∀ (b : BrokerInfo) (w : σ), ∃ conn w1, b.connectV5 n w = (.ok conn, w1))
    (hc : b.connectV5 n w = (.ok conn, w0))
    (hping : n.read conn 100 (n.write conn pingreq w0) = (answer pingresp, w1))
    (hq1 : (n.read conn 100 (n.write conn publishV5Q1 w1)).1 = answer [0x40, 0x02, 0x00, 0x01])
    (hq2 : ∀ (conn : Conn) (w : σ),
      (n.read conn 100 (n.write conn publishV5Q2 w)).1.err = true)
    (hq3 : ∀ (conn : Conn) (w : σ),
      (n.read conn 100 (n.write conn publishV5Q3 w)).1.err = true)
    (h2 : b.V5QoS2 = false) (h3 : b.V5QoS3Response = false) :
    (b.AnalyzeV5 n w).1 = none ∧ (b.AnalyzeV5 n w).2.1.V5QoS1 = true ∧
      (b.AnalyzeV5 n w).2.1.V5QoS2 = false ∧ (b.AnalyzeV5 n w).2.1.V5QoS3Response = false := by
  have hping1 : (n.read conn 100 (n.write conn pingreq w0)).1 = answer pingresp := by
    rw [hping]
  have hno := analyzeV5_no_error n b w hconn conn w0 hc hping1
  refine ⟨hno, ?_, ?_, ?_⟩
  · have hp1 : firstPing n { b := b, conn := conn, puback := [], suback := [], w := w0 } =
        .ok { b := b, conn := conn, puback := [], suback := [], w := w1 } := by
      unfold firstPing
      rw [pingsBack_of_answer n conn w0 hping1, hping]
    obtain ⟨p2, hp2, hv⟩ := qos1V5_of_answer n
      { b := b, conn := conn, puback := [], suback := [], w := w1 } hq1
    have hk := restV5_keeps_qos1 n p2 hv
    have hsplit : stepsV5 n = firstPing n :: qos1V5 n :: (stepsV5 n).drop 2 := rfl
    simp only [BrokerInfo.AnalyzeV5, hc, finish_info]
    rw [hsplit, runSteps_cons_of_ok _ _ _ _ hp1, runSteps_cons_of_ok _ _ _ _ hp2]
    exact hk
  · have hk := stepsV5_keeps_qos2 n hq2
      { b := b, conn := conn, puback := [], suback := [], w := w0 } h2
    simp only [BrokerInfo.AnalyzeV5, hc, finish_info]
    exact hk
  · have hrun := hno
    simp only [BrokerInfo.AnalyzeV5, hc] at hrun
    obtain ⟨pf, hpf⟩ := finish_none n conn _ hrun
    obtain ⟨p5, hp5⟩ := runSteps_take_ok (stepsV5 n) 5 _ pf hpf
    rw [analyzeV5_qos3_of_failure n b w conn w0 p5 hc hp5 (hq3 _ _), h3]

theorem take_readInto (buf data : Bytes) (k : Nat) (hd : k ≤ data.length)
    (hb : k ≤ buf.length) : (readInto buf data).take k = data.take k := by
  unfold readInto
  rw [List.take_append_of_le_length (by rw [List.length_take]; omega), List.take_take,
    Nat.min_eq_left hb]

theorem startsWith_readInto_eq (buf data pattern : Bytes) (hd : pattern.length ≤ data.length)
    (hb : pattern.length ≤ buf.length) :
    startsWith (readInto buf data) pattern = startsWith data pattern := by
  rw [Bool.eq_iff_iff]
  unfold startsWith
  rw [List.isPrefixOf_iff_prefix, List.isPrefixOf_iff_prefix, List.prefix_iff_eq_take,
    List.prefix_iff_eq_take, take_readInto buf data _ hd hb]

theorem matchesV5_readInto_eq (buf data : Bytes) (hlen : buf.length = 100)
    (h5 : 5 ≤ data.length) : matchesV5 (readInto buf data) = matchesV5 data := by
  unfold matchesV5
  rw [startsWith_readInto_eq buf data pubackV5Q1a (by simp [pubackV5Q1a]; omega)
      (by rw [hlen]; decide),
    startsWith_readInto_eq buf data pubackV5Q1b (by simp [pubackV5Q1b]; omega)
      (by rw [hlen]; decide),
    startsWith_readInto_eq buf data pubrecV5Q2a (by simp [pubrecV5Q2a]; omega)
      (by rw [hlen]; decide),
    startsWith_readInto_eq buf data pubrecV5Q2b (by simp [pubrecV5Q2b]; omega)
      (by rw [hlen]; decide)]

theorem matchesV5_readInto_head (buf : Bytes) (x : Nat) (t : Bytes) (hlen : buf.length = 100)
    (h40 : x ≠ 0x40) (h50 : x ≠ 0x50) : matchesV5 (readInto buf (x :: t)) = false := by
  have h40' : ¬ 0x40 = x := fun h => h40 h.symm
  have h50' : ¬ 0x50 = x := fun h => h50 h.symm
  simp [matchesV5, startsWith, readInto, hlen, pubackV5Q1a, pubackV5Q1b, pubrecV5Q2a,
    pubrecV5Q2b, List.isPrefixOf, h40', h50']

theorem readInto_length (buf data : Bytes) : (readInto buf data).length = buf.length := by
  simp [readInto]

theorem sysProbe_eq {σ : Type} (n : Net σ) (conn : Conn) (packet suback : Bytes) (w : σ)
    (r m : ReadResult) (wa wb : σ) (hlen : suback.length = 100)
    (hr : n.read conn 100 (n.write conn packet w) = (r, wa))
    (hm : n.read conn 100 wa = (m, wb)) :
    sysProbe n conn packet suback w =
      if acked r then
        { ack := true, msg := decide (m.data ≠ []), suback := readInto suback r.data, w := wb }
      else { ack := false, msg := false, suback := readInto suback r.data, w := wa } := by
  have hmk : (make 100).length = 100 := by simp [make]
  have hr1 := connRead_of_read n conn suback (n.write conn packet w) wa r
    (by rw [hlen]; exact hr)
  have hr2 := connRead_of_read n conn (make 100) wa wb m (by rw [hmk]; exact hm)
  have hmsg : decide ((m.data.take (make 100).length).length ≠ 0) = decide (m.data ≠ []) := by
    rw [hmk]
    cases hd : m.data with
    | nil => rfl
    | cons x t => simp
  have hcond : (!r.err && decide ((r.data.take suback.length).length ≥ subackV4Q0.length) &&
      decide ((readInto suback r.data).take subackV4Q0.length = subackV4Q0)) = acked r := by
    have h5 : subackV4Q0.length = 5 := rfl
    unfold acked
    rw [h5, hlen]
    cases r.err with
    | true => rfl
    | false =>
      by_cases hl : 5 ≤ r.data.length
      · have hl' : (r.data.take 100).length ≥ 5 := by
          rw [List.length_take]
          omega
        have hst : startsWith r.data subackV4Q0 =
            decide ((readInto suback r.data).take 5 = subackV4Q0) := by
          rw [take_readInto suback r.data 5 hl (by rw [hlen]; decide), Bool.eq_iff_iff]
          unfold startsWith
          rw [List.isPrefixOf_iff_prefix, List.prefix_iff_eq_take, h5, decide_eq_true_iff]
          exact eq_comm
        simp only [hst, decide_eq_true hl, decide_eq_true hl']
      · have hl' : ¬ (r.data.take 100).length ≥ 5 := by
          rw [List.length_take]
          omega
        simp only [decide_eq_false hl, decide_eq_false hl', Bool.and_false, Bool.false_and]
  unfold sysProbe
  simp only [hr1, hr2, hcond, hmsg]

theorem sysProbe_seen {σ : Type} (n : Net σ) (conn : Conn) (packet suback : Bytes) (w : σ)
    (r m : ReadResult) (wa wb : σ) (hlen : suback.length = 100)
    (hr : n.read conn 100 (n.write conn packet w) = (r, wa))
    (hm : n.read conn 100 wa = (m, wb)) :
    ((sysProbe n conn packet suback w).ack && !(sysProbe n conn packet suback w).msg) =
        (acked r && decide (m.data = [])) ∧
      ((sysProbe n conn packet suback w).ack && (sysProbe n conn packet suback w).msg) =
        (acked r && decide (m.data ≠ [])) ∧
      (sysProbe n conn packet suback w).suback = readInto suback r.data ∧
      (sysProbe n conn packet suback w).w = (if acked r then wb else wa) := by
  rw [sysProbe_eq n conn packet suback w r m wa wb hlen hr hm]
  cases acked r <;> simp

theorem reachesV4_iff {σ : Type} (n : Net σ) (b : BrokerInfo) (w : σ) (conn : Conn) (w0 : σ)
    (hc : b.connectV4 n w = (.ok conn, w0)) (k : Nat) (p : Probe σ) :
    reachesV4 n b w k p ↔
      runSteps ((stepsV4 n).take k)
        { b := b, conn := conn, puback := [], suback := [], w := w0 } = .ok p := by
  unfold reachesV4
  constructor
  · rintro ⟨conn', w0', hc', hp⟩
    rw [hc] at hc'
    cases hc'
    exact hp
  · intro hp
    exact ⟨conn, w0, hc, hp⟩

theorem reachesV5_iff {σ : Type} (n : Net σ) (b : BrokerInfo) (w : σ) (conn : Conn) (w0 : σ)
    (hc : b.connectV5 n w = (.ok conn, w0)) (k : Nat) (p : Probe σ) :
    reachesV5 n b w k p ↔
      runSteps ((stepsV5 n).take k)
        { b := b, conn := conn, puback := [], suback := [], w := w0 } = .ok p := by
  unfold reachesV5
  constructor
  · rintro ⟨conn', w0', hc', hp⟩
    rw [hc] at hc'
    cases hc'
    exact hp
  · intro hp
    exact ⟨conn, w0, hc, hp⟩

/-- On the test broker behind connections that die, a run of either routine dials seven
times: once at the start, after each of the four failed pings that follow an unanswered
probe, and at the two forced reconnections. On `replyNet`, where a failed read leaves
the connection usable, it dials three times. -/
theorem analyze_deadline_dials :
    (anonymous.AnalyzeV4 (deadlineNet (testReply noAnswer)) newWire).2.2.dials = 7 ∧
    (anonymous.AnalyzeV5 (deadlineNet (testReply noAnswer)) newWire).2.2.dials = 7 ∧
    (anonymous.AnalyzeV4 (dialLimitNet 3 (testReply noAnswer)) offline).1 = none ∧
    (anonymous.AnalyzeV4 (dialLimitNet 3 (testReply noAnswer)) offline).2.2.dials = 3 := by
  decide

/-- A short answer to the malformed-QoS PUBLISH of `AnalyzeV5` is matched together with
what the buffer held: the probe reads into the buffer of the QoS 1 probe, so the one
byte `50`, which matches no literal, sets `V5QoS3Response` through the bytes `02 00 01`
that the PUBACK left there. -/
theorem analyzeV5_qos3_short_answer :
    matchesV5 [0x50] = false ∧
    (anonymous.AnalyzeV5 (replyNet (testReply (answer [0x50]))) idle).2.1.V5QoS3Response
      = true := by
  decide

/-- The probe is not taken as acknowledged on the strength of bytes left in the reused
buffer: when the first probe is acknowledged and followed by a message, and the second
read returns only the byte `90`, the second rule does not fire. -/
theorem guessBroker_short_suback :
    (anonymous.GuessBroker (replyNet fun packet reads =>
        if isConnect packet then answer (connackWith 0x00)
        else if packet = subSysAllV4Q0 then
          (if reads = 0 then answer subackV4Q0 else answer [0x30])
        else if packet = subSysVerneV4Q0 then
          (if reads = 0 then answer [0x90] else answer [0x30])
        else noAnswer) idle).2.1.TypeGuessed = "HiveMQ" := by
  decide

/-! ## The claims on the probes, the later failures, the classifier and the buffers -/

/-- C9: `AnalyzeV4` and `AnalyzeV5`, started on a record from `NewBrokerInfo`, against a
broker that accepts every CONNECT, answers the first PINGREQ with PINGRESP, answers the
QoS 1 PUBLISH that follows with exactly `40 02 00 01` and gives no answer (a failing
read) to the QoS 2 and the malformed-QoS PUBLISH, return no error and end with
`QoS1 = true`, `QoS2 = false` and `QoS3Response = false`. The PINGREQ and the QoS 1
PUBLISH are answered at the states the run sends them in; nothing is asked of the later
pings, which fail on a connection that a failed read has left dead, nor of the answers
to the later probes. -/
theorem analyze_qos1_only {σ : Type} (n : Net σ) (hostname : String) (port : Int)
    (username password : Bytes) (w : σ) :
    (∀ (conn : Conn) (w0 w1 : σ),
      (∀ (b : BrokerInfo) (w : σ), ∃ c w2, b.connectV4 n w = (.ok c, w2)) →
      (NewBrokerInfo hostname port username password).connectV4 n w = (.ok conn, w0) →
      n.read conn 100 (n.write conn pingreq w0) = (answer pingresp, w1) →
      (n.read conn 100 (n.write conn publishV4Q1 w1)).1 = answer [0x40, 0x02, 0x00, 0x01] →
      (∀ (c : Conn) (w : σ), (n.read c 100 (n.write c publishV4Q2 w)).1.err = true) →
      (∀ (c : Conn) (w : σ), (n.read c 100 (n.write c publishV4Q3 w)).1.err = true) →
      ((NewBrokerInfo hostname port username password).AnalyzeV4 n w).1 = none ∧
      ((NewBrokerInfo hostname port username password).AnalyzeV4 n w).2.1.V4QoS1 = true ∧
      ((NewBrokerInfo hostname port username password).AnalyzeV4 n w).2.1.V4QoS2 = false ∧
      ((NewBrokerInfo hostname port username password).AnalyzeV4 n w).2.1.V4QoS3Response
        = false) ∧
    (∀ (conn : Conn) (w0 w1 : σ),
      (∀ (b : BrokerInfo) (w : σ), ∃ c w2, b.connectV5 n w = (.ok c, w2)) →
      (NewBrokerInfo hostname port username password).connectV5 n w = (.ok conn, w0) →
      n.read conn 100 (n.write conn pingreq w0) = (answer pingresp, w1) →
      (n.read conn 100 (n.write conn publishV5Q1 w1)).1 = answer [0x40, 0x02, 0x00, 0x01] →
      (∀ (c : Conn) (w : σ), (n.read c 100 (n.write c publishV5Q2 w)).1.err = true) →
      (∀ (c : Conn) (w : σ), (n.read c 100 (n.write c publishV5Q3 w)).1.err = true) →
      ((NewBrokerInfo hostname port username password).AnalyzeV5 n w).1 = none ∧
      ((NewBrokerInfo hostname port username password).AnalyzeV5 n w).2.1.V5QoS1 = true ∧
      ((NewBrokerInfo hostname port username password).AnalyzeV5 n w).2.1.V5QoS2 = false ∧
      ((NewBrokerInfo hostname port username password).AnalyzeV5 n w).2.1.V5QoS3Response
        = false) :=
  ⟨fun conn w0 w1 hconn hc hping hq1 hq2 hq3 =>
     analyzeV4_qos1_only n _ w conn w0 w1 hconn hc hping hq1 hq2 hq3 rfl rfl,
   fun conn w0 w1 hconn hc hping hq1 hq2 hq3 =>
     analyzeV5_qos1_only n _ w conn w0 w1 hconn hc hping hq1 hq2 hq3 rfl rfl⟩

/-- C9 at the test broker behind connections that die at the first read that fails:
every ping after an unanswered probe fails there, and the run reconnects. -/
theorem analyze_qos1_only_witness :
    (((NewBrokerInfo "localhost" 1883 [] []).AnalyzeV4
        (deadlineNet (testReply noAnswer)) newWire).1 = none ∧
      ((NewBrokerInfo "localhost" 1883 [] []).AnalyzeV4
        (deadlineNet (testReply noAnswer)) newWire).2.1.V4QoS1 = true ∧
      ((NewBrokerInfo "localhost" 1883 [] []).AnalyzeV4
        (deadlineNet (testReply noAnswer)) newWire).2.1.V4QoS2 = false ∧
      ((NewBrokerInfo "localhost" 1883 [] []).AnalyzeV4
        (deadlineNet (testReply noAnswer)) newWire).2.1.V4QoS3Response = false) ∧
    (((NewBrokerInfo "localhost" 1883 [] []).AnalyzeV5
        (deadlineNet (testReply noAnswer)) newWire).1 = none ∧
      ((NewBrokerInfo "localhost" 1883 [] []).AnalyzeV5
        (deadlineNet (testReply noAnswer)) newWire).2.1.V5QoS1 = true ∧
      ((NewBrokerInfo "localhost" 1883 [] []).AnalyzeV5
        (deadlineNet (testReply noAnswer)) newWire).2.1.V5QoS2 = false ∧
      ((NewBrokerInfo "localhost" 1883 [] []).AnalyzeV5
        (deadlineNet (testReply noAnswer)) newWire).2.1.V5QoS3Response = false) :=
  have h := analyze_qos1_only (deadlineNet (testReply noAnswer)) "localhost" 1883 [] [] newWire
  ⟨h.1 0 _ _ (deadline_connectV4 noAnswer) rfl rfl rfl
      (deadline_no_answer _ _ rfl) (deadline_no_answer _ _ rfl),
   h.2 0 _ _ (deadline_connectV5 noAnswer) rfl rfl rfl
      (deadline_no_answer _ _ rfl) (deadline_no_answer _ _ rfl)⟩

/-- C10 as amended. Let the run reach the malformed-QoS probe with local state `p` (the
five blocks before it fall through), and let `r` be the outcome of the read that follows
the malformed-QoS PUBLISH. In `AnalyzeV4`, a successful read sets `V4QoS3Response` to
true, whatever it returned. In `AnalyzeV5`, a successful read whose bytes start with
one of the PUBACK or PUBREC literals `40 02 00 01`, `40 03 00 01 10`, `50 02 00 01`,
`50 03 00 01 10` sets `V5QoS3Response` to true; a successful read of at least five
bytes that start with none of them, or of bytes whose first is neither `40` nor `50`,
leaves `V5QoS3Response` at the value it had before the call. In both, a failing read
leaves the flag at the value it had before the call. -/
theorem analyze_qos3_response {σ : Type} (n : Net σ) (b : BrokerInfo) (w : σ) :
    (∀ (conn : Conn) (w0 : σ) (p : Probe σ) (r : ReadResult) (w1 : σ),
      b.connectV4 n w = (.ok conn, w0) →
      runSteps ((stepsV4 n).take 5)
        { b := b, conn := conn, puback := [], suback := [], w := w0 } = .ok p →
      n.read p.conn 100 (n.write p.conn publishV4Q3 p.w) = (r, w1) →
      (r.err = false → (b.AnalyzeV4 n w).2.1.V4QoS3Response = true) ∧
      (r.err = true → (b.AnalyzeV4 n w).2.1.V4QoS3Response = b.V4QoS3Response)) ∧
    (∀ (conn : Conn) (w0 : σ) (p : Probe σ) (r : ReadResult) (w1 : σ),
      b.connectV5 n w = (.ok conn, w0) →
      runSteps ((stepsV5 n).take 5)
        { b := b, conn := conn, puback := [], suback := [], w := w0 } = .ok p →
      n.read p.conn 100 (n.write p.conn publishV5Q3 p.w) = (r, w1) →
      (r.err = false → matchesV5 r.data = true →
        (b.AnalyzeV5 n w).2.1.V5QoS3Response = true) ∧
      (r.err = false → 5 ≤ r.data.length → matchesV5 r.data = false →
        (b.AnalyzeV5 n w).2.1.V5QoS3Response = b.V5QoS3Response) ∧
      (r.err = false → (∃ x t, r.data = x :: t ∧ x ≠ 0x40 ∧ x ≠ 0x50) →
        (b.AnalyzeV5 n w).2.1.V5QoS3Response = b.V5QoS3Response) ∧
      (r.err = true → (b.AnalyzeV5 n w).2.1.V5QoS3Response = b.V5QoS3Response)) := by
  constructor
  · intro conn w0 p r w1 hc hp hr
    have h := analyzeV4_qos3 n b w conn w0 p r w1 hc hp hr
    constructor
    · intro he
      rw [h, he]
      rfl
    · intro he
      rw [h, he]
      rfl
  · intro conn w0 p r w1 hc hp hr
    have h := analyzeV5_qos3 n b w conn w0 p r w1 hc hp hr
    have hlen := beforeQoS3V5_puback_length n _ _ hp
    refine ⟨?_, ?_, ?_, ?_⟩
    · intro he hm
      rw [h, he, matchesV5_readInto _ _ hlen hm]
      simp
    · intro he h5 hm
      rw [h, he, matchesV5_readInto_eq _ _ hlen h5, hm]
      simp
    · rintro he ⟨x, t, hd, h40, h50⟩
      rw [h, he, hd, matchesV5_readInto_head _ x t hlen h40 h50]
      simp
    · intro he
      rw [h, he]
      simp

/-- C10 fails as stated: against the test broker that answers the malformed-QoS PUBLISH
with the one byte `30`, the read after that PUBLISH succeeds with one byte, `AnalyzeV5`
returns no error, and `V5QoS3Response` is still false. -/
theorem analyzeV5_qos3_unmatched_answer :
    ((replyNet (testReply (answer [0x30]))).read 0 100
      ((replyNet (testReply (answer [0x30]))).write 0 publishV5Q3 idle)).1 = answer [0x30] ∧
    (anonymous.AnalyzeV5 (replyNet (testReply (answer [0x30]))) idle).1 = none ∧
    (anonymous.AnalyzeV5 (replyNet (testReply (answer [0x30]))) idle).2.1.V5QoS3Response
      = false := by
  decide

/-- C10 as amended, at the test broker: an answer `30` sets the flag in `AnalyzeV4` and
leaves it unchanged in `AnalyzeV5`, an answer `50 02 00 01` sets it in `AnalyzeV5`, and
the five bytes `50 02 00 02 00`, which match no literal, leave it unchanged. -/
theorem analyze_qos3_response_witness :
    (anonymous.AnalyzeV4 (replyNet (testReply (answer [0x30]))) idle).2.1.V4QoS3Response
      = true ∧
    (anonymous.AnalyzeV5
      (replyNet (testReply (answer [0x50, 0x02, 0x00, 0x01]))) idle).2.1.V5QoS3Response
      = true ∧
    (anonymous.AnalyzeV5
      (replyNet (testReply (answer [0x30]))) idle).2.1.V5QoS3Response
      = anonymous.V5QoS3Response ∧
    (anonymous.AnalyzeV5
      (replyNet (testReply (answer [0x50, 0x02, 0x00, 0x02, 0x00]))) idle).2.1.V5QoS3Response
      = anonymous.V5QoS3Response :=
  ⟨((analyze_qos3_response (replyNet (testReply (answer [0x30]))) anonymous idle).1
      0 _ _ _ _ rfl rfl rfl).1 rfl,
   ((analyze_qos3_response (replyNet (testReply (answer [0x50, 0x02, 0x00, 0x01])))
      anonymous idle).2 0 _ _ _ _ rfl rfl rfl).1 rfl rfl,
   ((analyze_qos3_response (replyNet (testReply (answer [0x30])))
      anonymous idle).2 0 _ _ _ _ rfl rfl rfl).2.2.1 rfl
      ⟨0x30, [], rfl, by decide, by decide⟩,
   ((analyze_qos3_response (replyNet (testReply (answer [0x50, 0x02, 0x00, 0x02, 0x00])))
      anonymous idle).2 0 _ _ _ _ rfl rfl rfl).2.1 rfl (by decide) rfl⟩

/-- C11 as amended. For `AnalyzeV4` and for `AnalyzeV5`, from every record and state.
Once the connect and the first PING/PINGRESP round trip have succeeded, the routine
returns the error `e` exactly when a reconnection attempt it makes fails with `e`: the
attempt of block 2, 4, 6, 10 or 12, made after a ping that failed, or the attempt of
block 8 or 14, made after `conn.Close()`; so it returns no error, whatever the later
reads return, when every connection attempt succeeds. And for each Finding: when the
run reaches the probe of that Finding and the read of the probe fails there (for QoS 2
the read after the PUBLISH or the one after the PUBREL, for FilterSYS the read after the
one-second wait), the routine ends with that Finding at the value it started with. -/
theorem analyze_later_failures {σ : Type} (n : Net σ) (b : BrokerInfo) (w : σ) :
    ((∀ (conn : Conn) (w0 : σ), b.connectV4 n w = (.ok conn, w0) →
        (n.read conn 100 (n.write conn pingreq w0)).1 = answer pingresp →
        ((∀ e, (b.AnalyzeV4 n w).1 = some e ↔
            ((∃ k ∈ [2, 4, 6, 10, 12], ∃ p, reachesV4 n b w k p ∧
                (pingsBack n p.conn p.w).1 = false ∧
                (p.b.connectV4 n (pingsBack n p.conn p.w).2).1 = .error e) ∨
             (∃ k ∈ [8, 14], ∃ p, reachesV4 n b w k p ∧
                (p.b.connectV4 n (n.close p.conn p.w)).1 = .error e))) ∧
          ((∀ (b1 : BrokerInfo) (w1 : σ), ∃ c w2, b1.connectV4 n w1 = (.ok c, w2)) →
            (b.AnalyzeV4 n w).1 = none))) ∧
      (∀ p, reachesV4 n b w 1 p →
        (n.read p.conn 100 (n.write p.conn publishV4Q1 p.w)).1.err = true →
        (b.AnalyzeV4 n w).2.1.V4QoS1 = b.V4QoS1) ∧
      (∀ p, reachesV4 n b w 3 p →
        ((n.read p.conn 100 (n.write p.conn publishV4Q2 p.w)).1.err = true ∨
          (n.read p.conn 100 (n.write p.conn pubrelV4Q2
            (n.read p.conn 100 (n.write p.conn publishV4Q2 p.w)).2)).1.err = true) →
        (b.AnalyzeV4 n w).2.1.V4QoS2 = b.V4QoS2) ∧
      (∀ p, reachesV4 n b w 5 p →
        (n.read p.conn 100 (n.write p.conn publishV4Q3 p.w)).1.err = true →
        (b.AnalyzeV4 n w).2.1.V4QoS3Response = b.V4QoS3Response) ∧
      (∀ p, reachesV4 n b w 7 p →
        (n.read p.conn 100 (n.write p.conn subAllV4Q0 p.w)).1.err = true →
        (b.AnalyzeV4 n w).2.1.V4SubscribeAll = b.V4SubscribeAll) ∧
      (∀ p, reachesV4 n b w 9 p →
        (n.read p.conn 100 (n.write p.conn subInvalidV4Q0 p.w)).1.err = true →
        (b.AnalyzeV4 n w).2.1.V4InvalidTopics = b.V4InvalidTopics) ∧
      (∀ p, reachesV4 n b w 11 p →
        (n.read p.conn 100 (n.write p.conn subInvalidUTF8V4Q0 p.w)).1.err = true →
        (b.AnalyzeV4 n w).2.1.V4InvalidUTF8Topic = b.V4InvalidUTF8Topic) ∧
      (∀ p, reachesV4 n b w 13 p →
        (n.read p.conn 100 (n.write p.conn pubSysV4Q1 p.w)).1.err = true →
        (b.AnalyzeV4 n w).2.1.V4PublishSYS = b.V4PublishSYS) ∧
      (∀ p, reachesV4 n b w 15 p →
        (n.read p.conn 100 (n.sleep (n.write p.conn subSysAV4Q0 p.w))).1.err = true →
        (b.AnalyzeV4 n w).2.1.V4FilterSYS = b.V4FilterSYS)) ∧
    ((∀ (conn : Conn) (w0 : σ), b.connectV5 n w = (.ok conn, w0) →
        (n.read conn 100 (n.write conn pingreq w0)).1 = answer pingresp →
        ((∀ e, (b.AnalyzeV5 n w).1 = some e ↔
            ((∃ k ∈ [2, 4, 6, 10, 12], ∃ p, reachesV5 n b w k p ∧
                (pingsBack n p.conn p.w).1 = false ∧
                (p.b.connectV5 n (pingsBack n p.conn p.w).2).1 = .error e) ∨
             (∃ k ∈ [8, 14], ∃ p, reachesV5 n b w k p ∧
                (p.b.connectV5 n (n.close p.conn p.w)).1 = .error e))) ∧
          ((∀ (b1 : BrokerInfo) (w1 : σ), ∃ c w2, b1.connectV5 n w1 = (.ok c, w2)) →
            (b.AnalyzeV5 n w).1 = none))) ∧
      (∀ p, reachesV5 n b w 1 p →
        (n.read p.conn 100 (n.write p.conn publishV5Q1 p.w)).1.err = true →
        (b.AnalyzeV5 n w).2.1.V5QoS1 = b.V5QoS1) ∧
      (∀ p, reachesV5 n b w 3 p →
        ((n.read p.conn 100 (n.write p.conn publishV5Q2 p.w)).1.err = true ∨
          (n.read p.conn 100 (n.write p.conn pubrelV5Q2
            (n.read p.conn 100 (n.write p.conn publishV5Q2 p.w)).2)).1.err = true) →
        (b.AnalyzeV5 n w).2.1.V5QoS2 = b.V5QoS2) ∧
      (∀ p, reachesV5 n b w 5 p →
        (n.read p.conn 100 (n.write p.conn publishV5Q3 p.w)).1.err = true →
        (b.AnalyzeV5 n w).2.1.V5QoS3Response = b.V5QoS3Response) ∧
      (∀ p, reachesV5 n b w 7 p →
        (n.read p.conn 100 (n.write p.conn subAllV5Q0 p.w)).1.err = true →
        (b.AnalyzeV5 n w).2.1.V5SubscribeAll = b.V5SubscribeAll) ∧
      (∀ p, reachesV5 n b w 9 p →
        (n.read p.conn 100 (n.write p.conn subInvalidV5Q0 p.w)).1.err = true →
        (b.AnalyzeV5 n w).2.1.V5InvalidTopics = b.V5InvalidTopics) ∧
      (∀ p, reachesV5 n b w 11 p →
        (n.read p.conn 100 (n.write p.conn subInvalidUTF8V5Q0 p.w)).1.err = true →
        (b.AnalyzeV5 n w).2.1.V5InvalidUTF8Topic = b.V5InvalidUTF8Topic) ∧
      (∀ p, reachesV5 n b w 13 p →
        (n.read p.conn 100 (n.write p.conn pubSysV5Q1 p.w)).1.err = true →
        (b.AnalyzeV5 n w).2.1.V5PublishSYS = b.V5PublishSYS) ∧
      (∀ p, reachesV5 n b w 15 p →
        (n.read p.conn 100 (n.sleep (n.write p.conn subSysAV5Q0 p.w))).1.err = true →
        (b.AnalyzeV5 n w).2.1.V5FilterSYS = b.V5FilterSYS)) :=
  ⟨⟨fun conn w0 hc hping =>
      ⟨fun e => by
        rw [analyzeV4_error_iff n b w conn w0 e hc hping]
        simp only [reachesV4_iff n b w conn w0 hc],
       fun hconn => analyzeV4_no_error n b w hconn conn w0 hc hping⟩,
    fun p ⟨conn, w0, hc, hp⟩ h => analyzeV4_qos1_of_failure n b w conn w0 p hc hp h,
    fun p ⟨conn, w0, hc, hp⟩ h => analyzeV4_qos2_of_failure n b w conn w0 p hc hp h,
    fun p ⟨conn, w0, hc, hp⟩ h => analyzeV4_qos3_of_failure n b w conn w0 p hc hp h,
    fun p ⟨conn, w0, hc, hp⟩ h => analyzeV4_subAll_of_failure n b w conn w0 p hc hp h,
    fun p ⟨conn, w0, hc, hp⟩ h => analyzeV4_subInvalid_of_failure n b w conn w0 p hc hp h,
    fun p ⟨conn, w0, hc, hp⟩ h => analyzeV4_subInvalidUTF8_of_failure n b w conn w0 p hc hp h,
    fun p ⟨conn, w0, hc, hp⟩ h => analyzeV4_pubSys_of_failure n b w conn w0 p hc hp h,
    fun p ⟨conn, w0, hc, hp⟩ h => analyzeV4_filterSys_of_failure n b w conn w0 p hc hp h⟩,
   ⟨fun conn w0 hc hping =>
      ⟨fun e => by
        rw [analyzeV5_error_iff n b w conn w0 e hc hping]
        simp only [reachesV5_iff n b w conn w0 hc],
       fun hconn => analyzeV5_no_error n b w hconn conn w0 hc hping⟩,
    fun p ⟨conn, w0, hc, hp⟩ h => analyzeV5_qos1_of_failure n b w conn w0 p hc hp h,
    fun p ⟨conn, w0, hc, hp⟩ h => analyzeV5_qos2_of_failure n b w conn w0 p hc hp h,
    fun p ⟨conn, w0, hc, hp⟩ h => analyzeV5_qos3_of_failure n b w conn w0 p hc hp h,
    fun p ⟨conn, w0, hc, hp⟩ h => analyzeV5_subAll_of_failure n b w conn w0 p hc hp h,
    fun p ⟨conn, w0, hc, hp⟩ h => analyzeV5_subInvalid_of_failure n b w conn w0 p hc hp h,
    fun p ⟨conn, w0, hc, hp⟩ h => analyzeV5_subInvalidUTF8_of_failure n b w conn w0 p hc hp h,
    fun p ⟨conn, w0, hc, hp⟩ h => analyzeV5_pubSys_of_failure n b w conn w0 p hc hp h,
    fun p ⟨conn, w0, hc, hp⟩ h => analyzeV5_filterSys_of_failure n b w conn w0 p hc hp h⟩⟩

/-- C11 fails as stated: on a broker that accepts one dial only, the connect and the
first ping succeed and the routine still returns the error "TCP connection failed", from
the reconnection that follows the wildcard subscription. -/
theorem analyze_reconnect_failure_is_error :
    ((anonymous.connectV4 (dialLimitNet 1 (testReply noAnswer)) offline).1 = .ok 0 ∧
      (pingsBack (dialLimitNet 1 (testReply noAnswer)) 0
        (anonymous.connectV4 (dialLimitNet 1 (testReply noAnswer)) offline).2).1 = true ∧
      (anonymous.AnalyzeV4 (dialLimitNet 1 (testReply noAnswer)) offline).1 =
        some Err.tcpConnectionFailed) ∧
    ((anonymous.connectV5 (dialLimitNet 1 (testReply noAnswer)) offline).1 = .ok 0 ∧
      (pingsBack (dialLimitNet 1 (testReply noAnswer)) 0
        (anonymous.connectV5 (dialLimitNet 1 (testReply noAnswer)) offline).2).1 = true ∧
      (anonymous.AnalyzeV5 (dialLimitNet 1 (testReply noAnswer)) offline).1 =
        some Err.tcpConnectionFailed) := by
  decide

/-- C11 as amended, at two test brokers. Where only one dial is accepted, the attempt of
block 8 fails and the routine returns its error. Where connections die at the first
read that fails and every dial is accepted, the routine returns no error and the failed
read of the wildcard-subscription probe leaves `SubscribeAll` as it was. -/
theorem analyze_later_failures_witness :
    ((anonymous.AnalyzeV4 (dialLimitNet 1 (testReply noAnswer)) offline).1 =
        some Err.tcpConnectionFailed ∧
      (anonymous.AnalyzeV4 (deadlineNet (testReply noAnswer)) newWire).1 = none ∧
      (anonymous.AnalyzeV4 (deadlineNet (testReply noAnswer)) newWire).2.1.V4SubscribeAll =
        anonymous.V4SubscribeAll) ∧
    ((anonymous.AnalyzeV5 (dialLimitNet 1 (testReply noAnswer)) offline).1 =
        some Err.tcpConnectionFailed ∧
      (anonymous.AnalyzeV5 (deadlineNet (testReply noAnswer)) newWire).1 = none ∧
      (anonymous.AnalyzeV5 (deadlineNet (testReply noAnswer)) newWire).2.1.V5SubscribeAll =
        anonymous.V5SubscribeAll) :=
  have hd := analyze_later_failures (dialLimitNet 1 (testReply noAnswer)) anonymous offline
  have hn := analyze_later_failures (deadlineNet (testReply noAnswer)) anonymous newWire
  ⟨⟨((hd.1.1 0 _ rfl rfl).1 Err.tcpConnectionFailed).mpr
      (Or.inr ⟨8, by decide, _, ⟨0, _, rfl, rfl⟩, rfl⟩),
    (hn.1.1 0 _ rfl rfl).2 (deadline_connectV4 noAnswer),
    hn.1.2.2.2.2.1 _ ⟨0, _, rfl, rfl⟩ rfl⟩,
   ⟨((hd.2.1 0 _ rfl rfl).1 Err.tcpConnectionFailed).mpr
      (Or.inr ⟨8, by decide, _, ⟨0, _, rfl, rfl⟩, rfl⟩),
    (hn.2.1 0 _ rfl rfl).2 (deadline_connectV5 noAnswer),
    hn.2.2.2.2.2.1 _ ⟨0, _, rfl, rfl⟩ rfl⟩⟩

/-- C12 as amended. `GuessBroker` applies its rules in order, each on a fresh
connection. Write `r` for the outcome of the read that follows a probe's SUBSCRIBE and
`m` for that of the read after it, `acked r` for "no error and at least five bytes that
start with `90 03 00 01 00`", and say that a message follows when `m` delivers at least
one byte. With the first connection made: if probe 1 (`$SYS/#`) is acknowledged and no
message follows, the guess is "HiveMQ". Otherwise, with the second connection made: if
probe 2 (`$SYS/+/router/subscriptions`) is acknowledged and a message follows, the guess
is "VerneMQ". Otherwise, with the third connection made: if probe 3
(`$SYS/+/load/messages/sent/+`) is acknowledged and a message follows, the search stops
there, with the guess "mosquitto" when `V4PublishSYS` is true and the record unchanged
when it is false; if not, the guess is "HiveMQ" when `V4PublishSYS` is false and the
record is unchanged when it is true. No error is returned, no other field changes, and
the network is left in the state after the last read made. -/
theorem guessBroker_rules {σ : Type} (n : Net σ) (b : BrokerInfo) (w : σ)
    (c1 : Conn) (w1 w1a w1b : σ) (r1 m1 : ReadResult)
    (hc1 : b.connectV4 n w = (.ok c1, w1))
    (hr1 : n.read c1 100 (n.write c1 subSysAllV4Q0 w1) = (r1, w1a))
    (hm1 : n.read c1 100 w1a = (m1, w1b)) :
    (acked r1 = true ∧ m1.data = [] →
      b.GuessBroker n w = (none, { b with TypeGuessed := "HiveMQ" }, w1b)) ∧
    (¬ (acked r1 = true ∧ m1.data = []) →
      ∀ (c2 : Conn) (w2 w2a w2b : σ) (r2 m2 : ReadResult),
        b.connectV4 n (n.close c1 (if acked r1 then w1b else w1a)) = (.ok c2, w2) →
        n.read c2 100 (n.write c2 subSysVerneV4Q0 w2) = (r2, w2a) →
        n.read c2 100 w2a = (m2, w2b) →
        (acked r2 = true ∧ m2.data ≠ [] →
          b.GuessBroker n w = (none, { b with TypeGuessed := "VerneMQ" }, w2b)) ∧
        (¬ (acked r2 = true ∧ m2.data ≠ []) →
          ∀ (c3 : Conn) (w3 w3a w3b : σ) (r3 m3 : ReadResult),
            b.connectV4 n (n.close c2 (if acked r2 then w2b else w2a)) = (.ok c3, w3) →
            n.read c3 100 (n.write c3 subSysMosqV4Q0 w3) = (r3, w3a) →
            n.read c3 100 w3a = (m3, w3b) →
            (acked r3 = true ∧ m3.data ≠ [] →
              b.GuessBroker n w =
                (none, if b.V4PublishSYS then { b with TypeGuessed := "mosquitto" } else b,
                 w3b)) ∧
            (¬ (acked r3 = true ∧ m3.data ≠ []) →
              b.GuessBroker n w =
                (none, if b.V4PublishSYS then b else { b with TypeGuessed := "HiveMQ" },
                 if acked r3 then w3b else w3a)))) := by
  have hmk : (make 100).length = 100 := by simp [make]
  obtain ⟨ha1, -, hb1, hw1⟩ :=
    sysProbe_seen n c1 subSysAllV4Q0 (make 100) w1 r1 m1 w1a w1b hmk hr1 hm1
  constructor
  · rintro ⟨ha, hd⟩
    simp only [BrokerInfo.GuessBroker, hc1, ha1, hw1, ha, hd, decide_True, Bool.and_self,
      if_true]
  · intro h1 c2 w2 w2a w2b r2 m2 hc2 hr2 hm2
    have hf1 : (acked r1 && decide (m1.data = [])) = false := by
      rw [Bool.and_eq_false_iff]
      by_cases ha : acked r1 = true
      · exact Or.inr (decide_eq_false fun hd => h1 ⟨ha, hd⟩)
      · exact Or.inl (Bool.not_eq_true _ ▸ ha)
    obtain ⟨-, ha2, hb2, hw2⟩ :=
      sysProbe_seen n c2 subSysVerneV4Q0 (readInto (make 100) r1.data) w2 r2 m2 w2a w2b
        (by rw [readInto_length]; exact hmk) hr2 hm2
    constructor
    · rintro ⟨ha, hd⟩
      simp only [BrokerInfo.GuessBroker, hc1, ha1, hw1, hb1, hf1, hc2, ha2, hw2, ha,
        decide_eq_true hd, Bool.and_self, if_true, Bool.false_eq_true, if_false]
    · intro h2 c3 w3 w3a w3b r3 m3 hc3 hr3 hm3
      have hf2 : (acked r2 && decide (m2.data ≠ [])) = false := by
        rw [Bool.and_eq_false_iff]
        by_cases ha : acked r2 = true
        · exact Or.inr (decide_eq_false fun hd => h2 ⟨ha, hd⟩)
        · exact Or.inl (Bool.not_eq_true _ ▸ ha)
      obtain ⟨-, ha3, -, hw3⟩ :=
        sysProbe_seen n c3 subSysMosqV4Q0 (readInto (readInto (make 100) r1.data) r2.data)
          w3 r3 m3 w3a w3b (by rw [readInto_length, readInto_length]; exact hmk) hr3 hm3
      constructor
      · rintro ⟨ha, hd⟩
        simp only [BrokerInfo.GuessBroker, hc1, ha1, hw1, hb1, hf1, hc2, ha2, hw2, hb2, hf2,
          hc3, ha3, hw3, ha, decide_eq_true hd, Bool.and_self, if_true, Bool.false_eq_true,
          if_false]
      · intro h3
        have hf3 : (acked r3 && decide (m3.data ≠ [])) = false := by
          rw [Bool.and_eq_false_iff]
          by_cases ha : acked r3 = true
          · exact Or.inr (decide_eq_false fun hd => h3 ⟨ha, hd⟩)
          · exact Or.inl (Bool.not_eq_true _ ▸ ha)
        simp only [BrokerInfo.GuessBroker, hc1, ha1, hw1, hb1, hf1, hc2, ha2, hw2, hb2, hf2,
          hc3, ha3, hw3, hf3, Bool.false_eq_true, if_false]
        cases b.V4PublishSYS <;> rfl

/-- C12 fails as stated: on a broker whose third probe alone is acknowledged and
followed by a message, and with `V4PublishSYS` false, the first two probes get no
answer, so none of the first three stated rules fires and the stated list gives
"HiveMQ"; `GuessBroker` returns no error and leaves the guess at "unknown". -/
theorem guessBroker_stops_at_third_probe :
    acked (sysReply false false false false true true subSysAllV4Q0 0) = false ∧
    acked (sysReply false false false false true true subSysVerneV4Q0 0) = false ∧
    acked (sysReply false false false false true true subSysMosqV4Q0 0) = true ∧
    (sysReply false false false false true true subSysMosqV4Q0 1).data ≠ [] ∧
    anonymous.V4PublishSYS = false ∧
    statedRule false false false false true true false "unknown" = "HiveMQ" ∧
    (anonymous.GuessBroker
      (replyNet (sysReply false false false false true true)) idle).1 = none ∧
    (anonymous.GuessBroker
      (replyNet (sysReply false false false false true true)) idle).2.1.TypeGuessed
      = "unknown" := by
  decide

/-- C12 as amended, on a broker whose third probe alone is acknowledged and followed by
a message, from a record with `V4PublishSYS` true: the guess is "mosquitto". -/
theorem guessBroker_rules_witness :
    sysPublisher.GuessBroker (replyNet (sysReply false false false false true true)) idle =
      (none, { sysPublisher with TypeGuessed := "mosquitto" },
        { last := subSysMosqV4Q0, reads := 2 }) :=
  ((((guessBroker_rules (replyNet (sysReply false false false false true true))
      sysPublisher idle 0 _ _ _ _ _ rfl rfl rfl).2 (by decide)
      0 _ _ _ _ _ rfl rfl rfl).2 (by decide)
      0 _ _ _ _ _ rfl rfl rfl).1 (by decide))

/-- C13: from every record and state, if the handshake succeeds, the read that follows
the SUBSCRIBE to `$SYS/#` succeeds with bytes that start with `90 03 00 01 00`, and the
next read delivers no bytes, then `GuessBroker` returns no error and the record is the
starting one with `TypeGuessed` set to "HiveMQ". -/
theorem guessBroker_hivemq {σ : Type} (n : Net σ) (b : BrokerInfo) (w : σ)
    (conn : Conn) (w1 w2 w3 : σ) (r1 r2 : ReadResult)
    (hc : b.connectV4 n w = (.ok conn, w1))
    (h1 : n.read conn 100 (n.write conn subSysAllV4Q0 w1) = (r1, w2))
    (he : r1.err = false)
    (hp : startsWith r1.data subackV4Q0 = true)
    (h2 : n.read conn 100 w2 = (r2, w3))
    (hz : r2.data = []) :
    (b.GuessBroker n w).1 = none ∧
    (b.GuessBroker n w).2.1 = { b with TypeGuessed := "HiveMQ" } := by
  have hs := sysProbe_of_reads n conn subSysAllV4Q0 w1 r1 r2 w2 w3 h1 he hp h2
  simp only [BrokerInfo.GuessBroker, hc, hs, hz]
  simp

/-- C13 at the test broker that acknowledges `$SYS/#` and sends nothing more, from a
record with credentials. -/
theorem guessBroker_hivemq_witness :
    (shortCredentials.GuessBroker
      (replyNet (sysReply true false false false false false)) idle).1 = none ∧
    (shortCredentials.GuessBroker
      (replyNet (sysReply true false false false false false)) idle).2.1 =
        { shortCredentials with TypeGuessed := "HiveMQ" } :=
  guessBroker_hivemq (replyNet (sysReply true false false false false false))
    shortCredentials idle 0 _ _ _ _ _ rfl rfl rfl rfl rfl rfl

/-- C14 fails on the code, by zero padding and by left-over bytes. On the test broker
of `shortReply` the read after the SUBSCRIBE to `#` returns the four bytes
`90 03 00 01` (`90 04 00 01` for v5.0), which do not start with the SUBACK literal, and
`SubscribeAll` is set; the read after the PUBLISH to `$SYS` returns the one byte `40`,
which starts with no PUBACK literal, and `PublishSYS` is set, from the bytes that the
QoS 1 probe left in the buffer. -/
theorem analyze_matches_beyond_read :
    (startsWith [0x90, 0x03, 0x00, 0x01] subackV4Q0 = false ∧
      (anonymous.AnalyzeV4 (replyNet shortReply) idle).2.1.V4SubscribeAll = true ∧
      startsWith [0x40] pubackV4Q1 = false ∧
      (anonymous.AnalyzeV4 (replyNet shortReply) idle).2.1.V4PublishSYS = true) ∧
    (startsWith [0x90, 0x04, 0x00, 0x01] subackV5Q0 = false ∧
      (anonymous.AnalyzeV5 (replyNet shortReply) idle).2.1.V5SubscribeAll = true ∧
      (startsWith [0x40] pubackV5Q1a || startsWith [0x40] pubackV5Q1b) = false ∧
      (anonymous.AnalyzeV5 (replyNet shortReply) idle).2.1.V5PublishSYS = true) := by
  decide

end Mqttinfo
